import Mathlib

/-! OmniFocus command-line bridge: shallow embedding and verified properties.

The scripting payloads (`jxa/read`, `jxa/write`), their shared helpers
(`jxa/utils/helpers.js`) and the script runner (`src/jxa-runner.js`) are embedded
as pure functions.  The scripted application is an explicit state value that the
payloads read and pass on; every mutating bridge call is recorded in the journal
of that state.  Timestamps are integers (milliseconds since the epoch).
-/

namespace OmniFocus

/-! ## JavaScript values and string helpers -/

/-- JSON values as produced by `JSON.stringify` and consumed by `JSON.parse`.
Numbers are integers; a property whose value is `undefined` is absent. -/
inductive Json where
  | null : Json
  | bool (b : Bool) : Json
  | num (n : Int) : Json
  | str (s : String) : Json
  | arr (items : List Json) : Json
  | obj (fields : List (String × Json)) : Json

/-- Property lookup on an object literal: the first field of that key. -/
def lookupField (key : String) : List (String × Json) → Option Json
  | [] => none
  | (k, v) :: rest => if k = key then some v else lookupField key rest

/-- Property access `value.key`; absent on anything that is not an object. -/
def Json.get (j : Json) (key : String) : Option Json :=
  match j with
  | Json.obj fields => lookupField key fields
  | _ => none

/-- Object literal as serialised by `JSON.stringify`: properties whose value is
`undefined` (here `none`) are dropped. -/
def mkObj (fields : List (String × Option Json)) : Json :=
  Json.obj (fields.filterMap (fun kv => kv.2.map (fun v => (kv.1, v))))

/-- The pattern `value || null` for a string: `null` for a missing or empty string. -/
def strOrNull (s : Option String) : Json :=
  match s with
  | some v => if v = "" then Json.null else Json.str v
  | none => Json.null

/-- The pattern `value || fallback` for a string. -/
def strOr (s : Option String) (fallback : String) : String :=
  match s with
  | some v => if v = "" then fallback else v
  | none => fallback

/-- JavaScript truthiness of an optional string (absent and empty are falsy). -/
def strTruthy (s : Option String) : Bool :=
  match s with
  | some v => decide (v ≠ "")
  | none => false

/-- Optional timestamp rendered as JSON by a given ISO formatter, `null` when absent. -/
def dateOrNull (iso : Int → String) (d : Option Int) : Json :=
  match d with
  | some t => Json.str (iso t)
  | none => Json.null

/-- Code points removed by `String.prototype.trim` (WhiteSpace and LineTerminator). -/
def isJsSpace (c : Char) : Bool :=
  let n := c.toNat
  n = 0x09 || n = 0x0A || n = 0x0B || n = 0x0C || n = 0x0D || n = 0x20 || n = 0xA0 ||
  n = 0x1680 || (0x2000 ≤ n && n ≤ 0x200A) || n = 0x2028 || n = 0x2029 || n = 0x202F ||
  n = 0x205F || n = 0x3000 || n = 0xFEFF

/-- The method `String.prototype.trim` on a list of characters. -/
def trimChars (cs : List Char) : List Char :=
  ((cs.dropWhile isJsSpace).reverse.dropWhile isJsSpace).reverse

/-- The method `String.prototype.trim`. -/
def jsTrim (s : String) : String := String.mk (trimChars s.data)

/-- The method `String.prototype.includes`: the needle occurs as a contiguous run. -/
def jsIncludes (haystack needle : String) : Bool :=
  decide (needle.data <:+: haystack.data)

/-- The call `text.split(",")` on a list of characters: never returns the empty list. -/
def splitComma : List Char → List (List Char)
  | [] => [[]]
  | c :: rest =>
    if c = ',' then [] :: splitComma rest
    else
      match splitComma rest with
      | [] => [[c]]
      | piece :: pieces => (c :: piece) :: pieces

/-! ## Entities of the scripted application -/

/-- Outcome of a bridge accessor that the payloads guard with `try`/`catch`. -/
inductive Access (α : Type) where
  | value (a : α) : Access α
  | throws : Access α
deriving DecidableEq, Repr

/-- A tag; `container` is the id of the parent tag, if any. -/
structure Tag where
  id : String
  name : String
  hidden : Bool := false
  allowsNextAction : Bool := true
  container : Option String := none
deriving DecidableEq, Repr

/-- A folder; `container` is the id of the parent folder, if any. -/
structure Folder where
  id : String
  name : String
  note : String := ""
  hidden : Bool := false
  container : Option String := none
deriving DecidableEq, Repr

/-- The four project states of the application. -/
inductive ProjectStatus where
  | active : ProjectStatus
  | onHold : ProjectStatus
  | done : ProjectStatus
  | dropped : ProjectStatus
deriving DecidableEq, Repr

/-- The string the bridge uses for a project status. -/
def ProjectStatus.text : ProjectStatus → String
  | ProjectStatus.active => "active status"
  | ProjectStatus.onHold => "on hold status"
  | ProjectStatus.done => "done status"
  | ProjectStatus.dropped => "dropped status"

/-- A project; `folder` and `primaryTag` are ids (weak references). -/
structure Project where
  id : String
  name : String
  note : String := ""
  status : ProjectStatus := ProjectStatus.active
  flagged : Bool := false
  sequential : Bool := false
  singletonActionHolder : Bool := false
  deferDate : Option Int := none
  dueDate : Option Int := none
  completionDate : Option Int := none
  lastReviewDate : Option Int := none
  nextReviewDate : Option Int := none
  folder : Option String := none
  primaryTag : Option String := none
deriving DecidableEq, Repr

/-- A task; `project` and `tags` are ids (weak references). -/
structure Task where
  id : String
  name : String
  note : String := ""
  completed : Bool := false
  dropped : Bool := false
  flagged : Bool := false
  blocked : Bool := false
  inInbox : Bool := true
  deferDate : Option Int := none
  dueDate : Option Int := none
  completionDate : Option Int := none
  estimatedMinutes : Option Int := none
  project : Option String := none
  tags : List String := []
deriving DecidableEq, Repr

/-- A mutating call issued over the scripting bridge. -/
inductive AppCall where
  | create (kind name : String) : AppCall
  | assign (target property : String) : AppCall
  | addTag (task tag : String) : AppCall
  | move (item destination : String) : AppCall
  | delete (item : String) : AppCall
  | markComplete (item : String) : AppCall
  | markDropped (item : String) : AppCall
deriving DecidableEq, Repr

/-- The default document of the scripted application: the flattened collections in
the application's enumeration order, the counter behind new identifiers, and the
journal of mutating calls issued so far. -/
structure AppState where
  tasks : List Task := []
  projects : List Project := []
  folders : List Folder := []
  tags : List Tag := []
  nextId : Nat := 0
  journal : List AppCall := []
deriving DecidableEq, Repr

/-! ## Entity lookup (`helpers.js`) -/

/-- First pass of `findProject`: linear scan for an equal id. -/
def scanProjectById (nameOrId : String) : List Project → Option Project
  | [] => none
  | p :: rest => if p.id = nameOrId then some p else scanProjectById nameOrId rest

/-- Second pass of `findProject`: linear scan for an equal name. -/
def scanProjectByName (nameOrId : String) : List Project → Option Project
  | [] => none
  | p :: rest => if p.name = nameOrId then some p else scanProjectByName nameOrId rest

/-- The helper `findProject(doc, nameOrId)`: by id first, then by name, else `null`. -/
def findProject (doc : AppState) (nameOrId : String) : Option Project :=
  match scanProjectById nameOrId doc.projects with
  | some p => some p
  | none =>
    match scanProjectByName nameOrId doc.projects with
    | some p => some p
    | none => none

/-- The single loop of `findTag`: the first tag whose id or name equals the argument. -/
def scanTag (nameOrId : String) : List Tag → Option Tag
  | [] => none
  | t :: rest => if t.id = nameOrId ∨ t.name = nameOrId then some t else scanTag nameOrId rest

/-- The helper `findTag(doc, nameOrId)`. -/
def findTag (doc : AppState) (nameOrId : String) : Option Tag :=
  scanTag nameOrId doc.tags

/-- The single loop of `findFolder`: the first folder whose id or name equals the argument. -/
def scanFolder (nameOrId : String) : List Folder → Option Folder
  | [] => none
  | f :: rest => if f.id = nameOrId ∨ f.name = nameOrId then some f else scanFolder nameOrId rest

/-- The helper `findFolder(doc, nameOrId)`. -/
def findFolder (doc : AppState) (nameOrId : String) : Option Folder :=
  scanFolder nameOrId doc.folders

/-- The loop of `findTask`: the first task with an equal id. -/
def scanTask (taskId : String) : List Task → Option Task
  | [] => none
  | t :: rest => if t.id = taskId then some t else scanTask taskId rest

/-- The helper `findTask(doc, taskId)`. -/
def findTask (doc : AppState) (taskId : String) : Option Task :=
  scanTask taskId doc.tasks

/-! ## Platform services and dates -/

/-- Services of the JavaScript host that the scripts call and that are not part of
the repository: the clock; the local time zone as the abstract operation
`LocalTZA(t, isUTC)`, the offset in milliseconds of local time from UTC at the
time value `t`, which is a UTC time value when `isUTC` is true and a local time
value otherwise; the absolute date parser behind the `Date` constructor; the
method `toISOString`; the method `toLowerCase`; and the reaction of the
scripting bridge when a value that is not a string is assigned to the status of
a project: the message of the error it raises, or the status that the project
shows afterwards. -/
structure Platform where
  now : Int
  localTZA : Int → Bool → Int
  dateParse : String → Option Int
  toISOString : Int → String
  toLowerCase : String → String
  foreignStatus : Project → Except String ProjectStatus

/-- Milliseconds per day. -/
def msPerDay : Int := 86400000

/-- Largest magnitude of a valid time value. -/
def maxTime : Int := 8640000000000000

/-- A `Date` object: its time value, or `none` for an invalid date (`NaN`). -/
abbrev JsDate := Option Int

/-- The abstract operation `TimeClip`. -/
def timeClip (t : Int) : JsDate :=
  if -maxTime ≤ t ∧ t ≤ maxTime then some t else none

/-- A time value within the range of `Date`: magnitude at most `maxTime`. -/
def ValidTime (t : Int) : Prop := -maxTime ≤ t ∧ t ≤ maxTime

instance (t : Int) : Decidable (ValidTime t) := by
  unfold ValidTime
  infer_instance

/-- Day number of a civil date (proleptic Gregorian calendar), month in 1..12. -/
def daysFromCivil (year month day : Int) : Int :=
  let y := if month ≤ 2 then year - 1 else year
  let era := y / 400
  let yoe := y - era * 400
  let mp := if month > 2 then month - 3 else month + 9
  let doy := (153 * mp + 2) / 5 + day - 1
  let doe := yoe * 365 + yoe / 4 - yoe / 100 + doy
  era * 146097 + doe - 719468

/-- Civil date (year, month in 1..12, day of month) of a day number. -/
def civilFromDays (days : Int) : Int × Int × Int :=
  let z := days + 719468
  let era := z / 146097
  let doe := z - era * 146097
  let yoe := (doe - doe / 1460 + doe / 36524 - doe / 146096) / 365
  let doy := doe - (365 * yoe + yoe / 4 - yoe / 100)
  let mp := (5 * doy + 2) / 153
  let d := doy - (153 * mp + 2) / 5 + 1
  let m := if mp < 10 then mp + 3 else mp - 9
  let y := yoe + era * 400
  (if m ≤ 2 then y + 1 else y, m, d)

/-- The abstract operation `MakeDay(year, month, date)` with a zero-based month
that may lie outside 0..11 and a day of month that may lie outside the month. -/
def makeDay (year month date : Int) : Int :=
  daysFromCivil (year + month / 12) (month % 12 + 1) 1 + (date - 1)

/-- The abstract operation `LocalTime(t)`: the local time value of a UTC time value,
with the offset in force at that instant. -/
def localTime (P : Platform) (t : Int) : Int := t + P.localTZA t true

/-- The abstract operation `UTC(t)`: the UTC time value of a local time value. -/
def utcTime (P : Platform) (t : Int) : Int := t - P.localTZA t false

/-- Local day number of a time value. -/
def localDay (P : Platform) (t : Int) : Int := localTime P t / msPerDay

/-- Local time within the day of a time value. -/
def timeInDay (P : Platform) (t : Int) : Int := localTime P t % msPerDay

/-- The time value of a local day number and a time within the day:
`UTC(MakeDate(day, time))`. -/
def localInstant (P : Platform) (day msInDay : Int) : Int :=
  utcTime P (day * msPerDay + msInDay)

/-- The date at a local day number and time within the day, clipped. -/
def makeLocal (P : Platform) (day msInDay : Int) : JsDate :=
  timeClip (localInstant P day msInDay)

/-- Five in the afternoon as milliseconds within the day. -/
def fivePm : Int := 17 * 3600000

/-- The statement `d.setDate(d.getDate() + delta)`: the local day number moves by
`delta` days, the local time within the day is kept, and the result is read
back as a time value with the offset of the target day. -/
def addDays (P : Platform) (d : JsDate) (delta : Int) : JsDate :=
  match d with
  | some t => makeLocal P (localDay P t + delta) (timeInDay P t)
  | none => none

/-- The statement `d.setMonth(d.getMonth() + delta)`. -/
def addMonths (P : Platform) (d : JsDate) (delta : Int) : JsDate :=
  match d with
  | some t =>
    let c := civilFromDays (localDay P t)
    makeLocal P (makeDay c.1 (c.2.1 - 1 + delta) c.2.2) (timeInDay P t)
  | none => none

/-- The statement `d.setHours(17, 0, 0, 0)`: five in the afternoon, local time, on
the local day of the date. -/
def setHoursFivePm (P : Platform) (d : JsDate) : JsDate :=
  match d with
  | some t => makeLocal P (localDay P t) fivePm
  | none => none

/-- The expression `new Date(now.getFullYear(), now.getMonth(), now.getDate(), 17, 0, 0)`:
the local day of the clock at five in the afternoon; the constructor reads a year
in 0..99 as 1900 plus that year. -/
def todayFivePm (P : Platform) : JsDate :=
  let c := civilFromDays (localDay P P.now)
  if 0 ≤ c.1 ∧ c.1 ≤ 99 then makeLocal P (makeDay (1900 + c.1) (c.2.1 - 1) c.2.2) fivePm
  else makeLocal P (localDay P P.now) fivePm

/-- Value of a run of decimal digits (`parseInt(text, 10)`). -/
def digitsValue (cs : List Char) : Nat :=
  cs.foldl (fun acc c => 10 * acc + (c.toNat - 48)) 0

/-- Match of the pattern `^\+(\d+)<unit>$`: the captured number. -/
def matchPlus (unit : Char) (cs : List Char) : Option Nat :=
  match cs with
  | '+' :: rest =>
    match rest.reverse with
    | last :: revDigits =>
      if last = unit ∧ revDigits ≠ [] ∧ revDigits.all Char.isDigit
      then some (digitsValue revDigits.reverse) else none
    | [] => none
  | _ => none

/-- The helper `parseDate(dateStr)`: `none` is `null`, `some d` a `Date` object. -/
def parseDate (P : Platform) (dateStr : String) : Option JsDate :=
  if dateStr = "" then none
  else
    let lowerDate := jsTrim (P.toLowerCase dateStr)
    if lowerDate = "today" then some (todayFivePm P)
    else if lowerDate = "tomorrow" then some (setHoursFivePm P (addDays P (some P.now) 1))
    else if lowerDate = "next week" then some (setHoursFivePm P (addDays P (some P.now) 7))
    else
      match matchPlus 'd' lowerDate.data with
      | some n => some (setHoursFivePm P (addDays P (some P.now) n))
      | none =>
        match matchPlus 'w' lowerDate.data with
        | some n => some (setHoursFivePm P (addDays P (some P.now) (n * 7)))
        | none =>
          match P.dateParse dateStr with
          | some t => some (some t)
          | none => none

/-- The comparison `a > b` of a stored date with a `Date` object (false on `NaN`). -/
def dateGt (a : Int) (b : JsDate) : Bool :=
  match b with
  | some v => decide (a > v)
  | none => false

/-- The comparison `a < b` of a stored date with a `Date` object (false on `NaN`). -/
def dateLt (a : Int) (b : JsDate) : Bool :=
  match b with
  | some v => decide (a < v)
  | none => false

/-! ## Guarded accessors and formatters (`helpers.js`) -/

/-- Resolution of a list of tag ids against the document. -/
def resolveTags (doc : AppState) : List String → Option (List Tag)
  | [] => some []
  | i :: rest =>
    match doc.tags.find? (fun t => decide (t.id = i)), resolveTags doc rest with
    | some t, some ts => some (t :: ts)
    | _, _ => none

/-- The accessor `task.tags()`; the bridge throws on a reference it cannot resolve. -/
def taskTags (doc : AppState) (task : Task) : Access (List Tag) :=
  match resolveTags doc task.tags with
  | some ts => Access.value ts
  | none => Access.throws

/-- The accessor `task.containingProject()`; `null` for a task outside any project,
and the bridge throws on a reference it cannot resolve. -/
def taskProject (doc : AppState) (task : Task) : Access (Option Project) :=
  match task.project with
  | none => Access.value none
  | some pid =>
    match doc.projects.find? (fun p => decide (p.id = pid)) with
    | some p => Access.value (some p)
    | none => Access.throws

/-- Name reported by a guarded container lookup: the name of the entity with the
given id among the candidates, `null` when there is none. -/
def nameOfRef (ref : Option String) (candidates : List (String × String)) : Json :=
  match ref with
  | none => Json.null
  | some i =>
    match candidates.find? (fun c => decide (c.1 = i)) with
    | some c => Json.str c.2
    | none => Json.null

/-- The pattern `count || null` for a number. -/
def numOrNull (n : Option Int) : Json :=
  match n with
  | some v => if v = 0 then Json.null else Json.num v
  | none => Json.null

/-- The helper `formatTask(task)`. -/
def formatTask (P : Platform) (doc : AppState) (task : Task) : Json :=
  let tags : List Json :=
    match taskTags doc task with
    | Access.value ts => ts.map (fun t => Json.str t.name)
    | Access.throws => []
  let projectName : Json :=
    match taskProject doc task with
    | Access.value (some p) => Json.str p.name
    | _ => Json.null
  Json.obj [
    ("id", Json.str task.id),
    ("name", Json.str task.name),
    ("note", Json.str task.note),
    ("completed", Json.bool task.completed),
    ("flagged", Json.bool task.flagged),
    ("deferDate", dateOrNull P.toISOString task.deferDate),
    ("dueDate", dateOrNull P.toISOString task.dueDate),
    ("completionDate", dateOrNull P.toISOString task.completionDate),
    ("estimatedMinutes", numOrNull task.estimatedMinutes),
    ("inInbox", Json.bool task.inInbox),
    ("blocked", Json.bool task.blocked),
    ("tags", Json.arr tags),
    ("projectName", projectName)]

/-- Tasks that belong to a project. -/
def projectTasks (doc : AppState) (p : Project) : List Task :=
  doc.tasks.filter (fun t => decide (t.project = some p.id))

/-- A task that can be acted on: not completed, not dropped, not blocked. -/
def Task.isAvailable (t : Task) : Bool := !t.completed && !t.dropped && !t.blocked

/-- The helper `formatProject(project)`. -/
def formatProject (P : Platform) (doc : AppState) (project : Project) : Json :=
  Json.obj [
    ("id", Json.str project.id),
    ("name", Json.str project.name),
    ("note", Json.str project.note),
    ("status", Json.str project.status.text),
    ("completed", Json.bool (decide (project.status = ProjectStatus.done))),
    ("flagged", Json.bool project.flagged),
    ("sequential", Json.bool project.sequential),
    ("deferDate", dateOrNull P.toISOString project.deferDate),
    ("dueDate", dateOrNull P.toISOString project.dueDate),
    ("completionDate", dateOrNull P.toISOString project.completionDate),
    ("lastReviewDate", dateOrNull P.toISOString project.lastReviewDate),
    ("nextReviewDate", dateOrNull P.toISOString project.nextReviewDate),
    ("taskCount", Json.num (projectTasks doc project).length),
    ("availableTaskCount", Json.num ((projectTasks doc project).filter Task.isAvailable).length),
    ("completedTaskCount", Json.num ((projectTasks doc project).filter (fun t => t.completed)).length),
    ("folderName", nameOfRef project.folder (doc.folders.map (fun f => (f.id, f.name)))),
    ("primaryTag", nameOfRef project.primaryTag (doc.tags.map (fun t => (t.id, t.name)))),
    ("singletonActionHolder", Json.bool project.singletonActionHolder)]

/-- The helper `formatFolder(folder)`; a top-level folder reports no container name. -/
def formatFolder (doc : AppState) (folder : Folder) : Json :=
  Json.obj [
    ("id", Json.str folder.id),
    ("name", Json.str folder.name),
    ("note", Json.str folder.note),
    ("hidden", Json.bool folder.hidden),
    ("projectCount", Json.num (doc.projects.filter (fun p => decide (p.folder = some folder.id))).length),
    ("folderCount", Json.num (doc.folders.filter (fun f => decide (f.container = some folder.id))).length),
    ("containerName", nameOfRef folder.container (doc.folders.map (fun f => (f.id, f.name))))]

/-- Tasks that carry a tag. -/
def tagTasks (doc : AppState) (tag : Tag) : List Task :=
  doc.tasks.filter (fun t => decide (tag.id ∈ t.tags))

/-- The helper `formatTag(tag)`; a top-level tag reports no container name. -/
def formatTag (doc : AppState) (tag : Tag) : Json :=
  Json.obj [
    ("id", Json.str tag.id),
    ("name", Json.str tag.name),
    ("allowsNextAction", Json.bool tag.allowsNextAction),
    ("hidden", Json.bool tag.hidden),
    ("taskCount", Json.num ((tagTasks doc tag).filter Task.isAvailable).length),
    ("remainingTaskCount", Json.num ((tagTasks doc tag).filter (fun t => !t.completed && !t.dropped)).length),
    ("containerName", nameOfRef tag.container (doc.tags.map (fun t => (t.id, t.name))))]

/-! ## The search payload (`jxa/read/search.js`) -/

/-- Options object of the search payload, as the front ends encode it. -/
structure SearchOpts where
  limit : Option Int := none
  includeCompleted : Bool := false
  flagged : Bool := false
  available : Bool := false
  requireDue : Bool := false
  project : Option String := none
  tag : Option String := none
  dueBefore : Option String := none
  dueAfter : Option String := none
  deferBefore : Option String := none
  deferAfter : Option String := none

/-- The pattern `opts.limit || fallback`: a missing or zero limit yields the fallback. -/
def limitOr (limit : Option Int) (fallback : Int) : Int :=
  match limit with
  | some n => if n = 0 then fallback else n
  | none => fallback

/-- The pattern `opts.key ? parseDate(opts.key) : null`. -/
def parseDateOpt (P : Platform) (s : Option String) : Option JsDate :=
  match s with
  | some v => if v = "" then none else parseDate P v
  | none => none

/-- Filters of one search invocation after the pre-resolution step. -/
structure SearchFilters where
  targetProject : Option Project
  targetTag : Option Tag
  dueBefore : Option JsDate
  dueAfter : Option JsDate
  deferBefore : Option JsDate
  deferAfter : Option JsDate
  queryLower : String

/-- Completed-state check: skip completed tasks unless requested. -/
def passCompleted (opts : SearchOpts) (task : Task) : Bool :=
  !(!opts.includeCompleted && task.completed)

/-- Flagged check. -/
def passFlagged (opts : SearchOpts) (task : Task) : Bool :=
  !(opts.flagged && !task.flagged)

/-- Availability check: not blocked and no defer date after the current instant. -/
def passAvailable (P : Platform) (opts : SearchOpts) (task : Task) : Bool :=
  if opts.available then
    if task.blocked then false
    else
      match task.deferDate with
      | some d => !decide (d > P.now)
      | none => true
  else true

/-- Project check: the containing project exists and has the id of the target. -/
def passProject (doc : AppState) (f : SearchFilters) (task : Task) : Bool :=
  match f.targetProject with
  | some target =>
    match taskProject doc task with
    | Access.value (some p) => decide (p.id = target.id)
    | Access.value none => false
    | Access.throws => false
  | none => true

/-- Inner loop of the tag check: some tag of the task has the id of the target. -/
def hasTagId (targetId : String) : List Tag → Bool
  | [] => false
  | t :: rest => if t.id = targetId then true else hasTagId targetId rest

/-- Tag check. -/
def passTag (doc : AppState) (f : SearchFilters) (task : Task) : Bool :=
  match f.targetTag with
  | some target =>
    match taskTags doc task with
    | Access.value ts => hasTagId target.id ts
    | Access.throws => false
  | none => true

/-- Due-date window check. -/
def passDue (opts : SearchOpts) (f : SearchFilters) (task : Task) : Bool :=
  if f.dueBefore.isSome || f.dueAfter.isSome then
    match task.dueDate with
    | none => !opts.requireDue
    | some taskDue =>
      if (match f.dueBefore with
          | some b => dateGt taskDue b
          | none => false) then false
      else if (match f.dueAfter with
          | some a => dateLt taskDue a
          | none => false) then false
      else true
  else true

/-- Defer-date window check. -/
def passDefer (f : SearchFilters) (task : Task) : Bool :=
  if f.deferBefore.isSome || f.deferAfter.isSome then
    match task.deferDate with
    | none => false
    | some taskDefer =>
      if (match f.deferBefore with
          | some b => dateGt taskDefer b
          | none => false) then false
      else if (match f.deferAfter with
          | some a => dateLt taskDefer a
          | none => false) then false
      else true
  else true

/-- Free-text check against the lower-cased name and note. -/
def passText (P : Platform) (f : SearchFilters) (task : Task) : Bool :=
  if f.queryLower ≠ "" then
    jsIncludes (P.toLowerCase task.name) f.queryLower ||
      jsIncludes (P.toLowerCase task.note) f.queryLower
  else true

/-- Body of the scan loop up to the push: true when no check skips the task. -/
def searchKeeps (P : Platform) (doc : AppState) (opts : SearchOpts) (f : SearchFilters)
    (task : Task) : Bool :=
  passCompleted opts task && passFlagged opts task && passAvailable P opts task &&
    passProject doc f task && passTag doc f task && passDue opts f task &&
    passDefer f task && passText P f task

/-- The scan loop `for (i = 0; i < allTasks.length && count < limit; i++)`, with the
result array and the counter as accumulators. -/
def searchLoop (keep : Task → Bool) (fmt : Task → Json) (limit : Int) :
    List Task → Int → List Json → List Json
  | [], _, tasks => tasks
  | task :: rest, count, tasks =>
    if count < limit then
      if keep task then searchLoop keep fmt limit rest (count + 1) (tasks ++ [fmt task])
      else searchLoop keep fmt limit rest count tasks
    else tasks

/-- The filters after pre-resolution, given the resolved project and tag. -/
def searchFilters (P : Platform) (query : String) (opts : SearchOpts)
    (targetProject : Option Project) (targetTag : Option Tag) : SearchFilters :=
  { targetProject := targetProject
    targetTag := targetTag
    dueBefore := parseDateOpt P opts.dueBefore
    dueAfter := parseDateOpt P opts.dueAfter
    deferBefore := parseDateOpt P opts.deferBefore
    deferAfter := parseDateOpt P opts.deferAfter
    queryLower := if query = "" then "" else P.toLowerCase query }

/-- The scan and the success envelope of the search payload. -/
def searchRun (P : Platform) (doc : AppState) (query : String) (opts : SearchOpts)
    (f : SearchFilters) : Json :=
  let tasks := searchLoop (searchKeeps P doc opts f) (formatTask P doc) (limitOr opts.limit 50)
    doc.tasks 0 []
  Json.obj [
    ("success", Json.bool true),
    ("tasks", Json.arr tasks),
    ("query", Json.str (if query = "" then "(filter only)" else query)),
    ("filters", Json.obj [
      ("project", strOrNull opts.project),
      ("tag", strOrNull opts.tag),
      ("flagged", Json.bool opts.flagged),
      ("available", Json.bool opts.available),
      ("dueBefore", strOrNull opts.dueBefore),
      ("dueAfter", strOrNull opts.dueAfter)]),
    ("totalCount", Json.num tasks.length)]

/-- A failure envelope `{ success: false, error: message }`. -/
def failure (message : String) : Json :=
  Json.obj [("success", Json.bool false), ("error", Json.str message)]

/-- The pre-resolved project filter: `null` unless `opts.project` is set. -/
def resolvedProject (doc : AppState) (opts : SearchOpts) : Option Project :=
  if strTruthy opts.project then findProject doc (strOr opts.project "") else none

/-- The pre-resolved tag filter: `null` unless `opts.tag` is set. -/
def resolvedTag (doc : AppState) (opts : SearchOpts) : Option Tag :=
  if strTruthy opts.tag then findTag doc (strOr opts.tag "") else none

/-- All filters of an invocation after the pre-resolution step. -/
def resolvedFilters (P : Platform) (doc : AppState) (query : String) (opts : SearchOpts) :
    SearchFilters :=
  searchFilters P query opts (resolvedProject doc opts) (resolvedTag doc opts)

/-- The search payload: query text and options to the JSON result. -/
def search (P : Platform) (doc : AppState) (query : String) (opts : SearchOpts) : Json :=
  if strTruthy opts.project ∧ (resolvedProject doc opts).isNone then
    failure ("Project not found: " ++ strOr opts.project "")
  else if strTruthy opts.tag ∧ (resolvedTag doc opts).isNone then
    failure ("Tag not found: " ++ strOr opts.tag "")
  else searchRun P doc query opts (resolvedFilters P doc query opts)

/-! ## Mutating bridge calls

The scripted application is external to the repository.  Its mutating calls are
modelled as the evident updates of the document, each recorded in the journal. -/

/-- Failures the bridge may raise on the two marking calls that the payloads wrap
in `try`/`catch`: the message of the error, if the call fails for that task. -/
structure Bridge where
  markCompleteError : Task → Option String
  markDroppedError : Task → Option String

/-- Identifier assigned to the next created entity. -/
def freshId (n : Nat) : String := "new-" ++ toString n

/-- A new inbox task is pushed onto `doc.inboxTasks`. -/
def insertInboxTask (st : AppState) (name : String) : Task × AppState :=
  let task : Task := { id := freshId st.nextId, name := name, inInbox := true }
  (task, { st with
    tasks := st.tasks ++ [task]
    nextId := st.nextId + 1
    journal := st.journal ++ [AppCall.create "inbox task" name] })

/-- A new task is pushed onto `project.rootTask.tasks`. -/
def insertProjectTask (st : AppState) (project : Project) (name : String) : Task × AppState :=
  let task : Task :=
    { id := freshId st.nextId, name := name, inInbox := false, project := some project.id }
  (task, { st with
    tasks := st.tasks ++ [task]
    nextId := st.nextId + 1
    journal := st.journal ++ [AppCall.create "task" name] })

/-- A new project is pushed onto a folder or onto the document root. -/
def insertProject (st : AppState) (folder : Option Folder) (name : String) :
    Project × AppState :=
  let project : Project :=
    { id := freshId st.nextId, name := name, folder := folder.map (fun f => f.id) }
  (project, { st with
    projects := st.projects ++ [project]
    nextId := st.nextId + 1
    journal := st.journal ++ [AppCall.create "project" name] })

/-- A new folder is pushed onto a parent folder or onto the document root. -/
def insertFolder (st : AppState) (parent : Option Folder) (name : String) :
    Folder × AppState :=
  let folder : Folder :=
    { id := freshId st.nextId, name := name, container := parent.map (fun f => f.id) }
  (folder, { st with
    folders := st.folders ++ [folder]
    nextId := st.nextId + 1
    journal := st.journal ++ [AppCall.create "folder" name] })

/-- A new tag is pushed onto a parent tag or onto the document root. -/
def insertTag (st : AppState) (parent : Option Tag) (name : String) : Tag × AppState :=
  let tag : Tag :=
    { id := freshId st.nextId, name := name, container := parent.map (fun t => t.id) }
  (tag, { st with
    tags := st.tags ++ [tag]
    nextId := st.nextId + 1
    journal := st.journal ++ [AppCall.create "tag" name] })

/-- Property assignment on the task with the given id. -/
def setTask (st : AppState) (id property : String) (f : Task → Task) : AppState :=
  { st with
    tasks := st.tasks.map (fun t => if t.id = id then f t else t)
    journal := st.journal ++ [AppCall.assign id property] }

/-- Property assignment on the project with the given id. -/
def setProject (st : AppState) (id property : String) (f : Project → Project) : AppState :=
  { st with
    projects := st.projects.map (fun p => if p.id = id then f p else p)
    journal := st.journal ++ [AppCall.assign id property] }

/-- Property assignment on the folder with the given id. -/
def setFolder (st : AppState) (id property : String) (f : Folder → Folder) : AppState :=
  { st with
    folders := st.folders.map (fun x => if x.id = id then f x else x)
    journal := st.journal ++ [AppCall.assign id property] }

/-- Property assignment on the tag with the given id. -/
def setTag (st : AppState) (id property : String) (f : Tag → Tag) : AppState :=
  { st with
    tags := st.tags.map (fun x => if x.id = id then f x else x)
    journal := st.journal ++ [AppCall.assign id property] }

/-- The call `app.add(tag, { to: task.tags })`. -/
def addTaskTag (st : AppState) (taskId tagId : String) : AppState :=
  { st with
    tasks := st.tasks.map (fun t =>
      if t.id = taskId then
        { t with tags := if tagId ∈ t.tags then t.tags else t.tags ++ [tagId] }
      else t)
    journal := st.journal ++ [AppCall.addTag taskId tagId] }

/-- The primary tag is the first tag of a task: assigning it replaces the first tag. -/
def withPrimaryTag (tagId : Option String) (tags : List String) : List String :=
  match tagId with
  | some i => i :: (tags.drop 1).filter (fun x => decide (x ≠ i))
  | none => tags.drop 1

/-- The call `app.markComplete(task)`. -/
def markCompleteTask (st : AppState) (now : Int) (id : String) : AppState :=
  { st with
    tasks := st.tasks.map (fun t =>
      if t.id = id then { t with completed := true, completionDate := some now } else t)
    journal := st.journal ++ [AppCall.markComplete id] }

/-- The call `app.markDropped(task)`. -/
def markDroppedTask (st : AppState) (id : String) : AppState :=
  { st with
    tasks := st.tasks.map (fun t => if t.id = id then { t with dropped := true } else t)
    journal := st.journal ++ [AppCall.markDropped id] }

/-- The call `project.markComplete()`. -/
def markCompleteProject (st : AppState) (now : Int) (id : String) : AppState :=
  { st with
    projects := st.projects.map (fun p =>
      if p.id = id then { p with status := ProjectStatus.done, completionDate := some now }
      else p)
    journal := st.journal ++ [AppCall.markComplete id] }

/-- The call `project.markDropped()`. -/
def markDroppedProject (st : AppState) (id : String) : AppState :=
  { st with
    projects := st.projects.map (fun p =>
      if p.id = id then { p with status := ProjectStatus.dropped } else p)
    journal := st.journal ++ [AppCall.markDropped id] }

/-- The call `app.move(task, { to: project.rootTask.tasks.end })`. -/
def moveTaskTo (st : AppState) (taskId : String) (project : Project) : AppState :=
  { st with
    tasks := st.tasks.map (fun t =>
      if t.id = taskId then { t with project := some project.id, inInbox := false } else t)
    journal := st.journal ++ [AppCall.move taskId project.id] }

/-- The call `app.move(project, { to: <folder or document>.sections.end })`. -/
def moveProjectTo (st : AppState) (projectId : String) (folder : Option Folder) : AppState :=
  { st with
    projects := st.projects.map (fun p =>
      if p.id = projectId then { p with folder := folder.map (fun f => f.id) } else p)
    journal := st.journal ++
      [AppCall.move projectId (match folder with
        | some f => f.id
        | none => "")] }

/-- The call `app.delete(tag)`: the tag leaves the document and every task. -/
def deleteTag (st : AppState) (tagId : String) : AppState :=
  { st with
    tags := st.tags.filter (fun t => decide (t.id ≠ tagId))
    tasks := st.tasks.map (fun t => { t with tags := t.tags.filter (fun x => decide (x ≠ tagId)) })
    journal := st.journal ++ [AppCall.delete tagId] }

/-- An object specifier read back after mutating calls: the task with the id. -/
def taskById (st : AppState) (fallback : Task) : Task :=
  match findTask st fallback.id with
  | some t => t
  | none => fallback

/-- An object specifier read back after mutating calls: the project with the id. -/
def projectById (st : AppState) (fallback : Project) : Project :=
  match scanProjectById fallback.id st.projects with
  | some p => p
  | none => fallback

/-- An object specifier read back after mutating calls: the folder with the id. -/
def folderById (st : AppState) (fallback : Folder) : Folder :=
  match st.folders.find? (fun f => decide (f.id = fallback.id)) with
  | some f => f
  | none => fallback

/-- An object specifier read back after mutating calls: the tag with the id. -/
def tagById (st : AppState) (fallback : Tag) : Tag :=
  match st.tags.find? (fun t => decide (t.id = fallback.id)) with
  | some t => t
  | none => fallback

/-- The Number value of a natural number: the number itself below 2^53, otherwise
the nearest multiple of the power of two that leaves 53 significant bits, ties
to the even one; `none` when the result is not finite. -/
def numberOfNat (n : Nat) : Option Nat :=
  if n < 2 ^ 53 then some n
  else
    let scale := 2 ^ (Nat.log2 n - 52)
    let quotient := n / scale
    let remainder := n % scale
    let up := decide (2 * remainder > scale) ||
      (decide (2 * remainder = scale) && decide (quotient % 2 = 1))
    let mantissa := if up then quotient + 1 else quotient
    if mantissa * scale < 2 ^ 1024 then some (mantissa * scale) else none

/-- The call `parseInt(text, 10)`: leading white space, an optional sign and the
longest run of decimal digits, as a Number; `none` is `NaN` or an infinity,
which `JSON.stringify` both writes as `null`. -/
def parseIntJs (text : String) : Option Int :=
  let cs := text.data.dropWhile isJsSpace
  let signed : Bool × List Char :=
    match cs with
    | '-' :: rest => (true, rest)
    | '+' :: rest => (false, rest)
    | _ => (false, cs)
  let digits := signed.2.takeWhile Char.isDigit
  if digits = [] then none
  else
    match numberOfNat (digitsValue digits) with
    | some n => if signed.1 then some (-(n : Int)) else some (n : Int)
    | none => none

/-! ## Write payloads: marking tasks (`completeTask.js`, `dropTask.js`) -/

/-- Options object of the payloads that mark tasks. -/
structure MarkOpts where
  dryRun : Bool := false

/-- The expression `getArg(4, "").split(",").filter(id => id.trim())`. -/
def taskIdsOf (arg : String) : List String :=
  ((splitComma arg.data).map String.mk).filter (fun id => decide (jsTrim id ≠ ""))

/-- The three arrays filled by the loop over the task ids, and the document. -/
structure MarkAcc where
  done : List Json := []
  errors : List Json := []
  would : List Json := []
  st : AppState

/-- The entry `{ id: id, error: message }` of the `errors` array. -/
def errorEntry (id message : String) : Json :=
  Json.obj [("id", Json.str id), ("error", Json.str message)]

/-- The entry `{ id: task.id(), name: task.name() }` of a result array. -/
def idNameEntry (task : Task) : Json :=
  Json.obj [("id", Json.str task.id), ("name", Json.str task.name)]

/-- The expression `errors.length > 0 ? errors : undefined`. -/
def errorsField (errors : List Json) : Option Json :=
  if errors.isEmpty then none else some (Json.arr errors)

/-- The loop `for (const taskId of taskIds)` of `completeTask`. -/
def completeLoop (P : Platform) (B : Bridge) (opts : MarkOpts) :
    List String → MarkAcc → MarkAcc
  | [], acc => acc
  | taskId :: rest, acc =>
    let id := jsTrim taskId
    match findTask acc.st id with
    | none =>
      completeLoop P B opts rest
        { acc with errors := acc.errors ++ [errorEntry id "Task not found"] }
    | some task =>
      if opts.dryRun then
        completeLoop P B opts rest
          { acc with would := acc.would ++ [Json.obj [
              ("id", Json.str task.id),
              ("name", Json.str task.name),
              ("alreadyCompleted", Json.bool task.completed)]] }
      else
        match B.markCompleteError task with
        | some message =>
          completeLoop P B opts rest { acc with errors := acc.errors ++ [errorEntry id message] }
        | none =>
          let st := markCompleteTask acc.st P.now task.id
          completeLoop P B opts rest
            { acc with done := acc.done ++ [idNameEntry (taskById st task)], st := st }

/-- The payload `completeTask`: the JSON result and the document afterwards. -/
def completeTask (P : Platform) (B : Bridge) (st : AppState) (arg : String) (opts : MarkOpts) :
    Json × AppState :=
  let taskIds := taskIdsOf arg
  if taskIds.isEmpty then (failure "Task ID(s) required", st)
  else
    let acc := completeLoop P B opts taskIds { st := st }
    if opts.dryRun then
      (mkObj [
        ("success", some (Json.bool true)),
        ("dryRun", some (Json.bool true)),
        ("message", some (Json.str
          ("DRY RUN: " ++ toString acc.would.length ++ " task(s) would be completed"))),
        ("wouldComplete", some (Json.arr acc.would)),
        ("errors", errorsField acc.errors)], acc.st)
    else
      (mkObj [
        ("success", some (Json.bool acc.errors.isEmpty)),
        ("completed", some (Json.arr acc.done)),
        ("errors", errorsField acc.errors),
        ("message", some (Json.str (toString acc.done.length ++ " task(s) completed")))], acc.st)

/-- The loop `for (const taskId of taskIds)` of `dropTask`. -/
def dropLoop (B : Bridge) (opts : MarkOpts) : List String → MarkAcc → MarkAcc
  | [], acc => acc
  | taskId :: rest, acc =>
    let id := jsTrim taskId
    match findTask acc.st id with
    | none =>
      dropLoop B opts rest { acc with errors := acc.errors ++ [errorEntry id "Task not found"] }
    | some task =>
      if opts.dryRun then
        dropLoop B opts rest { acc with would := acc.would ++ [idNameEntry task] }
      else
        match B.markDroppedError task with
        | some message =>
          dropLoop B opts rest { acc with errors := acc.errors ++ [errorEntry id message] }
        | none =>
          let st := markDroppedTask acc.st task.id
          dropLoop B opts rest
            { acc with done := acc.done ++ [idNameEntry (taskById st task)], st := st }

/-- The payload `dropTask`: the JSON result and the document afterwards. -/
def dropTask (B : Bridge) (st : AppState) (arg : String) (opts : MarkOpts) :
    Json × AppState :=
  let taskIds := taskIdsOf arg
  if taskIds.isEmpty then (failure "Task ID(s) required", st)
  else
    let acc := dropLoop B opts taskIds { st := st }
    if opts.dryRun then
      (mkObj [
        ("success", some (Json.bool true)),
        ("dryRun", some (Json.bool true)),
        ("message", some (Json.str
          ("DRY RUN: " ++ toString acc.would.length ++ " task(s) would be dropped"))),
        ("wouldDrop", some (Json.arr acc.would)),
        ("errors", errorsField acc.errors)], acc.st)
    else
      (mkObj [
        ("success", some (Json.bool acc.errors.isEmpty)),
        ("dropped", some (Json.arr acc.done)),
        ("errors", errorsField acc.errors),
        ("message", some (Json.str (toString acc.done.length ++ " task(s) dropped")))], acc.st)

/-! ## Write payloads: creation (`addTask.js`, `addProject.js`, `addFolder.js`,
`addTag.js`, `addBatch.js`) -/

/-- The pattern `list || null` for an array of strings. -/
def listOrNull (names : Option (List String)) : Json :=
  match names with
  | some xs => Json.arr (xs.map Json.str)
  | none => Json.null

/-- Options object of `addTask`. -/
structure AddTaskOpts where
  bulk : Option (List String) := none
  dryRun : Bool := false
  project : Option String := none
  note : Option String := none
  dueDate : Option String := none
  deferDate : Option String := none
  flagged : Bool := false
  tag : Option String := none
  tags : Option (List String) := none
  estimatedMinutes : Option String := none

/-- The loop `for (const tagName of opts.tags)` of `createTask`. -/
def addTagsLoop (taskId : String) : List String → AppState → AppState
  | [], st => st
  | tagName :: rest, st =>
    match findTag st tagName with
    | some tag => addTagsLoop taskId rest (addTaskTag st taskId tag.id)
    | none => addTagsLoop taskId rest st

/-- The helper `createTask(app, doc, taskName, opts)` of `addTask`: the thrown
message, or the created task and the document afterwards. -/
def createTask (P : Platform) (st : AppState) (taskName : String) (opts : AddTaskOpts) :
    Except String (Task × AppState) :=
  let placed : Except String (Task × AppState) :=
    if strTruthy opts.project then
      match findProject st (strOr opts.project "") with
      | none => Except.error ("Project not found: " ++ strOr opts.project "")
      | some project => Except.ok (insertProjectTask st project taskName)
    else Except.ok (insertInboxTask st taskName)
  match placed with
  | Except.error message => Except.error message
  | Except.ok (task, st0) =>
    let st1 :=
      if strTruthy opts.note then
        setTask st0 task.id "note" (fun t => { t with note := strOr opts.note "" })
      else st0
    let st2 :=
      match parseDateOpt P opts.dueDate with
      | some due => setTask st1 task.id "dueDate" (fun t => { t with dueDate := due })
      | none => st1
    let st3 :=
      match parseDateOpt P opts.deferDate with
      | some defer => setTask st2 task.id "deferDate" (fun t => { t with deferDate := defer })
      | none => st2
    let st4 :=
      if opts.flagged then setTask st3 task.id "flagged" (fun t => { t with flagged := true })
      else st3
    let st5 :=
      if strTruthy opts.estimatedMinutes then
        setTask st4 task.id "estimatedMinutes"
          (fun t => { t with estimatedMinutes := parseIntJs (strOr opts.estimatedMinutes "") })
      else st4
    let st6 :=
      match opts.tags with
      | some names => addTagsLoop task.id names st5
      | none => st5
    let st7 :=
      if strTruthy opts.tag then
        match findTag st6 (strOr opts.tag "") with
        | some tag =>
          setTask st6 task.id "primaryTag"
            (fun t => { t with tags := withPrimaryTag (some tag.id) t.tags })
        | none => st6
      else st6
    Except.ok (task, st7)

/-- Accumulators of the bulk loop: created entries, error entries, document. -/
structure BulkAcc where
  created : List Json := []
  errors : List Json := []
  st : AppState

/-- The loop `for (const taskName of taskNames)` of `handleBulk`. -/
def bulkLoop (P : Platform) (opts : AddTaskOpts) : List String → BulkAcc → BulkAcc
  | [], acc => acc
  | taskName :: rest, acc =>
    if taskName = "" then bulkLoop P opts rest acc
    else
      match createTask P acc.st (jsTrim taskName) opts with
      | Except.ok (task, st) =>
        bulkLoop P opts rest
          { acc with created := acc.created ++ [idNameEntry (taskById st task)], st := st }
      | Except.error message =>
        bulkLoop P opts rest
          { acc with errors := acc.errors ++
              [Json.obj [("name", Json.str taskName), ("error", Json.str message)]] }

/-- The helper `handleBulk(app, doc, opts)` of `addTask`. -/
def handleBulk (P : Platform) (st : AppState) (opts : AddTaskOpts) (taskNames : List String) :
    Json × AppState :=
  if opts.dryRun then
    (Json.obj [
      ("success", Json.bool true),
      ("dryRun", Json.bool true),
      ("message", Json.str
        ("DRY RUN: " ++ toString taskNames.length ++ " task(s) would be created")),
      ("preview", Json.obj [
        ("tasks", Json.arr (taskNames.map Json.str)),
        ("project", Json.str (strOr opts.project "(inbox)")),
        ("dueDate", strOrNull opts.dueDate),
        ("deferDate", strOrNull opts.deferDate),
        ("flagged", Json.bool opts.flagged),
        ("tag", strOrNull opts.tag),
        ("tags", listOrNull opts.tags)])], st)
  else
    let acc := bulkLoop P opts taskNames { st := st }
    (mkObj [
      ("success", some (Json.bool acc.errors.isEmpty)),
      ("message", some (Json.str (toString acc.created.length ++ " task(s) created"))),
      ("tasks", some (Json.arr acc.created)),
      ("errors", errorsField acc.errors)], acc.st)

/-- The payload `addTask`: the JSON result and the document afterwards. -/
def addTask (P : Platform) (st : AppState) (name : String) (opts : AddTaskOpts) :
    Json × AppState :=
  match opts.bulk with
  | some (first :: more) => handleBulk P st opts (first :: more)
  | _ =>
    if name = "" then (failure "Task name is required", st)
    else if opts.dryRun then
      (Json.obj [
        ("success", Json.bool true),
        ("dryRun", Json.bool true),
        ("message", Json.str "DRY RUN: Task would be created"),
        ("preview", Json.obj [
          ("name", Json.str name),
          ("project", Json.str (strOr opts.project "(inbox)")),
          ("note", strOrNull opts.note),
          ("dueDate", strOrNull opts.dueDate),
          ("deferDate", strOrNull opts.deferDate),
          ("flagged", Json.bool opts.flagged),
          ("tag", strOrNull opts.tag),
          ("tags", listOrNull opts.tags),
          ("estimatedMinutes", strOrNull opts.estimatedMinutes)])], st)
    else
      match createTask P st name opts with
      | Except.error message => (failure message, st)
      | Except.ok (created, st1) =>
        let task := taskById st1 created
        let taskDueDate : Option Json :=
          if strTruthy opts.dueDate then some (dateOrNull P.toISOString task.dueDate) else none
        let taskDeferDate : Option Json :=
          if strTruthy opts.deferDate then some (dateOrNull P.toISOString task.deferDate)
          else none
        let taskObj := mkObj [
          ("id", some (Json.str task.id)),
          ("name", some (Json.str task.name)),
          ("flagged", some (Json.bool task.flagged)),
          ("completed", some (Json.bool task.completed)),
          ("dueDate", taskDueDate),
          ("deferDate", taskDeferDate)]
        (mkObj [
          ("success", some (Json.bool true)),
          ("message", some (Json.str "Task created successfully")),
          ("id", some (Json.str task.id)),
          ("name", some (Json.str task.name)),
          ("flagged", some (Json.bool task.flagged)),
          ("completed", some (Json.bool task.completed)),
          ("dueDate", taskDueDate),
          ("deferDate", taskDeferDate),
          ("task", some taskObj)], st1)

/-- Options object of `addProject`. -/
structure AddProjectOpts where
  dryRun : Bool := false
  folder : Option String := none
  note : Option String := none
  dueDate : Option String := none
  deferDate : Option String := none
  flagged : Bool := false
  tag : Option String := none
  sequential : Option Bool := none
  singleActions : Bool := false
  tasks : Option (List String) := none

/-- The loop that creates the tasks of a new project; `trim` says whether the name
is trimmed before use. -/
def projectTasksLoop (project : Project) (trim : Bool) :
    List String → List Json × AppState → List Json × AppState
  | [], acc => acc
  | taskName :: rest, acc =>
    if taskName = "" then projectTasksLoop project trim rest acc
    else
      let made := insertProjectTask acc.2 project (if trim then jsTrim taskName else taskName)
      projectTasksLoop project trim rest (acc.1 ++ [idNameEntry (taskById made.2 made.1)], made.2)

/-- The payload `addProject`: the JSON result and the document afterwards. -/
def addProject (P : Platform) (st : AppState) (name : String) (opts : AddProjectOpts) :
    Json × AppState :=
  if name = "" then (failure "Project name is required", st)
  else if opts.dryRun then
    (Json.obj [
      ("success", Json.bool true),
      ("dryRun", Json.bool true),
      ("message", Json.str ("DRY RUN: Project would be created with " ++
        toString (opts.tasks.getD []).length ++ " task(s)")),
      ("preview", Json.obj [
        ("name", Json.str name),
        ("folder", Json.str (strOr opts.folder "(root)")),
        ("note", strOrNull opts.note),
        ("dueDate", strOrNull opts.dueDate),
        ("deferDate", strOrNull opts.deferDate),
        ("flagged", Json.bool opts.flagged),
        ("tag", strOrNull opts.tag),
        ("sequential", Json.bool (opts.sequential.getD false)),
        ("singleActions", Json.bool opts.singleActions),
        ("tasks", Json.arr ((opts.tasks.getD []).map Json.str))])], st)
  else
    let folder : Option Folder :=
      if strTruthy opts.folder then findFolder st (strOr opts.folder "") else none
    if strTruthy opts.folder ∧ folder.isNone then
      (failure ("Folder not found: " ++ strOr opts.folder ""), st)
    else
      let placed := insertProject st folder name
      let project := placed.1
      let st0 := placed.2
      let st1 :=
        if strTruthy opts.note then
          setProject st0 project.id "note" (fun p => { p with note := strOr opts.note "" })
        else st0
      let st2 :=
        match parseDateOpt P opts.dueDate with
        | some due => setProject st1 project.id "dueDate" (fun p => { p with dueDate := due })
        | none => st1
      let st3 :=
        match parseDateOpt P opts.deferDate with
        | some defer =>
          setProject st2 project.id "deferDate" (fun p => { p with deferDate := defer })
        | none => st2
      let st4 :=
        if opts.flagged then
          setProject st3 project.id "flagged" (fun p => { p with flagged := true })
        else st3
      let st5 :=
        match opts.sequential with
        | some b => setProject st4 project.id "sequential" (fun p => { p with sequential := b })
        | none => st4
      let st6 :=
        if opts.singleActions then
          setProject st5 project.id "singletonActionHolder"
            (fun p => { p with singletonActionHolder := true })
        else st5
      let st7 :=
        if strTruthy opts.tag then
          match findTag st6 (strOr opts.tag "") with
          | some tag =>
            setProject st6 project.id "primaryTag" (fun p => { p with primaryTag := some tag.id })
          | none => st6
        else st6
      let made := projectTasksLoop project true (opts.tasks.getD []) ([], st7)
      let final := projectById made.2 project
      (mkObj [
        ("success", some (Json.bool true)),
        ("message", some (Json.str
          (if made.1.isEmpty then "Project created successfully"
           else "Project created with " ++ toString made.1.length ++ " task(s)"))),
        ("project", some (Json.obj [
          ("id", Json.str final.id),
          ("name", Json.str final.name),
          ("status", Json.str final.status.text),
          ("flagged", Json.bool final.flagged),
          ("sequential", Json.bool final.sequential)])),
        ("tasks", if made.1.isEmpty then none else some (Json.arr made.1))], made.2)

/-- Options object of `addFolder`. -/
structure AddFolderOpts where
  dryRun : Bool := false
  parent : Option String := none

/-- The payload `addFolder`: the JSON result and the document afterwards. -/
def addFolder (st : AppState) (name : String) (opts : AddFolderOpts) : Json × AppState :=
  if name = "" then (failure "Folder name is required", st)
  else if opts.dryRun then
    (Json.obj [
      ("success", Json.bool true),
      ("dryRun", Json.bool true),
      ("message", Json.str "DRY RUN: Folder would be created"),
      ("preview", Json.obj [
        ("name", Json.str name),
        ("parent", Json.str (strOr opts.parent "(root)"))])], st)
  else
    let parent : Option Folder :=
      if strTruthy opts.parent then findFolder st (strOr opts.parent "") else none
    if strTruthy opts.parent ∧ parent.isNone then
      (failure ("Parent folder not found: " ++ strOr opts.parent ""), st)
    else
      let made := insertFolder st parent name
      (Json.obj [
        ("success", Json.bool true),
        ("message", Json.str "Folder created successfully"),
        ("folder", formatFolder made.2 (folderById made.2 made.1))], made.2)

/-- Options object of `addTag`. -/
structure AddTagOpts where
  dryRun : Bool := false
  force : Bool := false
  parent : Option String := none
  allowsNextAction : Option Bool := none

/-- The payload `addTag`: the JSON result and the document afterwards. -/
def addTag (st : AppState) (name : String) (opts : AddTagOpts) : Json × AppState :=
  if name = "" then (failure "Tag name is required", st)
  else
    match (if opts.force then none else findTag st name) with
    | some existing =>
      (Json.obj [
        ("success", Json.bool false),
        ("error", Json.str ("Tag already exists: " ++ name)),
        ("existingTag", formatTag st existing)], st)
    | none =>
      if opts.dryRun then
        (Json.obj [
          ("success", Json.bool true),
          ("dryRun", Json.bool true),
          ("message", Json.str "DRY RUN: Tag would be created"),
          ("preview", Json.obj [
            ("name", Json.str name),
            ("parent", Json.str (strOr opts.parent "(root)"))])], st)
      else
        let parent : Option Tag :=
          if strTruthy opts.parent then findTag st (strOr opts.parent "") else none
        if strTruthy opts.parent ∧ parent.isNone then
          (failure ("Parent tag not found: " ++ strOr opts.parent ""), st)
        else
          let made := insertTag st parent name
          let st1 :=
            match opts.allowsNextAction with
            | some b =>
              setTag made.2 made.1.id "allowsNextAction" (fun t => { t with allowsNextAction := b })
            | none => made.2
          (Json.obj [
            ("success", Json.bool true),
            ("message", Json.str "Tag created successfully"),
            ("tag", formatTag st1 (tagById st1 made.1))], st1)

/-- One project of the outline passed to `addBatch`. -/
structure OutlineProject where
  name : String
  tasks : List String := []

/-- Options object of `addBatch`. -/
structure AddBatchOpts where
  dryRun : Bool := false
  projects : Option (List OutlineProject) := none
  folder : Option String := none
  createFolder : Option String := none
  sequential : Bool := false

/-- An outline project echoed as JSON. -/
def OutlineProject.toJson (p : OutlineProject) : Json :=
  Json.obj [("name", Json.str p.name), ("tasks", Json.arr (p.tasks.map Json.str))]

/-- Accumulators of the batch loop: created project entries with their task
counts, and the document. -/
structure BatchAcc where
  created : List (Json × Nat) := []
  st : AppState

/-- The loop `for (const projectData of opts.projects)` of `addBatch`. -/
def batchLoop (targetFolder : Option Folder) (sequential : Bool) :
    List OutlineProject → BatchAcc → BatchAcc
  | [], acc => acc
  | projectData :: rest, acc =>
    let placed := insertProject acc.st targetFolder projectData.name
    let st1 :=
      if sequential then
        setProject placed.2 placed.1.id "sequential" (fun p => { p with sequential := true })
      else placed.2
    let made := projectTasksLoop placed.1 false projectData.tasks ([], st1)
    let final := projectById made.2 placed.1
    batchLoop targetFolder sequential rest
      { created := acc.created ++ [(Json.obj [
          ("id", Json.str final.id),
          ("name", Json.str final.name),
          ("taskCount", Json.num made.1.length),
          ("tasks", Json.arr made.1)], made.1.length)]
        st := made.2 }

/-- The payload `addBatch`: the JSON result and the document afterwards. -/
def addBatch (st : AppState) (opts : AddBatchOpts) : Json × AppState :=
  match opts.projects with
  | some (first :: more) =>
    let projects := first :: more
    if opts.dryRun then
      let totalTasks := (projects.map (fun p => p.tasks.length)).sum
      let folderInfo :=
        if strTruthy opts.createFolder then strOr opts.createFolder "" ++ " (new)"
        else strOr opts.folder "(root)"
      (Json.obj [
        ("success", Json.bool true),
        ("dryRun", Json.bool true),
        ("message", Json.str ("DRY RUN: Would create " ++ toString projects.length ++
          " project(s) with " ++ toString totalTasks ++ " task(s)")),
        ("preview", Json.obj [
          ("folder", Json.str folderInfo),
          ("createFolder", strOrNull opts.createFolder),
          ("sequential", Json.bool opts.sequential),
          ("projects", Json.arr (projects.map OutlineProject.toJson))])], st)
    else
      let target : Except String (Option Folder × Option Folder × AppState) :=
        if strTruthy opts.createFolder then
          let made := insertFolder st none (strOr opts.createFolder "")
          Except.ok (some made.1, some (folderById made.2 made.1), made.2)
        else if strTruthy opts.folder then
          match findFolder st (strOr opts.folder "") with
          | some f => Except.ok (some f, none, st)
          | none => Except.error ("Folder not found: " ++ strOr opts.folder "")
        else Except.ok (none, none, st)
      match target with
      | Except.error message => (failure message, st)
      | Except.ok (targetFolder, createdFolder, st0) =>
        let acc := batchLoop targetFolder opts.sequential projects { st := st0 }
        let totalTasks := (acc.created.map Prod.snd).sum
        (mkObj [
          ("success", some (Json.bool true)),
          ("message", some (Json.str
            (match createdFolder with
              | some f => "Created folder \"" ++ f.name ++ "\" with " ++
                  toString acc.created.length ++ " project(s) and " ++ toString totalTasks ++
                  " task(s)"
              | none => "Created " ++ toString acc.created.length ++ " project(s) with " ++
                  toString totalTasks ++ " task(s)"))),
          ("projects", some (Json.arr (acc.created.map Prod.fst))),
          ("folder", createdFolder.map (fun f =>
            Json.obj [("id", Json.str f.id), ("name", Json.str f.name)]))], acc.st)
  | _ => (failure "No projects provided", st)

/-! ## Write payloads: modification (`modifyTask.js`, `modifyProject.js`,
`modifyFolder.js`, `modifyTag.js`, `moveProject.js`) -/

/-- A property of an options object that the payload tests against `undefined`:
absent, `null`, or a value. -/
inductive Field (α : Type) where
  | undefined : Field α
  | null : Field α
  | value (a : α) : Field α

/-- The test `opts.key !== undefined`. -/
def Field.isDefined {α : Type} : Field α → Bool
  | Field.undefined => false
  | _ => true

/-- A defined property echoed as JSON. -/
def Field.toJson {α : Type} (f : α → Json) : Field α → Json
  | Field.value a => f a
  | _ => Json.null

/-- The string carried by a property, if any. -/
def Field.text : Field String → Option String
  | Field.value s => some s
  | _ => none

/-- The truth value carried by a property (`null` counts as false). -/
def Field.flag : Field Bool → Bool
  | Field.value b => b
  | _ => false

/-- String concatenation with a boolean property: "true", "false" or "null". -/
def Field.flagText : Field Bool → String
  | Field.value true => "true"
  | Field.value false => "false"
  | Field.null => "null"
  | Field.undefined => "undefined"

/-- Options object of `modifyTask`. -/
structure ModifyTaskOpts where
  dryRun : Bool := false
  name : Field String := Field.undefined
  note : Field String := Field.undefined
  dueDate : Field String := Field.undefined
  dueBy : Option String := none
  deferDate : Field String := Field.undefined
  deferBy : Option String := none
  flagged : Field Bool := Field.undefined
  estimatedMinutes : Field String := Field.undefined
  project : Field String := Field.undefined
  tag : Field String := Field.undefined

/-- Match of the pattern `^([+-]?\d+)([dwm])$`: the signed amount and the unit. -/
def matchOffset (cs : List Char) : Option (Int × Char) :=
  let signed : Bool × List Char :=
    match cs with
    | '-' :: rest => (true, rest)
    | '+' :: rest => (false, rest)
    | _ => (false, cs)
  match signed.2.reverse with
  | unit :: revDigits =>
    if (unit = 'd' ∨ unit = 'w' ∨ unit = 'm') ∧ revDigits ≠ [] ∧ revDigits.all Char.isDigit then
      let amount : Int := digitsValue revDigits.reverse
      some (if signed.1 then -amount else amount, unit)
    else none
  | [] => none

/-- The relative adjustment of a date by an amount of days, weeks or months. -/
def adjustDate (P : Platform) (current : Int) (amount : Int) (unit : Char) : JsDate :=
  if unit = 'd' then addDays P (some current) amount
  else if unit = 'w' then addDays P (some current) (amount * 7)
  else if unit = 'm' then addMonths P (some current) amount
  else some current

/-- The `from`/`to` record of a previewed change, present when the option is defined. -/
def changeRecord {α : Type} (field : Field α) (current : Option Json) (f : α → Json) :
    Option Json :=
  if field.isDefined then
    some (mkObj [("from", current), ("to", some (field.toJson f))])
  else none

/-- The payload `modifyTask`: the JSON result and the document afterwards. -/
def modifyTask (P : Platform) (st : AppState) (taskId : String) (opts : ModifyTaskOpts) :
    Json × AppState :=
  if taskId = "" then (failure "Task ID is required", st)
  else
    match findTask st taskId with
    | none => (failure ("Task not found: " ++ taskId), st)
    | some task =>
      if opts.dryRun then
        (Json.obj [
          ("success", Json.bool true),
          ("dryRun", Json.bool true),
          ("message", Json.str "DRY RUN: Task would be modified"),
          ("task", formatTask P st task),
          ("changes", mkObj [
            ("name", changeRecord opts.name (some (Json.str task.name)) Json.str),
            ("note", changeRecord opts.note (some (Json.str task.note)) Json.str),
            ("dueDate", changeRecord opts.dueDate
              (some (dateOrNull P.toISOString task.dueDate)) Json.str),
            ("deferDate", changeRecord opts.deferDate
              (some (dateOrNull P.toISOString task.deferDate)) Json.str),
            ("flagged", changeRecord opts.flagged (some (Json.bool task.flagged)) Json.bool),
            ("tag", changeRecord opts.tag none Json.str),
            ("project", changeRecord opts.project none Json.str),
            ("estimatedMinutes", changeRecord opts.estimatedMinutes
              (some (numOrNull task.estimatedMinutes)) Json.str)])], st)
      else
        let st1 :=
          if opts.name.isDefined then
            setTask st task.id "name" (fun t => { t with name := opts.name.text.getD "" })
          else st
        let st2 :=
          if opts.note.isDefined then
            setTask st1 task.id "note" (fun t => { t with note := opts.note.text.getD "" })
          else st1
        let st3 :=
          if opts.dueDate.isDefined then
            if strTruthy opts.dueDate.text then
              match parseDate P (opts.dueDate.text.getD "") with
              | some due => setTask st2 task.id "dueDate" (fun t => { t with dueDate := due })
              | none => st2
            else setTask st2 task.id "dueDate" (fun t => { t with dueDate := none })
          else st2
        let st4 :=
          if strTruthy opts.dueBy then
            match matchOffset (opts.dueBy.getD "").data with
            | some (amount, unit) =>
              let current := ((taskById st3 task).dueDate).getD P.now
              setTask st3 task.id "dueDate"
                (fun t => { t with dueDate := adjustDate P current amount unit })
            | none => st3
          else st3
        let st5 :=
          if opts.deferDate.isDefined then
            if strTruthy opts.deferDate.text then
              match parseDate P (opts.deferDate.text.getD "") with
              | some defer =>
                setTask st4 task.id "deferDate" (fun t => { t with deferDate := defer })
              | none => st4
            else setTask st4 task.id "deferDate" (fun t => { t with deferDate := none })
          else st4
        let st6 :=
          if strTruthy opts.deferBy then
            match matchOffset (opts.deferBy.getD "").data with
            | some (amount, unit) =>
              let current := ((taskById st5 task).deferDate).getD P.now
              setTask st5 task.id "deferDate"
                (fun t => { t with deferDate := adjustDate P current amount unit })
            | none => st5
          else st5
        let st7 :=
          if opts.flagged.isDefined then
            setTask st6 task.id "flagged" (fun t => { t with flagged := opts.flagged.flag })
          else st6
        let st8 :=
          if opts.estimatedMinutes.isDefined then
            let minutes : Option Int :=
              if strTruthy opts.estimatedMinutes.text then
                parseIntJs (opts.estimatedMinutes.text.getD "")
              else none
            setTask st7 task.id "estimatedMinutes" (fun t => { t with estimatedMinutes := minutes })
          else st7
        let st9 :=
          if opts.project.isDefined ∧ strTruthy opts.project.text then
            match findProject st8 (opts.project.text.getD "") with
            | some project => moveTaskTo st8 task.id project
            | none => st8
          else st8
        let st10 :=
          if opts.tag.isDefined then
            if strTruthy opts.tag.text then
              match findTag st9 (opts.tag.text.getD "") with
              | some tag =>
                setTask st9 task.id "primaryTag"
                  (fun t => { t with tags := withPrimaryTag (some tag.id) t.tags })
              | none => st9
            else
              setTask st9 task.id "primaryTag"
                (fun t => { t with tags := withPrimaryTag none t.tags })
          else st9
        (Json.obj [
          ("success", Json.bool true),
          ("message", Json.str "Task updated successfully"),
          ("task", formatTask P st10 (taskById st10 task))], st10)

/-- Options object of `modifyProject`; `raw` is the object as received, which the
dry-run preview echoes. -/
structure ModifyProjectOpts where
  dryRun : Bool := false
  raw : Json := Json.obj []
  status : Option String := none
  complete : Bool := false
  drop : Bool := false
  hold : Bool := false
  activate : Bool := false
  name : Option String := none
  note : Field String := Field.undefined
  dueDate : Option String := none
  clearDue : Bool := false
  deferDate : Option String := none
  clearDefer : Bool := false
  flagged : Field Bool := Field.undefined
  sequential : Field Bool := Field.undefined
  reviewed : Bool := false
  tag : Option String := none

/-- What indexing the object literal `statusMap` yields: one of its eight own
entries, a property inherited from the prototype of every object literal (a
function or an object, truthy and not a status string), or `undefined`. -/
inductive StatusEntry where
  | own (status : ProjectStatus) : StatusEntry
  | inherited : StatusEntry
  | absent : StatusEntry
deriving DecidableEq, Repr

/-- The names of the properties that an object literal inherits. -/
def inheritedKeys : List String :=
  ["constructor", "__proto__", "hasOwnProperty", "isPrototypeOf", "propertyIsEnumerable",
    "toLocaleString", "toString", "valueOf", "__defineGetter__", "__defineSetter__",
    "__lookupGetter__", "__lookupSetter__"]

/-- The expression `statusMap[key]` of `modifyProject`. -/
def statusMap (key : String) : StatusEntry :=
  if key = "active" then StatusEntry.own ProjectStatus.active
  else if key = "on-hold" ∨ key = "onhold" ∨ key = "hold" then
    StatusEntry.own ProjectStatus.onHold
  else if key = "done" ∨ key = "completed" then StatusEntry.own ProjectStatus.done
  else if key = "dropped" ∨ key = "drop" then StatusEntry.own ProjectStatus.dropped
  else if key ∈ inheritedKeys then StatusEntry.inherited
  else StatusEntry.absent

/-- The value that the status block of `modifyProject` leaves in the project, if the
block fires: the own entry of the table; for an inherited property what the
bridge makes of the assignment, which may raise an error; nothing when the
option is unset or names no property. -/
def requestedStatus (P : Platform) (project : Project) (opts : ModifyProjectOpts) :
    Except String (Option ProjectStatus) :=
  if strTruthy opts.status then
    match statusMap (P.toLowerCase (strOr opts.status "")) with
    | StatusEntry.own status => Except.ok (some status)
    | StatusEntry.inherited =>
      match P.foreignStatus project with
      | Except.ok status => Except.ok (some status)
      | Except.error message => Except.error message
    | StatusEntry.absent => Except.ok none
  else Except.ok none

/-- One guarded block `if (condition) { mutation; changes.push(label); }`. -/
def applyChange (condition : Bool) (mutation : AppState → AppState) (label : String)
    (acc : AppState × List String) : AppState × List String :=
  if condition then (mutation acc.1, acc.2 ++ [label]) else acc

/-- One guarded block whose mutation needs a value that may be missing. -/
def applyChangeWith {α : Type} (value : Option α) (mutation : α → AppState → AppState)
    (label : String) (acc : AppState × List String) : AppState × List String :=
  match value with
  | some a => (mutation a acc.1, acc.2 ++ [label])
  | none => acc

/-- The message built from the `changes` array. -/
def changesMessage (kind : String) (changes : List String) : String :=
  if changes.isEmpty then "No changes made"
  else kind ++ " modified: " ++ String.intercalate ", " changes

/-- The mutating part of `modifyProject` once the status block has not raised an
error, given the value that the block assigns, if any: the document afterwards
and `changes`. -/
def modifyProjectSteps (P : Platform) (st : AppState) (project : Project)
    (opts : ModifyProjectOpts) (requested : Option ProjectStatus) : AppState × List String :=
  let pid := project.id
  let s1 := applyChangeWith requested
    (fun status doc => setProject doc pid "status" (fun p => { p with status := status }))
    ("status → " ++ strOr opts.status "") (st, [])
  let s2 := applyChange opts.complete (fun doc => markCompleteProject doc P.now pid) "completed" s1
  let s3 := applyChange opts.drop (fun doc => markDroppedProject doc pid) "dropped" s2
  let s4 := applyChange opts.hold
    (fun doc => setProject doc pid "status" (fun p => { p with status := ProjectStatus.onHold }))
    "on hold" s3
  let s5 := applyChange opts.activate
    (fun doc => setProject doc pid "status" (fun p => { p with status := ProjectStatus.active }))
    "activated" s4
  let s6 := applyChange (strTruthy opts.name)
    (fun doc => setProject doc pid "name" (fun p => { p with name := strOr opts.name "" }))
    "name" s5
  let s7 := applyChange opts.note.isDefined
    (fun doc => setProject doc pid "note" (fun p => { p with note := opts.note.text.getD "" }))
    "note" s6
  let s8 := applyChangeWith (parseDateOpt P opts.dueDate)
    (fun due doc => setProject doc pid "dueDate" (fun p => { p with dueDate := due }))
    "dueDate" s7
  let s9 := applyChange opts.clearDue
    (fun doc => setProject doc pid "dueDate" (fun p => { p with dueDate := none }))
    "cleared dueDate" s8
  let s10 := applyChangeWith (parseDateOpt P opts.deferDate)
    (fun defer doc => setProject doc pid "deferDate" (fun p => { p with deferDate := defer }))
    "deferDate" s9
  let s11 := applyChange opts.clearDefer
    (fun doc => setProject doc pid "deferDate" (fun p => { p with deferDate := none }))
    "cleared deferDate" s10
  let s12 := applyChange opts.flagged.isDefined
    (fun doc => setProject doc pid "flagged" (fun p => { p with flagged := opts.flagged.flag }))
    ("flagged → " ++ opts.flagged.flagText) s11
  let s13 := applyChange opts.sequential.isDefined
    (fun doc =>
      setProject doc pid "sequential" (fun p => { p with sequential := opts.sequential.flag }))
    ("sequential → " ++ opts.sequential.flagText) s12
  let s14 := applyChange opts.reviewed
    (fun doc =>
      setProject doc pid "lastReviewDate" (fun p => { p with lastReviewDate := some P.now }))
    "marked reviewed" s13
  applyChangeWith (if strTruthy opts.tag then findTag s14.1 (strOr opts.tag "") else none)
    (fun tag doc => setProject doc pid "primaryTag" (fun p => { p with primaryTag := some tag.id }))
    ("tag → " ++ strOr opts.tag "") s14

/-- The payload `modifyProject`: the JSON result and the document afterwards. -/
def modifyProject (P : Platform) (st : AppState) (nameOrId : String)
    (opts : ModifyProjectOpts) : Json × AppState :=
  if nameOrId = "" then (failure "Project name or ID is required", st)
  else
    match findProject st nameOrId with
    | none => (failure ("Project not found: " ++ nameOrId), st)
    | some project =>
      if opts.dryRun then
        (Json.obj [
          ("success", Json.bool true),
          ("dryRun", Json.bool true),
          ("message", Json.str "DRY RUN: Project would be modified"),
          ("preview", Json.obj [
            ("current", formatProject P st project),
            ("changes", opts.raw)])], st)
      else
        match requestedStatus P project opts with
        | Except.error message => (failure message, st)
        | Except.ok requested =>
          let done := modifyProjectSteps P st project opts requested
          let final := projectById done.1 project
          (Json.obj [
            ("success", Json.bool true),
            ("message", Json.str (changesMessage "Project" done.2)),
            ("project", Json.obj [
              ("id", Json.str final.id),
              ("name", Json.str final.name),
              ("status", Json.str final.status.text)]),
            ("changes", Json.arr (done.2.map Json.str))], done.1)

/-- Options object of `modifyFolder`; `raw` is the object as received. -/
structure ModifyFolderOpts where
  dryRun : Bool := false
  raw : Json := Json.obj []
  name : Option String := none
  note : Field String := Field.undefined
  hidden : Field Bool := Field.undefined

/-- The payload `modifyFolder`: the JSON result and the document afterwards. -/
def modifyFolder (st : AppState) (nameOrId : String) (opts : ModifyFolderOpts) :
    Json × AppState :=
  if nameOrId = "" then (failure "Folder name or ID is required", st)
  else
    match findFolder st nameOrId with
    | none => (failure ("Folder not found: " ++ nameOrId), st)
    | some folder =>
      if opts.dryRun then
        (Json.obj [
          ("success", Json.bool true),
          ("dryRun", Json.bool true),
          ("message", Json.str "DRY RUN: Folder would be modified"),
          ("preview", Json.obj [
            ("current", formatFolder st folder),
            ("changes", opts.raw)])], st)
      else
        let fid := folder.id
        let s1 := applyChange (strTruthy opts.name && decide (strOr opts.name "" ≠ folder.name))
          (fun doc => setFolder doc fid "name" (fun f => { f with name := strOr opts.name "" }))
          "name" (st, [])
        let s2 := applyChange opts.note.isDefined
          (fun doc => setFolder doc fid "note" (fun f => { f with note := opts.note.text.getD "" }))
          "note" s1
        let s3 := applyChange opts.hidden.isDefined
          (fun doc => setFolder doc fid "hidden" (fun f => { f with hidden := opts.hidden.flag }))
          "hidden" s2
        (Json.obj [
          ("success", Json.bool true),
          ("message", Json.str (changesMessage "Folder" s3.2)),
          ("folder", formatFolder s3.1 (folderById s3.1 folder)),
          ("changes", Json.arr (s3.2.map Json.str))], s3.1)

/-- Options object of `modifyTag`; `raw` is the object as received. -/
structure ModifyTagOpts where
  dryRun : Bool := false
  raw : Json := Json.obj []
  delete : Bool := false
  name : Option String := none
  hidden : Field Bool := Field.undefined
  allowsNextAction : Field Bool := Field.undefined

/-- The payload `modifyTag`: the JSON result and the document afterwards. -/
def modifyTag (st : AppState) (nameOrId : String) (opts : ModifyTagOpts) : Json × AppState :=
  if nameOrId = "" then (failure "Tag name or ID is required", st)
  else
    match findTag st nameOrId with
    | none => (failure ("Tag not found: " ++ nameOrId), st)
    | some tag =>
      if opts.dryRun then
        (Json.obj [
          ("success", Json.bool true),
          ("dryRun", Json.bool true),
          ("message", Json.str
            (if opts.delete then "DRY RUN: Tag would be deleted"
             else "DRY RUN: Tag would be modified")),
          ("preview", Json.obj [
            ("current", formatTag st tag),
            ("changes", opts.raw)])], st)
      else if opts.delete then
        (Json.obj [
          ("success", Json.bool true),
          ("message", Json.str "Tag deleted successfully"),
          ("deletedTag", formatTag st tag)], deleteTag st tag.id)
      else
        let tid := tag.id
        let s1 := applyChange (strTruthy opts.name && decide (strOr opts.name "" ≠ tag.name))
          (fun doc => setTag doc tid "name" (fun t => { t with name := strOr opts.name "" }))
          ("name → " ++ strOr opts.name "") (st, [])
        let s2 := applyChange opts.hidden.isDefined
          (fun doc => setTag doc tid "hidden" (fun t => { t with hidden := opts.hidden.flag }))
          ("hidden → " ++ opts.hidden.flagText) s1
        let s3 := applyChange opts.allowsNextAction.isDefined
          (fun doc => setTag doc tid "allowsNextAction"
            (fun t => { t with allowsNextAction := opts.allowsNextAction.flag }))
          ("allowsNextAction → " ++ opts.allowsNextAction.flagText) s2
        (Json.obj [
          ("success", Json.bool true),
          ("message", Json.str (changesMessage "Tag" s3.2)),
          ("tag", formatTag s3.1 (tagById s3.1 tag)),
          ("changes", Json.arr (s3.2.map Json.str))], s3.1)

/-- Options object of `moveProject`. -/
structure MoveProjectOpts where
  dryRun : Bool := false
  folder : Option String := none

/-- The expression `project.folder() ? project.folder().name() : "(root)"`. -/
def folderNameOrRoot (st : AppState) (project : Project) : String :=
  match project.folder with
  | some fid =>
    match st.folders.find? (fun f => decide (f.id = fid)) with
    | some f => f.name
    | none => "(root)"
  | none => "(root)"

/-- The payload `moveProject`: the JSON result and the document afterwards. -/
def moveProject (P : Platform) (st : AppState) (projectNameOrId : String)
    (opts : MoveProjectOpts) : Json × AppState :=
  if projectNameOrId = "" then (failure "Project name or ID is required", st)
  else
    match findProject st projectNameOrId with
    | none => (failure ("Project not found: " ++ projectNameOrId), st)
    | some project =>
      if opts.dryRun then
        (Json.obj [
          ("success", Json.bool true),
          ("dryRun", Json.bool true),
          ("message", Json.str "DRY RUN: Project would be moved"),
          ("preview", Json.obj [
            ("project", Json.str project.name),
            ("from", Json.str (folderNameOrRoot st project)),
            ("to", Json.str (strOr opts.folder "(root)"))])], st)
      else
        let oldFolder := folderNameOrRoot st project
        let target : Option Folder :=
          if strTruthy opts.folder then findFolder st (strOr opts.folder "") else none
        if strTruthy opts.folder ∧ target.isNone then
          (failure ("Target folder not found: " ++ strOr opts.folder ""), st)
        else
          let st1 := moveProjectTo st project.id target
          let shown : Project :=
            match findProject st1 projectNameOrId with
            | some updated => updated
            | none => projectById st1 project
          let newFolder :=
            match findProject st1 projectNameOrId with
            | some updated => folderNameOrRoot st1 updated
            | none => "(root)"
          (Json.obj [
            ("success", Json.bool true),
            ("message", Json.str
              ("Project moved from \"" ++ oldFolder ++ "\" to \"" ++ newFolder ++ "\"")),
            ("project", formatProject P st1 shown)], st1)

/-! ## The script runner (`src/jxa-runner.js`) -/

/-- The `code` property of an error raised by the file system or the child
process: absent, a numeric exit status, or a symbolic name such as "ENOENT". -/
inductive ErrorCode where
  | absent : ErrorCode
  | exit (status : Int) : ErrorCode
  | name (symbol : String) : ErrorCode
deriving DecidableEq, Repr

/-- The error object caught by `runJxa`. -/
structure ExecError where
  killed : Bool := false
  code : ErrorCode := ErrorCode.absent
  stdout : Option String := none
  stderr : Option String := none
  message : String := ""
deriving DecidableEq, Repr

/-- Services of the Node host used by the runner: path resolution, the directory
of the scripts, reading the two script files together (`Promise.all`), running
a child process with a timeout and an output bound, `JSON.parse` (`none` when it
throws, as it does on the empty string), the two regular-expression
replacements that strip the leading comment lines and the shebang line, and
reading a single file. -/
structure Host where
  resolve : List String → String
  jxaDir : String
  readFiles : String → String → Except ExecError (String × String)
  execFile : String → List String → Nat → Nat → Except ExecError (String × String)
  jsonParse : String → Option Json
  jsonParse_empty : jsonParse "" = none
  stripLeadingComments : String → String
  stripShebang : String → String
  readFile : String → Except ExecError String

/-- The `try` block of `runJxa` up to the child process result. -/
def runScript (H : Host) (scriptPath helpersPath : String) (args : List String) :
    Except ExecError (String × String) :=
  match H.readFiles scriptPath helpersPath with
  | Except.error e => Except.error e
  | Except.ok (scriptContent, helpersContent) =>
    let cleanHelpers := H.stripLeadingComments helpersContent
    let cleanScript := H.stripShebang scriptContent
    let fullScript := cleanHelpers ++ "\n" ++ cleanScript
    H.execFile "osascript" (["-l", "JavaScript", "-e", fullScript, "--"] ++ args)
      60000 (10 * 1024 * 1024)

/-- The rest of the `try` block: interpretation of the captured standard output. -/
def parseOutput (H : Host) (stdout : String) : Json :=
  let trimmed := jsTrim stdout
  if trimmed = "" then failure "Empty response from script"
  else
    match H.jsonParse trimmed with
    | some value => value
    | none => Json.obj [("success", Json.bool true), ("raw", Json.str trimmed)]

/-- The synthesized process-error object at the end of the `catch` block. -/
def processError (e : ExecError) : Json :=
  mkObj [
    ("success", some (Json.bool false)),
    ("error", some (Json.str (if e.message = "" then "Unknown error" else e.message))),
    ("stderr",
      match e.stderr with
      | some text => if jsTrim text = "" then none else some (Json.str (jsTrim text))
      | none => none)]

/-- The `catch` block of `runJxa`. -/
def handleError (H : Host) (scriptPath : String) (e : ExecError) : Json :=
  if e.killed then failure "Script timed out"
  else if e.code = ErrorCode.name "ENOENT" then failure ("Script not found: " ++ scriptPath)
  else
    match e.stdout with
    | some out =>
      if out = "" then processError e
      else
        match H.jsonParse (jsTrim out) with
        | some value => value
        | none => processError e
    | none => processError e

/-- Path of the script of a category and name. -/
def scriptPathOf (H : Host) (category scriptName : String) : String :=
  H.resolve [H.jxaDir, category, scriptName ++ ".js"]

/-- The function `runJxa(category, scriptName, args)`: the value the promise
resolves to. -/
def runJxa (H : Host) (category scriptName : String) (args : List String) : Json :=
  let scriptPath := scriptPathOf H category scriptName
  let helpersPath := H.resolve [H.jxaDir, "utils", "helpers.js"]
  match runScript H scriptPath helpersPath args with
  | Except.ok (stdout, _) => parseOutput H stdout
  | Except.error e => handleError H scriptPath e

/-- JavaScript truthiness of a parsed JSON value; `none` is `undefined`. -/
def jsTruthy : Option Json → Bool
  | none => false
  | some Json.null => false
  | some (Json.bool b) => b
  | some (Json.num n) => decide (n ≠ 0)
  | some (Json.str s) => decide (s ≠ "")
  | some (Json.arr _) => true
  | some (Json.obj _) => true

/-- The comparison `value === true`. -/
def isTrue : Option Json → Bool
  | some (Json.bool true) => true
  | _ => false

/-- The expression `result.success && result.running === true`: the value of the
left operand when it is falsy, otherwise the comparison; `none` is `undefined`. -/
def successAndRunning (result : Json) : Option Json :=
  if jsTruthy (result.get "success") then some (Json.bool (isTrue (result.get "running")))
  else result.get "success"

/-- The function `isOmniFocusRunning()`: the value the promise resolves to, where
`none` is `undefined`.  Every error raised inside the `try` block, including the
property access on a parsed `null`, ends in the `catch` block and yields `false`. -/
def isOmniFocusRunning (H : Host) : Option Json :=
  let scriptPath := H.resolve [H.jxaDir, "utils", "isRunning.js"]
  match H.readFile scriptPath with
  | Except.error _ => some (Json.bool false)
  | Except.ok scriptContent =>
    match H.execFile "osascript" ["-l", "JavaScript", "-e", scriptContent] 5000
        (1024 * 1024) with
    | Except.error _ => some (Json.bool false)
    | Except.ok (stdout, _) =>
      let trimmed := jsTrim stdout
      if trimmed = "" then some (Json.bool false)
      else
        match H.jsonParse trimmed with
        | none => some (Json.bool false)
        | some Json.null => some (Json.bool false)
        | some result => successAndRunning result

/-- The script `utils/isRunning.js`: the value it prints, given what the query for
the processes whose name begins with "OmniFocus" yields, their number or the
message of the error raised. -/
def isRunning (processes : Except String Nat) : Json :=
  match processes with
  | Except.ok count =>
    Json.obj [("success", Json.bool true), ("running", Json.bool (decide (count > 0)))]
  | Except.error message =>
    Json.obj [("success", Json.bool false), ("running", Json.bool false),
      ("error", Json.str message)]

/-! ## Listing the tasks of a tag (`jxa/read/listTasksByTag.js`) and plain output
(`src/output.js`) -/

/-- Options object of `listTasksByTag`. -/
structure TagTasksOpts where
  limit : Option Int := none
  includeCompleted : Bool := false

/-- Inner loop of `listTasksByTag`: some tag of the task has the id or the name of
the target. -/
def hasTagIdOrName (target : Tag) : List Tag → Bool
  | [] => false
  | t :: rest =>
    if t.id = target.id ∨ t.name = target.name then true else hasTagIdOrName target rest

/-- The loop `for (i = 0; i < allTasks.length && results.length < limit; i++)` of
`listTasksByTag`; a task whose tags cannot be read is skipped. -/
def tagTasksLoop (P : Platform) (doc : AppState) (target : Tag) (includeCompleted : Bool)
    (limit : Int) : List Task → List Json → List Json
  | [], results => results
  | task :: rest, results =>
    if (results.length : Int) < limit then
      if !includeCompleted && task.completed then
        tagTasksLoop P doc target includeCompleted limit rest results
      else
        match taskTags doc task with
        | Access.value ts =>
          if hasTagIdOrName target ts then
            tagTasksLoop P doc target includeCompleted limit rest
              (results ++ [formatTask P doc task])
          else tagTasksLoop P doc target includeCompleted limit rest results
        | Access.throws => tagTasksLoop P doc target includeCompleted limit rest results
    else results

/-- The payload `listTasksByTag`: tag name or id and options to the JSON result. -/
def listTasksByTag (P : Platform) (doc : AppState) (tagNameOrId : String)
    (opts : TagTasksOpts) : Json :=
  if tagNameOrId = "" then failure "Tag name or ID is required"
  else
    match findTag doc tagNameOrId with
    | none => failure ("Tag not found: " ++ tagNameOrId)
    | some tag =>
      Json.arr (tagTasksLoop P doc tag opts.includeCompleted (limitOr opts.limit 100)
        doc.tasks [])

/-- The branch `if (!result.success) { printError(result.error || 'Unknown error') }`
of `print`, reached when neither `--json` nor `--pretty` is given: the value
handed to `printError`, or `none` when `result.success` is truthy. -/
def printedError (result : Json) : Option Json :=
  if jsTruthy (result.get "success") then none
  else if jsTruthy (result.get "error") then result.get "error"
  else some (Json.str "Unknown error")

/-! ## Argument marshalling (`helpers.js`, `src/jxa-runner.js`, `src/mcp/server.js`) -/

/-- Services of the script runtime that the payloads use on their arguments:
`JSON.parse` (`none` when it throws, as it does on the empty string) and the
message of the `TypeError` raised by reading the named property of `null`. -/
structure Runtime where
  jsonParse : String → Option Json
  jsonParse_empty : jsonParse "" = none
  nullAccess : String → String

/-- The arguments of the child process that `runJxa` spawns, as the process
information of the script lists them: the program, the language switch, the
script text (helpers, a line break, the script) and, after "--", the
positional arguments. -/
def processArguments (helpers script : String) (args : List String) : List String :=
  "osascript" :: "-l" :: "JavaScript" :: "-e" :: (helpers ++ "\n" ++ script) :: "--" :: args

/-- The first loop of `getArg`: the index of the first argument equal to "--". -/
def separatorIndex : List String → Option Nat
  | [] => none
  | a :: rest => if a = "--" then some 0 else (separatorIndex rest).map (fun i => i + 1)

/-- The helper `getArg(index, defaultValue)` over the process arguments; `none` means
that the default value is returned.  Every call passes an index of at least 4. -/
def getArg (args : List String) (index : Nat) : Option String :=
  let realIndex : Int :=
    match separatorIndex args with
    | some i => (i : Int) + 1 + ((index : Int) - 4)
    | none => (index : Int)
  if (args.length : Int) ≤ realIndex then none
  else
    match args[realIndex.toNat]? with
    | some arg => if arg ≠ "" then some arg else none
    | none => none

/-- The helper `parseJsonArg(index, defaultValue)`. -/
def parseJsonArg (R : Runtime) (args : List String) (index : Nat) (defaultValue : Json) :
    Json :=
  match getArg args index with
  | none => defaultValue
  | some arg =>
    match R.jsonParse arg with
    | some value => value
    | none => defaultValue

/-- A string-valued property of an options object.  The front ends send strings
for these keys; a value of another type is read as absent here. -/
def strField (opts : Json) (key : String) : Option String :=
  match opts.get key with
  | some (Json.str s) => some s
  | _ => none

/-- A property that a payload tests against `undefined` and uses as a string. -/
def strFieldOf (opts : Json) (key : String) : Field String :=
  match opts.get key with
  | none => Field.undefined
  | some (Json.str s) => Field.value s
  | some _ => Field.null

/-- A property that a payload tests against `undefined` and uses as a boolean. -/
def boolFieldOf (opts : Json) (key : String) : Field Bool :=
  match opts.get key with
  | none => Field.undefined
  | some (Json.bool b) => Field.value b
  | some _ => Field.null

/-- The names of `opts.bulk`: an item that is not a string is skipped by the bulk
loop like an empty name. -/
def bulkNames (value : Option Json) : Option (List String) :=
  match value with
  | some (Json.arr items) =>
    some (items.map (fun item =>
      match item with
      | Json.str s => s
      | _ => ""))
  | _ => none

/-- The names of `opts.tags`: an item that is not a string matches no tag. -/
def tagNames (value : Option Json) : Option (List String) :=
  match value with
  | some (Json.arr items) =>
    some (items.filterMap (fun item =>
      match item with
      | Json.str s => some s
      | _ => none))
  | _ => none

/-- The options that `completeTask` and `dropTask` read from the parsed object. -/
def markOptsOf (opts : Json) : MarkOpts :=
  { dryRun := jsTruthy (opts.get "dryRun") }

/-- The options that `addTask` reads from the parsed object, by key. -/
def addTaskOptsOf (opts : Json) : AddTaskOpts :=
  { bulk := bulkNames (opts.get "bulk")
    dryRun := jsTruthy (opts.get "dryRun")
    project := strField opts "project"
    note := strField opts "note"
    dueDate := strField opts "dueDate"
    deferDate := strField opts "deferDate"
    flagged := jsTruthy (opts.get "flagged")
    tag := strField opts "tag"
    tags := tagNames (opts.get "tags")
    estimatedMinutes :=
      match opts.get "estimatedMinutes" with
      | some (Json.str s) => some s
      | some (Json.num n) => if n = 0 then none else some (toString n)
      | _ => none }

/-- The options that `modifyProject` reads from the parsed object, by key. -/
def modifyProjectOptsOf (opts : Json) : ModifyProjectOpts :=
  { dryRun := jsTruthy (opts.get "dryRun")
    raw := opts
    status := strField opts "status"
    complete := jsTruthy (opts.get "complete")
    drop := jsTruthy (opts.get "drop")
    hold := jsTruthy (opts.get "hold")
    activate := jsTruthy (opts.get "activate")
    name := strField opts "name"
    note := strFieldOf opts "note"
    dueDate := strField opts "dueDate"
    clearDue := jsTruthy (opts.get "clearDue")
    deferDate := strField opts "deferDate"
    clearDefer := jsTruthy (opts.get "clearDefer")
    flagged := boolFieldOf opts "flagged"
    sequential := boolFieldOf opts "sequential"
    reviewed := jsTruthy (opts.get "reviewed")
    tag := strField opts "tag" }

/-- The script `completeTask.js` run on process arguments.  When the options
argument parses to `null`, the first read of `opts.dryRun` throws before any
task is marked, and the outer `catch` reports the error. -/
def completeTaskMain (P : Platform) (B : Bridge) (R : Runtime) (st : AppState)
    (args : List String) : Json × AppState :=
  let arg := (getArg args 4).getD ""
  let opts := parseJsonArg R args 5 (Json.obj [])
  if (taskIdsOf arg).isEmpty then (failure "Task ID(s) required", st)
  else
    match opts with
    | Json.null => (failure (R.nullAccess "dryRun"), st)
    | _ => completeTask P B st arg (markOptsOf opts)

/-- The script `dropTask.js` run on process arguments. -/
def dropTaskMain (B : Bridge) (R : Runtime) (st : AppState) (args : List String) :
    Json × AppState :=
  let arg := (getArg args 4).getD ""
  let opts := parseJsonArg R args 5 (Json.obj [])
  if (taskIdsOf arg).isEmpty then (failure "Task ID(s) required", st)
  else
    match opts with
    | Json.null => (failure (R.nullAccess "dryRun"), st)
    | _ => dropTask B st arg (markOptsOf opts)

/-- The script `addTask.js` run on process arguments. -/
def addTaskMain (P : Platform) (R : Runtime) (st : AppState) (args : List String) :
    Json × AppState :=
  let name := (getArg args 4).getD ""
  match parseJsonArg R args 5 (Json.obj []) with
  | Json.null => (failure (R.nullAccess "bulk"), st)
  | opts => addTask P st name (addTaskOptsOf opts)

/-- The script `modifyProject.js` run on process arguments. -/
def modifyProjectMain (P : Platform) (R : Runtime) (st : AppState) (args : List String) :
    Json × AppState :=
  let nameOrId := (getArg args 4).getD ""
  let opts := parseJsonArg R args 5 (Json.obj [])
  if nameOrId = "" then (failure "Project name or ID is required", st)
  else
    match findProject st nameOrId with
    | none => (failure ("Project not found: " ++ nameOrId), st)
    | some _ =>
      match opts with
      | Json.null => (failure (R.nullAccess "dryRun"), st)
      | _ => modifyProject P st nameOrId (modifyProjectOptsOf opts)

/-- Arguments of the MCP task tool that the actions `create`, `complete` and `drop`
read. -/
structure McpTaskArgs where
  id : Option String := none
  ids : Option (List String) := none
  name : Option String := none
  note : Option String := none
  project : Option String := none
  due : Option String := none
  defer : Option String := none
  tags : Option (List String) := none
  flagged : Option Bool := none
  estimate_mins : Option Int := none

/-- The expression `args.ids || (args.id ? [args.id] : null)`. -/
def mcpTaskIds (a : McpTaskArgs) : Option (List String) :=
  match a.ids with
  | some l => some l
  | none => if strTruthy a.id then some [strOr a.id ""] else none

/-- The positional arguments `[...taskIds, JSON.stringify({})]` of the actions
`complete` and `drop`, or the error of the guard `!taskIds?.length`. -/
def mcpMarkArgs (stringify : Json → String) (a : McpTaskArgs) : Except String (List String) :=
  match mcpTaskIds a with
  | some (first :: more) => Except.ok ((first :: more) ++ [stringify (Json.obj [])])
  | _ => Except.error "ids required"

/-- The action `complete` of the MCP task tool: the error handed to `err`, or the
result of the `completeTask` script, which `runJxa` parses back from the
standard output, and the document afterwards. -/
def mcpTaskComplete (P : Platform) (B : Bridge) (R : Runtime) (stringify : Json → String)
    (helpers script : String) (st : AppState) (a : McpTaskArgs) :
    Except String (Json × AppState) :=
  match mcpMarkArgs stringify a with
  | Except.ok args => Except.ok (completeTaskMain P B R st (processArguments helpers script args))
  | Except.error message => Except.error message

/-- The action `drop` of the MCP task tool. -/
def mcpTaskDrop (B : Bridge) (R : Runtime) (stringify : Json → String)
    (helpers script : String) (st : AppState) (a : McpTaskArgs) :
    Except String (Json × AppState) :=
  match mcpMarkArgs stringify a with
  | Except.ok args => Except.ok (dropTaskMain B R st (processArguments helpers script args))
  | Except.error message => Except.error message

/-- The options object that the action `create` of the MCP task tool serialises. -/
def mcpCreateOptions (a : McpTaskArgs) : Json :=
  mkObj [
    ("note", a.note.map Json.str),
    ("project", a.project.map Json.str),
    ("tags", some (Json.arr ((a.tags.getD []).map Json.str))),
    ("due", a.due.map Json.str),
    ("defer", a.defer.map Json.str),
    ("flagged", a.flagged.map Json.bool),
    ("estimate", a.estimate_mins.map Json.num)]

/-- The action `create` of the MCP task tool. -/
def mcpTaskCreate (P : Platform) (R : Runtime) (stringify : Json → String)
    (helpers script : String) (st : AppState) (a : McpTaskArgs) :
    Except String (Json × AppState) :=
  if strTruthy a.name then
    Except.ok (addTaskMain P R st
      (processArguments helpers script [strOr a.name "", stringify (mcpCreateOptions a)]))
  else Except.error "name required"

/-- The two values of the `status` argument of the MCP project tool. -/
inductive McpStatus where
  | active : McpStatus
  | on_hold : McpStatus
deriving DecidableEq, Repr

/-- The table `actionMap` of the action `set_status`. -/
def actionMap : McpStatus → String
  | McpStatus.active => "activate"
  | McpStatus.on_hold => "hold"

/-- Arguments of the MCP project tool and of the MCP utility tool that the status
actions read. -/
structure McpProjectArgs where
  id : Option String := none
  status : Option McpStatus := none
  project_id : Option String := none

/-- The call `runJxa('write', 'modifyProject', [id, JSON.stringify({ action })])`
shared by the status actions: the result of the script and the document
afterwards. -/
def mcpModifyProject (P : Platform) (R : Runtime) (stringify : Json → String)
    (helpers script : String) (st : AppState) (id action : String) : Json × AppState :=
  modifyProjectMain P R st
    (processArguments helpers script [id, stringify (Json.obj [("action", Json.str action)])])

/-- The action `complete` of the MCP project tool. -/
def mcpProjectComplete (P : Platform) (R : Runtime) (stringify : Json → String)
    (helpers script : String) (st : AppState) (a : McpProjectArgs) :
    Except String (Json × AppState) :=
  if strTruthy a.id then
    Except.ok (mcpModifyProject P R stringify helpers script st (strOr a.id "") "complete")
  else Except.error "id required"

/-- The action `drop` of the MCP project tool. -/
def mcpProjectDrop (P : Platform) (R : Runtime) (stringify : Json → String)
    (helpers script : String) (st : AppState) (a : McpProjectArgs) :
    Except String (Json × AppState) :=
  if strTruthy a.id then
    Except.ok (mcpModifyProject P R stringify helpers script st (strOr a.id "") "drop")
  else Except.error "id required"

/-- The action `set_status` of the MCP project tool. -/
def mcpProjectSetStatus (P : Platform) (R : Runtime) (stringify : Json → String)
    (helpers script : String) (st : AppState) (a : McpProjectArgs) :
    Except String (Json × AppState) :=
  if strTruthy a.id then
    match a.status with
    | some status =>
      Except.ok (mcpModifyProject P R stringify helpers script st (strOr a.id "")
        (actionMap status))
    | none => Except.error "status required (active|on_hold)"
  else Except.error "id required"

/-- The action `mark_reviewed` of the MCP utility tool. -/
def mcpMarkReviewed (P : Platform) (R : Runtime) (stringify : Json → String)
    (helpers script : String) (st : AppState) (a : McpProjectArgs) :
    Except String (Json × AppState) :=
  if strTruthy a.project_id then
    Except.ok (mcpModifyProject P R stringify helpers script st (strOr a.project_id "")
      "review")
  else Except.error "project_id required"

/-! ## The outline reader (`parseOutline` in `src/commands/add.js`) -/

/-- Line terminators, the code points that `.` does not match in a pattern. -/
def isLineTerminator (c : Char) : Bool :=
  let n := c.toNat
  n = 0x0A || n = 0x0D || n = 0x2028 || n = 0x2029

/-- The call `text.split('\n')` on a list of characters: never the empty list. -/
def splitLines : List Char → List (List Char)
  | [] => [[]]
  | c :: rest =>
    if c = '\n' then [] :: splitLines rest
    else
      match splitLines rest with
      | [] => [[c]]
      | piece :: pieces => (c :: piece) :: pieces

/-- The tail `\s+(.+)$` of the bullet pattern after the marker, where `spaces` is
the run of white space after the marker and `rest` what follows it: the
greedy `\s+` first takes `k` characters of the run and gives them back one by
one, down to a single one, until the remainder is a non-empty text without a
line terminator, which is the second capture. -/
def bulletText (spaces rest : List Char) : Nat → Option (List Char)
  | 0 => none
  | k + 1 =>
    let capture := spaces.drop (k + 1) ++ rest
    if capture ≠ [] ∧ capture.all (fun c => !isLineTerminator c) = true then some capture
    else bulletText spaces rest k

/-- Match of the pattern `^(\s*)[-*]\s+(.+)$` on a line: the two captures.  The
greedy `\s*` takes the whole leading white space, because a shorter run is
followed by white space and not by a marker. -/
def matchBullet (line : List Char) : Option (List Char × List Char) :=
  let indent := line.takeWhile isJsSpace
  match line.dropWhile isJsSpace with
  | marker :: after =>
    if marker = '-' ∨ marker = '*' then
      let spaces := after.takeWhile isJsSpace
      match bulletText spaces (after.dropWhile isJsSpace) spaces.length with
      | some capture => some (indent, capture)
      | none => none
    else none
  | [] => none

/-- The array `projects` with the current project pushed, if there is one. -/
def pushCurrent (projects : List OutlineProject) (current : Option OutlineProject) :
    List OutlineProject :=
  match current with
  | some p => projects ++ [p]
  | none => projects

/-- The loop `for (const line of lines)` of `parseOutline` and the final push, with
the array `projects` and `currentProject` as accumulators. -/
def outlineLoop : List (List Char) → List OutlineProject → Option OutlineProject →
    List OutlineProject
  | [], projects, current => pushCurrent projects current
  | line :: rest, projects, current =>
    if trimChars line = [] ∨ (trimChars line).head? = some '#' then
      outlineLoop rest projects current
    else
      match matchBullet line with
      | none => outlineLoop rest projects current
      | some (indent, text) =>
        let content := String.mk (trimChars text)
        if indent.length = 0 then
          outlineLoop rest (pushCurrent projects current) (some { name := content, tasks := [] })
        else
          match current with
          | some p => outlineLoop rest projects (some { p with tasks := p.tasks ++ [content] })
          | none => outlineLoop rest projects none

/-- The function `parseOutline(text)`. -/
def parseOutline (text : String) : List OutlineProject :=
  outlineLoop (splitLines text.data) [] none

/-! ## Sample data -/

/-- Lower-casing of the ASCII letters, used by the sample platform. -/
def asciiLower (s : String) : String := String.mk (s.data.map Char.toLower)

/-- A sample platform: clock at one million milliseconds, time zone UTC, no
absolute date literal recognised, and a bridge that refuses a status that is
not a string. -/
def samplePlatform : Platform :=
  { now := 1000000
    localTZA := fun _ _ => 0
    dateParse := fun _ => none
    toISOString := fun t => toString t
    toLowerCase := asciiLower
    foreignStatus := fun _ => Except.error "Cannot convert types." }

/-- The sample platform in New York on 11 March 2023 at noon, the day before the
clocks go forward: five hours behind UTC up to 12 March 2023, 07:00 UTC, and
four hours behind from then on; a local time that the change skips is read
with the offset before the change. -/
def newYorkPlatform : Platform :=
  { samplePlatform with
    now := 1678554000000
    localTZA := fun t isUTC =>
      if isUTC then (if t < 1678604400000 then -18000000 else -14400000)
      else (if t < 1678590000000 then -18000000 else -14400000) }

/-- The sample platform with the clock in the morning of 15 June of the year 50. -/
def yearFiftyPlatform : Platform :=
  { samplePlatform with now := daysFromCivil 50 6 15 * msPerDay + 9 * 3600000 }

/-- The sample platform with a date parser that knows one literal, five seconds
after the epoch. -/
def literalPlatform : Platform :=
  { samplePlatform with
    dateParse := fun s => if s = "1970-01-01T00:00:05Z" then some 5000 else none }

/-- A sample document. -/
def sampleDoc : AppState :=
  { tasks := [
      { id := "t1", name := "Write Report", flagged := true, project := some "p1", tags := ["g1"],
        inInbox := false, dueDate := some 5000 },
      { id := "t2", name := "Old report", completed := true, project := some "p1", inInbox := false },
      { id := "t3", name := "Call Bob", note := "about the report" },
      { id := "t4", name := "Plan trip", flagged := true, deferDate := some 2000000 }]
    projects := [{ id := "p1", name := "Work" }, { id := "p2", name := "Home" }]
    folders := [{ id := "f1", name := "Areas" }]
    tags := [{ id := "g1", name := "Urgent" }, { id := "g2", name := "Later" }] }

/-- A document with one task due and deferred on 31 January 2023 at noon. -/
def monthEndDoc : AppState :=
  { tasks := [
      { id := "t1", name := "Pay rent",
        dueDate := some (daysFromCivil 2023 1 31 * msPerDay + 12 * 3600000),
        deferDate := some (daysFromCivil 2023 1 31 * msPerDay + 12 * 3600000) }] }

/-- Sample options: several filters at once. -/
def sampleSearchOpts : SearchOpts :=
  { project := some "Work", tag := some "Urgent", flagged := true, available := true,
    dueBefore := some "+1d", limit := some 10 }

/-- A sample Node host whose child process ends with the given outcome; its JSON
parser knows the texts "42" and "null". -/
def sampleHost (outcome : Except ExecError (String × String)) : Host :=
  { resolve := fun parts => String.intercalate "/" parts
    jxaDir := "/opt/omnifocus/jxa"
    readFiles := fun _ _ => Except.ok ("script", "helpers")
    execFile := fun _ _ _ _ => outcome
    jsonParse := fun s =>
      if s = "42" then some (Json.num 42) else if s = "null" then some Json.null else none
    jsonParse_empty := rfl
    stripLeadingComments := fun s => s
    stripShebang := fun s => s
    readFile := fun _ => Except.ok "script" }

/-- A document with two tags named "Urgent", the second nested under another tag,
and one task for each of them. -/
def twinTagDoc : AppState :=
  { tasks := [
      { id := "t1", name := "Fix bug", tags := ["g2"] },
      { id := "t2", name := "Ship release", tags := ["g1"] }]
    tags := [
      { id := "g1", name := "Urgent" },
      { id := "g0", name := "Clients" },
      { id := "g2", name := "Urgent", container := some "g0" }] }

/-- A Node host whose probe process succeeds with the given standard output, which
its JSON parser reads as the given value. -/
def probeHost (stdout : String) (parsed : Json) : Host :=
  { resolve := fun parts => String.intercalate "/" parts
    jxaDir := "/opt/omnifocus/jxa"
    readFiles := fun _ _ => Except.ok ("script", "helpers")
    execFile := fun _ _ _ _ => Except.ok (stdout, "")
    jsonParse := fun s => if s = "" then none else some parsed
    jsonParse_empty := rfl
    stripLeadingComments := fun s => s
    stripShebang := fun s => s
    readFile := fun _ => Except.ok "script" }

/-- A bridge on which the marking calls never fail. -/
def reliableBridge : Bridge :=
  { markCompleteError := fun _ => none
    markDroppedError := fun _ => none }

/-- A serialiser that knows the option objects of the sample calls: an object with
an `action`, an object with empty `tags` and a `due`, and the empty object. -/
def sampleStringify (value : Json) : String :=
  match value.get "action", value.get "due" with
  | some (Json.str a), _ => "\x7b\"action\":\"" ++ a ++ "\"\x7d"
  | _, some (Json.str e) => "\x7b\"tags\":[],\"due\":\"" ++ e ++ "\"\x7d"
  | _, _ => "\x7b\x7d"

/-- A script runtime whose JSON reader knows the texts of the sample calls. -/
def sampleRuntime : Runtime :=
  { jsonParse := fun s =>
      if s = "\x7b\x7d" then some (Json.obj [])
      else if s = "\x7b\"action\":\"complete\"\x7d" then
        some (Json.obj [("action", Json.str "complete")])
      else if s = "\x7b\"action\":\"activate\"\x7d" then
        some (Json.obj [("action", Json.str "activate")])
      else if s = "\x7b\"tags\":[],\"due\":\"tomorrow\"\x7d" then
        some (Json.obj [("tags", Json.arr []), ("due", Json.str "tomorrow")])
      else none
    jsonParse_empty := rfl
    nullAccess := fun key => "null is not an object (evaluating opts." ++ key ++ ")" }

/-! ## Verified properties -/

/-! ### Lookup lemmas -/

theorem scanProjectById_append (x : String) (pre : List Project) (p : Project)
    (post : List Project) (hp : p.id = x) (hpre : ∀ q ∈ pre, q.id ≠ x) :
    scanProjectById x (pre ++ p :: post) = some p := by
  induction pre with
  | nil => simp [scanProjectById, hp]
  | cons q qs ih =>
    have hq : q.id ≠ x := hpre q (List.mem_cons_self q qs)
    have hqs : ∀ r ∈ qs, r.id ≠ x := fun r hr => hpre r (List.mem_cons_of_mem q hr)
    simp [scanProjectById, hq, ih hqs]

theorem scanProjectByName_append (x : String) (pre : List Project) (p : Project)
    (post : List Project) (hp : p.name = x) (hpre : ∀ q ∈ pre, q.name ≠ x) :
    scanProjectByName x (pre ++ p :: post) = some p := by
  induction pre with
  | nil => simp [scanProjectByName, hp]
  | cons q qs ih =>
    have hq : q.name ≠ x := hpre q (List.mem_cons_self q qs)
    have hqs : ∀ r ∈ qs, r.name ≠ x := fun r hr => hpre r (List.mem_cons_of_mem q hr)
    simp [scanProjectByName, hq, ih hqs]

theorem scanProjectById_none (x : String) (ps : List Project) (h : ∀ q ∈ ps, q.id ≠ x) :
    scanProjectById x ps = none := by
  induction ps with
  | nil => rfl
  | cons q qs ih =>
    have hq : q.id ≠ x := h q (List.mem_cons_self q qs)
    have hqs : ∀ r ∈ qs, r.id ≠ x := fun r hr => h r (List.mem_cons_of_mem q hr)
    simp [scanProjectById, hq, ih hqs]

theorem scanProjectByName_none (x : String) (ps : List Project) (h : ∀ q ∈ ps, q.name ≠ x) :
    scanProjectByName x ps = none := by
  induction ps with
  | nil => rfl
  | cons q qs ih =>
    have hq : q.name ≠ x := h q (List.mem_cons_self q qs)
    have hqs : ∀ r ∈ qs, r.name ≠ x := fun r hr => h r (List.mem_cons_of_mem q hr)
    simp [scanProjectByName, hq, ih hqs]

/-- C2: `findProject` returns the first project whose id equals the identifier when
there is one, even when an earlier project has that name; otherwise the first
project whose name equals it exactly; otherwise `null`. -/
theorem findProject_id_then_name (doc : AppState) (x : String) :
    (∀ pre p post, doc.projects = pre ++ p :: post → p.id = x → (∀ q ∈ pre, q.id ≠ x) →
      findProject doc x = some p) ∧
    ((∀ q ∈ doc.projects, q.id ≠ x) →
      ∀ pre p post, doc.projects = pre ++ p :: post → p.name = x → (∀ q ∈ pre, q.name ≠ x) →
        findProject doc x = some p) ∧
    ((∀ q ∈ doc.projects, q.id ≠ x ∧ q.name ≠ x) → findProject doc x = none) := by
  refine ⟨?_, ?_, ?_⟩
  · intro pre p post hsplit hp hpre
    simp [findProject, hsplit, scanProjectById_append x pre p post hp hpre]
  · intro hno pre p post hsplit hp hpre
    have h1 : scanProjectById x doc.projects = none := scanProjectById_none x _ hno
    have h2 : scanProjectByName x doc.projects = some p := by
      rw [hsplit]
      exact scanProjectByName_append x pre p post hp hpre
    simp [findProject, h1, h2]
  · intro hno
    have h1 : scanProjectById x doc.projects = none :=
      scanProjectById_none x _ (fun q hq => (hno q hq).1)
    have h2 : scanProjectByName x doc.projects = none :=
      scanProjectByName_none x _ (fun q hq => (hno q hq).2)
    simp [findProject, h1, h2]

/-- Witness for C2: the identifier "p2" is the name of the first project and the id
of the second; the project with that id is returned. -/
theorem findProject_id_then_name_witness :
    findProject { projects := [{ id := "p1", name := "p2" }, { id := "p2", name := "Home" }] } "p2"
      = some { id := "p2", name := "Home" } :=
  (findProject_id_then_name
      { projects := [{ id := "p1", name := "p2" }, { id := "p2", name := "Home" }] } "p2").1
    [{ id := "p1", name := "p2" }] { id := "p2", name := "Home" } [] rfl rfl (by decide)

/-- C3: evaluation of `findTag` and `findFolder` where the identifier "b" is the id
of the second entity and the name of the first: the single loop returns the first
entity, the one matched by name, not the entity whose id is "b". -/
theorem findTag_findFolder_name_before_id :
    findTag { tags := [{ id := "a", name := "b" }, { id := "b", name := "c" }] } "b"
        = some { id := "a", name := "b" } ∧
      findFolder { folders := [{ id := "a", name := "b" }, { id := "b", name := "c" }] } "b"
        = some { id := "a", name := "b" } := by
  decide

/-! ### The scan loop -/

theorem searchLoop_eq (keep : Task → Bool) (fmt : Task → Json) (limit : Int) (l : List Task) :
    ∀ (count : Int) (acc : List Json),
      searchLoop keep fmt limit l count acc
        = acc ++ ((l.filter keep).take (limit - count).toNat).map fmt := by
  induction l with
  | nil => intro count acc; simp [searchLoop]
  | cons t rest ih =>
    intro count acc
    by_cases hc : count < limit
    · have hpos : (limit - count).toNat = (limit - (count + 1)).toNat + 1 := by omega
      by_cases hk : keep t = true
      · simp [searchLoop, hc, hk, ih, hpos, List.take_succ_cons]
      · simp [searchLoop, hc, hk, ih]
    · have hz : (limit - count).toNat = 0 := by omega
      simp [searchLoop, hc, hz]

theorem search_tasks_eq (P : Platform) (doc : AppState) (query : String) (opts : SearchOpts)
    (ts : List Json) (h : (search P doc query opts).get "tasks" = some (Json.arr ts)) :
    ¬ (strTruthy opts.project ∧ (resolvedProject doc opts).isNone) ∧
      ¬ (strTruthy opts.tag ∧ (resolvedTag doc opts).isNone) ∧
      ts = (((doc.tasks.filter (searchKeeps P doc opts (resolvedFilters P doc query opts))).take
        (limitOr opts.limit 50).toNat).map (formatTask P doc)) ∧
      (search P doc query opts).get "totalCount" = some (Json.num ts.length) := by
  unfold search at h ⊢
  split at h
  · simp [failure, Json.get, lookupField] at h
  · split at h
    · simp [failure, Json.get, lookupField] at h
    · rename_i h1 h2
      refine ⟨h1, h2, ?_⟩
      simp only [if_neg h1, if_neg h2]
      simp only [searchRun, Json.get, lookupField, searchLoop_eq] at h ⊢
      simp at h
      subst h
      simp

theorem hasTagId_exists (x : String) (ts : List Tag) (h : hasTagId x ts = true) :
    ∃ g ∈ ts, g.id = x := by
  induction ts with
  | nil => simp [hasTagId] at h
  | cons t rest ih =>
    by_cases ht : t.id = x
    · exact ⟨t, List.mem_cons_self t rest, ht⟩
    · simp [hasTagId, ht] at h
      obtain ⟨g, hg, hgx⟩ := ih h
      exact ⟨g, List.mem_cons_of_mem t hg, hgx⟩

theorem parseDateOpt_some (P : Platform) (s : String) (hs : s ≠ "") :
    parseDateOpt P (some s) = parseDate P s := by
  simp [parseDateOpt, hs]

theorem strTruthy_some (s : String) (hs : s ≠ "") : strTruthy (some s) = true := by
  simp [strTruthy, hs]

theorem strOr_some (s fallback : String) (hs : s ≠ "") : strOr (some s) fallback = s := by
  simp [strOr, hs]

/-- C1: every task returned by the search payload comes from the source list and
satisfies every active predicate at once: completed-state, flagged, availability,
project membership, tag membership, due window, defer window and free text. -/
theorem search_results_pass_every_filter (P : Platform) (doc : AppState) (query : String)
    (opts : SearchOpts) (ts : List Json)
    (h : (search P doc query opts).get "tasks" = some (Json.arr ts)) :
    ∃ kept : List Task, kept.Sublist doc.tasks ∧ ts = kept.map (formatTask P doc) ∧
      ∀ t ∈ kept,
        (opts.includeCompleted = false → t.completed = false) ∧
        (opts.flagged = true → t.flagged = true) ∧
        (opts.available = true → t.blocked = false ∧ ∀ d, t.deferDate = some d → d ≤ P.now) ∧
        (∀ ident, opts.project = some ident → ident ≠ "" →
          ∃ target p, findProject doc ident = some target ∧
            taskProject doc t = Access.value (some p) ∧ p.id = target.id) ∧
        (∀ ident, opts.tag = some ident → ident ≠ "" →
          ∃ target tags, findTag doc ident = some target ∧
            taskTags doc t = Access.value tags ∧ ∃ g ∈ tags, g.id = target.id) ∧
        (∀ s bound, opts.dueBefore = some s → s ≠ "" → parseDate P s = some bound →
          (t.dueDate = none → opts.requireDue = false) ∧
            ∀ d b, t.dueDate = some d → bound = some b → d ≤ b) ∧
        (∀ s bound, opts.dueAfter = some s → s ≠ "" → parseDate P s = some bound →
          (t.dueDate = none → opts.requireDue = false) ∧
            ∀ d b, t.dueDate = some d → bound = some b → b ≤ d) ∧
        (∀ s bound, opts.deferBefore = some s → s ≠ "" → parseDate P s = some bound →
          ∃ d, t.deferDate = some d ∧ ∀ b, bound = some b → d ≤ b) ∧
        (∀ s bound, opts.deferAfter = some s → s ≠ "" → parseDate P s = some bound →
          ∃ d, t.deferDate = some d ∧ ∀ b, bound = some b → b ≤ d) ∧
        (query ≠ "" → P.toLowerCase query ≠ "" →
          jsIncludes (P.toLowerCase t.name) (P.toLowerCase query) = true ∨
            jsIncludes (P.toLowerCase t.note) (P.toLowerCase query) = true) := by
  obtain ⟨hproj, htag, hts, _⟩ := search_tasks_eq P doc query opts ts h
  refine ⟨_, ?_, hts, ?_⟩
  · exact (List.take_sublist _ _).trans (List.filter_sublist _)
  · intro t ht
    have hkeep : searchKeeps P doc opts (resolvedFilters P doc query opts) t = true :=
      (List.mem_filter.mp (List.mem_of_mem_take ht)).2
    simp only [searchKeeps, Bool.and_eq_true] at hkeep
    obtain ⟨⟨⟨⟨⟨⟨⟨hC, hF⟩, hA⟩, hP⟩, hT⟩, hDue⟩, hDef⟩, hX⟩ := hkeep
    refine ⟨?_, ?_, ?_, ?_, ?_, ?_, ?_, ?_, ?_, ?_⟩
    · intro hi
      simpa [passCompleted, hi] using hC
    · intro hf
      simpa [passFlagged, hf] using hF
    · intro ha
      simp only [passAvailable, ha, if_true] at hA
      by_cases hb : t.blocked = true
      · simp [hb] at hA
      · refine ⟨by simpa using hb, ?_⟩
        intro d hd
        simp [hb, hd] at hA
        exact hA
    · intro ident hid hne
      have htr : strTruthy opts.project = true := by rw [hid]; exact strTruthy_some ident hne
      have hres : resolvedProject doc opts = findProject doc ident := by
        simp only [resolvedProject, htr, if_true]
        rw [hid, strOr_some ident "" hne]
      cases hfp : findProject doc ident with
      | none =>
        exact absurd ⟨htr, by simp [hres, hfp]⟩ hproj
      | some target =>
        have hf : (resolvedFilters P doc query opts).targetProject = some target := by
          simp [resolvedFilters, searchFilters, hres, hfp]
        simp only [passProject, hf] at hP
        cases hacc : taskProject doc t with
        | throws => simp [hacc] at hP
        | value v =>
          cases v with
          | none => simp [hacc] at hP
          | some p =>
            simp [hacc] at hP
            exact ⟨target, p, rfl, rfl, hP⟩
    · intro ident hid hne
      have htr : strTruthy opts.tag = true := by rw [hid]; exact strTruthy_some ident hne
      have hres : resolvedTag doc opts = findTag doc ident := by
        simp only [resolvedTag, htr, if_true]
        rw [hid, strOr_some ident "" hne]
      cases hfp : findTag doc ident with
      | none =>
        exact absurd ⟨htr, by simp [hres, hfp]⟩ htag
      | some target =>
        have hf : (resolvedFilters P doc query opts).targetTag = some target := by
          simp [resolvedFilters, searchFilters, hres, hfp]
        simp only [passTag, hf] at hT
        cases hacc : taskTags doc t with
        | throws => simp [hacc] at hT
        | value tags =>
          simp [hacc] at hT
          exact ⟨target, tags, rfl, rfl, hasTagId_exists _ _ hT⟩
    · intro s bound hs hne hpd
      have hb : (resolvedFilters P doc query opts).dueBefore = some bound := by
        simp [resolvedFilters, searchFilters, hs, parseDateOpt_some P s hne, hpd]
      simp only [passDue, hb, Option.isSome_some, Bool.true_or, if_true] at hDue
      refine ⟨?_, ?_⟩
      · intro hn
        simpa [hn] using hDue
      · intro d b hd hbb
        subst hbb
        simp only [hd] at hDue
        by_cases hg : dateGt d (some b) = true
        · simp [hg] at hDue
        · simpa [dateGt] using hg
    · intro s bound hs hne hpd
      have hb : (resolvedFilters P doc query opts).dueAfter = some bound := by
        simp [resolvedFilters, searchFilters, hs, parseDateOpt_some P s hne, hpd]
      simp only [passDue, hb, Option.isSome_some, Bool.or_true, if_true] at hDue
      refine ⟨?_, ?_⟩
      · intro hn
        simpa [hn] using hDue
      · intro d b hd hbb
        subst hbb
        simp only [hd] at hDue
        by_cases hg : dateLt d (some b) = true
        · simp [hg] at hDue
        · simpa [dateLt] using hg
    · intro s bound hs hne hpd
      have hb : (resolvedFilters P doc query opts).deferBefore = some bound := by
        simp [resolvedFilters, searchFilters, hs, parseDateOpt_some P s hne, hpd]
      simp only [passDefer, hb, Option.isSome_some, Bool.true_or, if_true] at hDef
      cases hd : t.deferDate with
      | none => simp [hd] at hDef
      | some d =>
        refine ⟨d, rfl, ?_⟩
        intro b hbb
        subst hbb
        simp only [hd] at hDef
        by_cases hg : dateGt d (some b) = true
        · simp [hg] at hDef
        · simpa [dateGt] using hg
    · intro s bound hs hne hpd
      have hb : (resolvedFilters P doc query opts).deferAfter = some bound := by
        simp [resolvedFilters, searchFilters, hs, parseDateOpt_some P s hne, hpd]
      simp only [passDefer, hb, Option.isSome_some, Bool.or_true, if_true] at hDef
      cases hd : t.deferDate with
      | none => simp [hd] at hDef
      | some d =>
        refine ⟨d, rfl, ?_⟩
        intro b hbb
        subst hbb
        simp only [hd] at hDef
        by_cases hg : dateLt d (some b) = true
        · simp [hg] at hDef
        · simpa [dateLt] using hg
    · intro hq hlq
      have hql : (resolvedFilters P doc query opts).queryLower = P.toLowerCase query := by
        simp [resolvedFilters, searchFilters, hq]
      simpa [passText, hql, hlq] using hX

/-- Witness for C1: a search with text and five filters on the sample document
returns the one task that passes them all. -/
theorem search_results_pass_every_filter_witness :
    (search samplePlatform sampleDoc "REPORT" sampleSearchOpts).get "tasks"
        = some (Json.arr [formatTask samplePlatform sampleDoc
            { id := "t1", name := "Write Report", flagged := true, project := some "p1",
              tags := ["g1"], inInbox := false, dueDate := some 5000 }]) ∧
      ∃ kept : List Task, kept.Sublist sampleDoc.tasks ∧ kept.length = 1 ∧
        ∀ t ∈ kept, t.completed = false ∧ t.flagged = true ∧ t.blocked = false :=
  ⟨rfl, by
    obtain ⟨kept, hsub, hmap, hall⟩ :=
      search_results_pass_every_filter samplePlatform sampleDoc "REPORT" sampleSearchOpts _ rfl
    refine ⟨kept, hsub, ?_, fun t ht => ⟨(hall t ht).1 rfl, (hall t ht).2.1 rfl,
      ((hall t ht).2.2.1 rfl).1⟩⟩
    have hlen := congrArg List.length hmap
    simpa using hlen.symm⟩

/-- C4: for a positive limit the returned tasks are the first `limit` tasks of the
source enumeration that pass the filters, in source order; there are at most
`limit` of them and `totalCount` is their number. -/
theorem search_returns_first_limit_matches (P : Platform) (doc : AppState) (query : String)
    (opts : SearchOpts) (n : Int) (hn : 0 < n) (hl : opts.limit = some n) (ts : List Json)
    (h : (search P doc query opts).get "tasks" = some (Json.arr ts)) :
    ts = (((doc.tasks.filter (searchKeeps P doc opts (resolvedFilters P doc query opts))).take
        n.toNat).map (formatTask P doc)) ∧
      (ts.length : Int) ≤ n ∧
      (search P doc query opts).get "totalCount" = some (Json.num ts.length) := by
  obtain ⟨_, _, hts, hcount⟩ := search_tasks_eq P doc query opts ts h
  have hlim : limitOr opts.limit 50 = n := by
    have hne : n ≠ 0 := by omega
    simp [limitOr, hl, hne]
  rw [hlim] at hts
  refine ⟨hts, ?_, hcount⟩
  have hlen : ts.length ≤ n.toNat := by
    rw [hts, List.length_map, List.length_take]
    exact Nat.min_le_left _ _
  omega

/-- Witness for C4: limit 2 on the sample document, where three tasks pass the
filters, returns the first two of them. -/
theorem search_returns_first_limit_matches_witness :
    (search samplePlatform sampleDoc "" { limit := some 2 }).get "tasks"
        = some (Json.arr [
            formatTask samplePlatform sampleDoc
              { id := "t1", name := "Write Report", flagged := true, project := some "p1",
                tags := ["g1"], inInbox := false, dueDate := some 5000 },
            formatTask samplePlatform sampleDoc
              { id := "t3", name := "Call Bob", note := "about the report" }]) ∧
      (search samplePlatform sampleDoc "" { limit := some 2 }).get "totalCount"
        = some (Json.num 2) :=
  ⟨rfl, (search_returns_first_limit_matches samplePlatform sampleDoc "" { limit := some 2 } 2
    (by decide) rfl _ rfl).2.2⟩

/-- C5, counterexample: with an empty query and an empty filter set a completed
task is skipped, so limit 1 on a list holding one completed task returns nothing
although the prefix of length 1 is that task; and limit 0 on a list holding one
open task returns that task although the prefix of length 0 is empty. -/
theorem search_unfiltered_prefix_counterexample :
    (search samplePlatform { tasks := [{ id := "t1", name := "Done", completed := true }] } ""
        { limit := some 1 }).get "tasks"
      ≠ some (Json.arr ((([{ id := "t1", name := "Done", completed := true }] : List Task).take 1).map
          (formatTask samplePlatform { tasks := [{ id := "t1", name := "Done", completed := true }] }))) ∧
    (search samplePlatform { tasks := [{ id := "t1", name := "Open" }] } ""
        { limit := some 0 }).get "tasks"
      ≠ some (Json.arr ((([{ id := "t1", name := "Open" }] : List Task).take 0).map
          (formatTask samplePlatform { tasks := [{ id := "t1", name := "Open" }] }))) := by
  constructor
  · intro h
    have h2 : (search samplePlatform { tasks := [{ id := "t1", name := "Done", completed := true }] } ""
        { limit := some 1 }).get "tasks" = some (Json.arr []) := rfl
    rw [h2] at h
    simp at h
  · intro h
    have h2 : (search samplePlatform { tasks := [{ id := "t1", name := "Open" }] } ""
        { limit := some 0 }).get "tasks"
        = some (Json.arr [formatTask samplePlatform { tasks := [{ id := "t1", name := "Open" }] }
            { id := "t1", name := "Open" }]) := rfl
    rw [h2] at h
    simp at h

/-- C5, amended: with an empty query, an empty filter set and a positive limit N the
search returns the first N tasks that are not completed, in source order. -/
theorem search_no_filters_first_open_tasks (P : Platform) (doc : AppState) (n : Int)
    (hn : 0 < n) :
    (search P doc "" { limit := some n }).get "tasks"
      = some (Json.arr (((doc.tasks.filter (fun t => !t.completed)).take n.toNat).map
          (formatTask P doc))) := by
  have hne : n ≠ 0 := by omega
  have hkeep : searchKeeps P doc { limit := some n } (resolvedFilters P doc "" { limit := some n })
      = fun t => !t.completed := by
    funext t
    simp [searchKeeps, passCompleted, passFlagged, passAvailable, passProject, passTag, passDue,
      passDefer, passText, resolvedFilters, searchFilters, resolvedProject, resolvedTag,
      strTruthy, parseDateOpt]
  simp [search, strTruthy, searchRun, searchLoop_eq, hkeep, limitOr, hne, Json.get, lookupField]

/-- Witness for C5 (amended): limit 2 on the sample document returns the first two
open tasks, skipping the completed second task. -/
theorem search_no_filters_first_open_tasks_witness :
    (search samplePlatform sampleDoc "" { limit := some 2 }).get "tasks"
      = some (Json.arr (((sampleDoc.tasks.filter (fun t => !t.completed)).take 2).map
          (formatTask samplePlatform sampleDoc))) :=
  search_no_filters_first_open_tasks samplePlatform sampleDoc 2 (by decide)

/-! ### The script runner -/

theorem jsTrim_empty : jsTrim "" = "" := by decide

/-- C8: when the child process fails without being killed and without the code
"ENOENT" (so in particular on a non-zero exit status) and its trimmed standard
output parses as JSON, `runJxa` returns exactly the parsed value. -/
theorem runJxa_failed_process_json_stdout (H : Host) (category scriptName : String)
    (args : List String) (e : ExecError) (out : String) (v : Json)
    (hrun : runScript H (scriptPathOf H category scriptName)
      (H.resolve [H.jxaDir, "utils", "helpers.js"]) args = Except.error e)
    (hkilled : e.killed = false) (hcode : e.code ≠ ErrorCode.name "ENOENT")
    (hout : e.stdout = some out) (hjson : H.jsonParse (jsTrim out) = some v) :
    runJxa H category scriptName args = v := by
  have hne : out ≠ "" := by
    intro h0
    rw [h0, jsTrim_empty, H.jsonParse_empty] at hjson
    cases hjson
  simp [runJxa, hrun, handleError, hkilled, hcode, hout, hne, hjson]

/-- Witness for C8: exit status 1 with standard output "42" and a message yields
the number 42, not an error object. -/
theorem runJxa_failed_process_json_stdout_witness :
    runJxa (sampleHost (Except.error
        { code := ErrorCode.exit 1, stdout := some " 42\n", message := "Command failed" }))
      "write" "completeTask" ["x"] = Json.num 42 :=
  runJxa_failed_process_json_stdout _ "write" "completeTask" ["x"]
    { code := ErrorCode.exit 1, stdout := some " 42\n", message := "Command failed" }
    " 42\n" (Json.num 42) rfl rfl (by decide) rfl rfl

/-- C9: on process success the result is the empty-response error when the trimmed
output is empty, the parsed value when the trimmed output parses as JSON, and
the raw wrapper otherwise; exactly one of the three cases applies. -/
theorem runJxa_success_cases (H : Host) (category scriptName : String) (args : List String)
    (stdout stderr : String)
    (hrun : runScript H (scriptPathOf H category scriptName)
      (H.resolve [H.jxaDir, "utils", "helpers.js"]) args = Except.ok (stdout, stderr)) :
    (jsTrim stdout = "" →
      runJxa H category scriptName args = failure "Empty response from script") ∧
    (∀ v, H.jsonParse (jsTrim stdout) = some v → runJxa H category scriptName args = v) ∧
    (jsTrim stdout ≠ "" → H.jsonParse (jsTrim stdout) = none →
      runJxa H category scriptName args
        = Json.obj [("success", Json.bool true), ("raw", Json.str (jsTrim stdout))]) ∧
    (jsTrim stdout = "" ∨ (∃ v, H.jsonParse (jsTrim stdout) = some v) ∨
      (jsTrim stdout ≠ "" ∧ H.jsonParse (jsTrim stdout) = none)) ∧
    ¬ (jsTrim stdout = "" ∧ ∃ v, H.jsonParse (jsTrim stdout) = some v) ∧
    ¬ (jsTrim stdout = "" ∧ (jsTrim stdout ≠ "" ∧ H.jsonParse (jsTrim stdout) = none)) ∧
    ¬ ((∃ v, H.jsonParse (jsTrim stdout) = some v) ∧
      (jsTrim stdout ≠ "" ∧ H.jsonParse (jsTrim stdout) = none)) := by
  refine ⟨?_, ?_, ?_, ?_, ?_, ?_, ?_⟩
  · intro h0
    simp [runJxa, hrun, parseOutput, h0]
  · intro v hv
    have hne : jsTrim stdout ≠ "" := by
      intro h0
      rw [h0, H.jsonParse_empty] at hv
      cases hv
    simp [runJxa, hrun, parseOutput, hne, hv]
  · intro hne hnone
    simp [runJxa, hrun, parseOutput, hne, hnone]
  · by_cases h0 : jsTrim stdout = ""
    · exact Or.inl h0
    · cases hp : H.jsonParse (jsTrim stdout) with
      | none => exact Or.inr (Or.inr ⟨h0, rfl⟩)
      | some v => exact Or.inr (Or.inl ⟨v, rfl⟩)
  · rintro ⟨h0, v, hv⟩
    rw [h0, H.jsonParse_empty] at hv
    cases hv
  · rintro ⟨h0, hne, _⟩
    exact hne h0
  · rintro ⟨⟨v, hv⟩, _, hnone⟩
    rw [hnone] at hv
    cases hv

/-- Witness for C9: a successful process that prints "hello" (not JSON) yields the
raw wrapper. -/
theorem runJxa_success_cases_witness :
    runJxa (sampleHost (Except.ok ("hello\n", ""))) "read" "search" []
      = Json.obj [("success", Json.bool true), ("raw", Json.str "hello")] :=
  (runJxa_success_cases (sampleHost (Except.ok ("hello\n", ""))) "read" "search" []
    "hello\n" "" rfl).2.2.1 (by decide) rfl

/-- C10: `runJxa` is a total function to a value; when the child was killed it
returns the time-out error, when the code is "ENOENT" the script-not-found error
with the script path, and on any other failure whose standard output does not
parse as JSON an object with `success` false and a non-empty `error` string. -/
theorem runJxa_always_resolves (H : Host) (category scriptName : String) (args : List String) :
    (∃ v, runJxa H category scriptName args = v) ∧
    ∀ e, runScript H (scriptPathOf H category scriptName)
        (H.resolve [H.jxaDir, "utils", "helpers.js"]) args = Except.error e →
      (e.killed = true → runJxa H category scriptName args = failure "Script timed out") ∧
      (e.killed = false → e.code = ErrorCode.name "ENOENT" →
        runJxa H category scriptName args
          = failure ("Script not found: " ++ scriptPathOf H category scriptName)) ∧
      (e.killed = false → e.code ≠ ErrorCode.name "ENOENT" →
        (∀ out, e.stdout = some out → H.jsonParse (jsTrim out) = none) →
        (runJxa H category scriptName args).get "success" = some (Json.bool false) ∧
          ∃ msg, (runJxa H category scriptName args).get "error" = some (Json.str msg) ∧
            msg ≠ "") := by
  refine ⟨⟨_, rfl⟩, ?_⟩
  intro e hrun
  refine ⟨?_, ?_, ?_⟩
  · intro hk
    simp [runJxa, hrun, handleError, hk]
  · intro hk hc
    simp [runJxa, hrun, handleError, hk, hc]
  · intro hk hc hbad
    have hres : runJxa H category scriptName args = processError e := by
      simp only [runJxa, hrun, handleError, hk, hc]
      cases hso : e.stdout with
      | none => simp
      | some out =>
        by_cases h0 : out = ""
        · simp [h0]
        · simp [h0, hbad out hso]
    rw [hres]
    by_cases hm : e.message = ""
    · refine ⟨by simp [processError, mkObj, Json.get, lookupField], "Unknown error", ?_, by decide⟩
      simp [processError, mkObj, Json.get, lookupField, hm]
    · refine ⟨by simp [processError, mkObj, Json.get, lookupField], e.message, ?_, hm⟩
      simp [processError, mkObj, Json.get, lookupField, hm]

/-- Witness for C10: a killed child yields the time-out error. -/
theorem runJxa_always_resolves_witness :
    runJxa (sampleHost (Except.error { killed := true, message := "Command failed" }))
      "read" "search" [] = failure "Script timed out" :=
  ((runJxa_always_resolves (sampleHost (Except.error
      { killed := true, message := "Command failed" })) "read" "search" []).2
    { killed := true, message := "Command failed" } rfl).1 rfl

/-! ### Marking tasks complete -/

theorem scanTask_map (f : Task → Task) (hf : ∀ t, (f t).id = t.id) (x : String)
    (l : List Task) : scanTask x (l.map f) = (scanTask x l).map f := by
  induction l with
  | nil => rfl
  | cons t rest ih =>
    by_cases ht : t.id = x
    · simp [scanTask, hf, ht]
    · simp [scanTask, hf, ht, ih]

theorem scanTask_id (x : String) (l : List Task) (t : Task) (h : scanTask x l = some t) :
    t.id = x := by
  induction l with
  | nil => simp [scanTask] at h
  | cons u rest ih =>
    by_cases hu : u.id = x
    · simp [scanTask, hu] at h
      rw [← h]
      exact hu
    · simp [scanTask, hu] at h
      exact ih h

theorem findTask_markComplete (st : AppState) (now : Int) (id x : String) :
    findTask (markCompleteTask st now id) x
      = (findTask st x).map (fun t =>
          if t.id = id then { t with completed := true, completionDate := some now } else t) := by
  unfold findTask markCompleteTask
  apply scanTask_map
  intro t
  by_cases h : t.id = id <;> simp [h]

theorem idNameEntry_markComplete (now : Int) (id : String) (t : Task) :
    idNameEntry (if t.id = id then { t with completed := true, completionDate := some now } else t)
      = idNameEntry t := by
  by_cases h : t.id = id <;> simp [h, idNameEntry]

theorem completeLoop_real (P : Platform) (B : Bridge)
    (hfail : ∀ t, B.markCompleteError t = none) (st : AppState) (ids : List String) :
    ∀ acc : MarkAcc,
      (∀ x, (findTask acc.st x).map idNameEntry = (findTask st x).map idNameEntry) →
      (completeLoop P B { dryRun := false } ids acc).done
          = acc.done ++ ((ids.map jsTrim).filterMap (findTask st)).map idNameEntry ∧
        (completeLoop P B { dryRun := false } ids acc).errors
          = acc.errors ++ ((ids.map jsTrim).filter (fun i => (findTask st i).isNone)).map
              (fun i => errorEntry i "Task not found") := by
  induction ids with
  | nil => intro acc _; simp [completeLoop]
  | cons taskId rest ih =>
    intro acc hagree
    have hx := hagree (jsTrim taskId)
    cases hcur : findTask acc.st (jsTrim taskId) with
    | none =>
      rw [hcur] at hx
      have h0 : findTask st (jsTrim taskId) = none := by
        cases h : findTask st (jsTrim taskId) with
        | none => rfl
        | some t => rw [h] at hx; simp at hx
      have := ih { acc with errors := acc.errors ++ [errorEntry (jsTrim taskId) "Task not found"] }
        hagree
      simp only [completeLoop, hcur]
      simp [this, h0]
    | some task =>
      rw [hcur] at hx
      cases h0 : findTask st (jsTrim taskId) with
      | none => rw [h0] at hx; simp at hx
      | some t0 =>
        rw [h0] at hx
        have hent : idNameEntry task = idNameEntry t0 := by simpa using hx
        have htid : task.id = jsTrim taskId := scanTask_id _ _ _ hcur
        have hself : findTask acc.st task.id = some task := by rw [htid]; exact hcur
        have hback : idNameEntry (taskById (markCompleteTask acc.st P.now task.id) task)
            = idNameEntry t0 := by
          unfold taskById
          rw [findTask_markComplete, hself]
          simpa [idNameEntry] using hent
        have hagree2 : ∀ x, (findTask (markCompleteTask acc.st P.now task.id) x).map idNameEntry
            = (findTask st x).map idNameEntry := by
          intro x
          rw [findTask_markComplete, ← hagree x]
          cases findTask acc.st x with
          | none => rfl
          | some u => simp [idNameEntry_markComplete]
        have := ih { acc with
            done := acc.done ++ [idNameEntry (taskById (markCompleteTask acc.st P.now task.id) task)]
            st := markCompleteTask acc.st P.now task.id } hagree2
        obtain ⟨hd, he⟩ := this
        simp only [completeLoop, hcur, hfail task]
        have hff : (false = true) = False := by simp
        simp only [hff, if_false]
        constructor
        · rw [hd]
          simp [h0, hback]
        · rw [he]
          simp [h0]

theorem found_missing_length (st : AppState) (ids : List String) :
    (ids.filterMap (findTask st)).length
        + (ids.filter (fun i => (findTask st i).isNone)).length = ids.length := by
  induction ids with
  | nil => rfl
  | cons i rest ih =>
    cases h : findTask st i with
    | none => simp [List.filterMap_cons, h]; omega
    | some t => simp [List.filterMap_cons, h]; omega

/-- C6, counterexample: for the empty list of ids (n = 0, k = 0) the payload
answers with the failure "Task ID(s) required", so `success` is false although
no id is unmatched, and there is no `completed` array. -/
theorem completeTask_empty_list_counterexample :
    taskIdsOf "" = [] ∧
      (completeTask samplePlatform reliableBridge sampleDoc "" {}).1.get "success"
        = some (Json.bool false) ∧
      (completeTask samplePlatform reliableBridge sampleDoc "" {}).1.get "completed" = none :=
  ⟨by decide, rfl, rfl⟩

/-- C6, amended: for `completeTask` outside dry-run mode, when marking complete
never fails and the list of non-blank ids is not empty, `completed` lists the
matched ids in the order supplied, `errors` lists the unmatched ids in that
order and is omitted exactly when there is none, `success` is true exactly when
there is none, and the two lists together have as many entries as there are ids. -/
theorem completeTask_partitions_ids (P : Platform) (B : Bridge) (st : AppState) (arg : String)
    (hfail : ∀ t, B.markCompleteError t = none) (hne : taskIdsOf arg ≠ []) :
    (completeTask P B st arg { dryRun := false }).1.get "completed"
        = some (Json.arr ((((taskIdsOf arg).map jsTrim).filterMap (findTask st)).map idNameEntry)) ∧
      (completeTask P B st arg { dryRun := false }).1.get "errors"
        = (if ((taskIdsOf arg).map jsTrim).filter (fun i => (findTask st i).isNone) = [] then none
           else some (Json.arr ((((taskIdsOf arg).map jsTrim).filter
              (fun i => (findTask st i).isNone)).map (fun i => errorEntry i "Task not found")))) ∧
      (completeTask P B st arg { dryRun := false }).1.get "success"
        = some (Json.bool (decide
            (((taskIdsOf arg).map jsTrim).filter (fun i => (findTask st i).isNone) = []))) ∧
      (((taskIdsOf arg).map jsTrim).filterMap (findTask st)).length
          + (((taskIdsOf arg).map jsTrim).filter (fun i => (findTask st i).isNone)).length
        = (taskIdsOf arg).length := by
  obtain ⟨hdone, herr⟩ := completeLoop_real P B hfail st (taskIdsOf arg) { st := st }
    (fun _ => rfl)
  have hemp : (taskIdsOf arg).isEmpty = false := by
    cases h : taskIdsOf arg with
    | nil => exact absurd h hne
    | cons a l => rfl
  simp only [List.nil_append] at hdone herr
  refine ⟨?_, ?_, ?_, ?_⟩
  · simp [completeTask, hemp, mkObj, Json.get, lookupField, hdone]
  · by_cases hm : ((taskIdsOf arg).map jsTrim).filter (fun i => (findTask st i).isNone) = []
    · rw [hm] at herr
      simp [completeTask, hemp, mkObj, Json.get, lookupField, herr, errorsField, hm]
    · have hm2 : (List.map (fun i => errorEntry i "Task not found")
          (((taskIdsOf arg).map jsTrim).filter (fun i => (findTask st i).isNone))).isEmpty = false := by
        cases h : ((taskIdsOf arg).map jsTrim).filter (fun i => (findTask st i).isNone) with
        | nil => exact absurd h hm
        | cons a l => rfl
      simp only [completeTask, hemp, mkObj, Json.get, herr, errorsField, hm2, if_neg hm]
      simp [lookupField]
  · by_cases hm : ((taskIdsOf arg).map jsTrim).filter (fun i => (findTask st i).isNone) = []
    · rw [hm] at herr
      simp [completeTask, hemp, mkObj, Json.get, lookupField, herr, hm]
    · have hm2 : (List.map (fun i => errorEntry i "Task not found")
          (((taskIdsOf arg).map jsTrim).filter (fun i => (findTask st i).isNone))).isEmpty = false := by
        cases h : ((taskIdsOf arg).map jsTrim).filter (fun i => (findTask st i).isNone) with
        | nil => exact absurd h hm
        | cons a l => rfl
      simp only [completeTask, hemp, mkObj, Json.get, herr, hm2, decide_eq_false hm]
      simp [lookupField]
  · have := found_missing_length st ((taskIdsOf arg).map jsTrim)
    simpa using this

/-- Witness for C6 (amended): three ids whose second matches no task give two
completed entries, one error entry and `success` false. -/
theorem completeTask_partitions_ids_witness :
    (completeTask samplePlatform reliableBridge sampleDoc "t1,nope,t3" {}).1.get "completed"
        = some (Json.arr [
            Json.obj [("id", Json.str "t1"), ("name", Json.str "Write Report")],
            Json.obj [("id", Json.str "t3"), ("name", Json.str "Call Bob")]]) ∧
      (completeTask samplePlatform reliableBridge sampleDoc "t1,nope,t3" {}).1.get "errors"
        = some (Json.arr [Json.obj [("id", Json.str "nope"), ("error", Json.str "Task not found")]]) ∧
      (completeTask samplePlatform reliableBridge sampleDoc "t1,nope,t3" {}).1.get "success"
        = some (Json.bool false) :=
  ⟨(completeTask_partitions_ids samplePlatform reliableBridge sampleDoc "t1,nope,t3"
      (fun _ => rfl) (by decide)).1,
    rfl, rfl⟩

/-! ### Dry-run mode -/

theorem completeLoop_dryRun_st (P : Platform) (B : Bridge) (opts : MarkOpts)
    (hdry : opts.dryRun = true) (ids : List String) :
    ∀ acc : MarkAcc, (completeLoop P B opts ids acc).st = acc.st := by
  induction ids with
  | nil => intro acc; rfl
  | cons taskId rest ih =>
    intro acc
    cases hcur : findTask acc.st (jsTrim taskId) with
    | none => simp [completeLoop, hcur, ih]
    | some task => simp [completeLoop, hcur, hdry, ih]

theorem dropLoop_dryRun_st (B : Bridge) (opts : MarkOpts) (hdry : opts.dryRun = true)
    (ids : List String) : ∀ acc : MarkAcc, (dropLoop B opts ids acc).st = acc.st := by
  induction ids with
  | nil => intro acc; rfl
  | cons taskId rest ih =>
    intro acc
    cases hcur : findTask acc.st (jsTrim taskId) with
    | none => simp [dropLoop, hcur, ih]
    | some task => simp [dropLoop, hcur, hdry, ih]

/-- C7: every write payload that accepts `dryRun` leaves the document, and with it
the journal of mutating bridge calls, exactly as it was when `dryRun` is true. -/
theorem dry_run_issues_no_mutation (P : Platform) (B : Bridge) (st : AppState) :
    (∀ (name : String) (opts : AddTaskOpts), opts.dryRun = true →
      (addTask P st name opts).2 = st) ∧
    (∀ (name : String) (opts : AddProjectOpts), opts.dryRun = true →
      (addProject P st name opts).2 = st) ∧
    (∀ (name : String) (opts : AddFolderOpts), opts.dryRun = true →
      (addFolder st name opts).2 = st) ∧
    (∀ (name : String) (opts : AddTagOpts), opts.dryRun = true →
      (addTag st name opts).2 = st) ∧
    (∀ (opts : AddBatchOpts), opts.dryRun = true → (addBatch st opts).2 = st) ∧
    (∀ (arg : String) (opts : MarkOpts), opts.dryRun = true →
      (completeTask P B st arg opts).2 = st) ∧
    (∀ (arg : String) (opts : MarkOpts), opts.dryRun = true →
      (dropTask B st arg opts).2 = st) ∧
    (∀ (taskId : String) (opts : ModifyTaskOpts), opts.dryRun = true →
      (modifyTask P st taskId opts).2 = st) ∧
    (∀ (nameOrId : String) (opts : ModifyProjectOpts), opts.dryRun = true →
      (modifyProject P st nameOrId opts).2 = st) ∧
    (∀ (nameOrId : String) (opts : ModifyFolderOpts), opts.dryRun = true →
      (modifyFolder st nameOrId opts).2 = st) ∧
    (∀ (nameOrId : String) (opts : ModifyTagOpts), opts.dryRun = true →
      (modifyTag st nameOrId opts).2 = st) ∧
    (∀ (nameOrId : String) (opts : MoveProjectOpts), opts.dryRun = true →
      (moveProject P st nameOrId opts).2 = st) := by
  refine ⟨?_, ?_, ?_, ?_, ?_, ?_, ?_, ?_, ?_, ?_, ?_, ?_⟩
  · intro name opts hdry
    unfold addTask
    split
    · simp [handleBulk, hdry]
    · by_cases hn : name = "" <;> simp [hn, hdry]
  · intro name opts hdry
    unfold addProject
    by_cases hn : name = "" <;> simp [hn, hdry]
  · intro name opts hdry
    unfold addFolder
    by_cases hn : name = "" <;> simp [hn, hdry]
  · intro name opts hdry
    unfold addTag
    by_cases hn : name = ""
    · simp [hn]
    · simp only [hn, if_false]
      split <;> simp [hdry]
  · intro opts hdry
    unfold addBatch
    split
    · simp [hdry]
    · rfl
  · intro arg opts hdry
    unfold completeTask
    by_cases he : (taskIdsOf arg).isEmpty = true
    · simp [he]
    · simp [he, hdry, completeLoop_dryRun_st P B opts hdry]
  · intro arg opts hdry
    unfold dropTask
    by_cases he : (taskIdsOf arg).isEmpty = true
    · simp [he]
    · simp [he, hdry, dropLoop_dryRun_st B opts hdry]
  · intro taskId opts hdry
    unfold modifyTask
    by_cases hn : taskId = ""
    · simp [hn]
    · simp only [hn, if_false]
      split <;> simp [hdry]
  · intro nameOrId opts hdry
    unfold modifyProject
    by_cases hn : nameOrId = ""
    · simp [hn]
    · simp only [hn, if_false]
      split <;> simp [hdry]
  · intro nameOrId opts hdry
    unfold modifyFolder
    by_cases hn : nameOrId = ""
    · simp [hn]
    · simp only [hn, if_false]
      split <;> simp [hdry]
  · intro nameOrId opts hdry
    unfold modifyTag
    by_cases hn : nameOrId = ""
    · simp [hn]
    · simp only [hn, if_false]
      split <;> simp [hdry]
  · intro nameOrId opts hdry
    unfold moveProject
    by_cases hn : nameOrId = ""
    · simp [hn]
    · simp only [hn, if_false]
      split <;> simp [hdry]

/-- Witness for C7: a dry run of `completeTask` on two existing tasks of the sample
document returns the document unchanged, while the real run records two
`markComplete` calls in the journal. -/
theorem dry_run_issues_no_mutation_witness :
    (completeTask samplePlatform reliableBridge sampleDoc "t1,t3" { dryRun := true }).2
        = sampleDoc ∧
      (completeTask samplePlatform reliableBridge sampleDoc "t1,t3" { dryRun := false }).2.journal
        = [AppCall.markComplete "t1", AppCall.markComplete "t3"] :=
  ⟨(dry_run_issues_no_mutation samplePlatform reliableBridge sampleDoc).2.2.2.2.2.1
      "t1,t3" { dryRun := true } rfl,
    by decide⟩

/-! ### Relative date expressions -/

theorem digitChar_value (k : Nat) (hk : k < 10) : (Nat.digitChar k).toNat - 48 = k := by
  interval_cases k <;> rfl

theorem digitChar_isDigit (k : Nat) (hk : k < 10) : (Nat.digitChar k).isDigit = true := by
  interval_cases k <;> rfl

theorem foldl_toDigitsCore (fuel : Nat) : ∀ (n : Nat) (ds : List Char), n < fuel →
    List.foldl (fun acc c => 10 * acc + (c.toNat - 48)) 0 (Nat.toDigitsCore 10 fuel n ds)
      = List.foldl (fun acc c => 10 * acc + (c.toNat - 48)) n ds := by
  induction fuel with
  | zero => intro n ds h; omega
  | succ fuel ih =>
    intro n ds h
    have hd : (Nat.digitChar (n % 10)).toNat - 48 = n % 10 :=
      digitChar_value _ (Nat.mod_lt _ (by decide))
    by_cases h0 : n / 10 = 0
    · have hn : n % 10 = n := by omega
      rw [hn] at hd
      simp [Nat.toDigitsCore, h0, hd, hn]
    · have hlt : n / 10 < fuel := by omega
      have hn : 10 * (n / 10) + n % 10 = n := Nat.div_add_mod n 10
      simp [Nat.toDigitsCore, h0, ih (n / 10) _ hlt, hd, hn]

theorem all_toDigitsCore (fuel : Nat) : ∀ (n : Nat) (ds : List Char),
    ds.all Char.isDigit = true → (Nat.toDigitsCore 10 fuel n ds).all Char.isDigit = true := by
  induction fuel with
  | zero => intro n ds h; simpa [Nat.toDigitsCore] using h
  | succ fuel ih =>
    intro n ds h
    have hd : (Nat.digitChar (n % 10)).isDigit = true :=
      digitChar_isDigit _ (Nat.mod_lt _ (by decide))
    have hcons : (Nat.digitChar (n % 10) :: ds).all Char.isDigit = true := by
      simp only [List.all_cons, hd, h, Bool.and_self]
    by_cases h0 : n / 10 = 0
    · simpa [Nat.toDigitsCore, h0] using hcons
    · simpa [Nat.toDigitsCore, h0] using ih (n / 10) _ hcons

theorem toDigitsCore_ne_nil (fuel : Nat) : ∀ (n : Nat) (ds : List Char),
    ds ≠ [] → Nat.toDigitsCore 10 fuel n ds ≠ [] := by
  induction fuel with
  | zero => intro n ds h; simpa [Nat.toDigitsCore] using h
  | succ fuel ih =>
    intro n ds _
    by_cases h0 : n / 10 = 0
    · simp [Nat.toDigitsCore, h0]
    · simpa [Nat.toDigitsCore, h0] using ih (n / 10) (Nat.digitChar (n % 10) :: ds) (by simp)

theorem digitsValue_toDigits (n : Nat) : digitsValue (Nat.toDigits 10 n) = n := by
  unfold digitsValue Nat.toDigits
  rw [foldl_toDigitsCore (n + 1) n [] (Nat.lt_succ_self n)]
  rfl

theorem toDigits_all_digits (n : Nat) : (Nat.toDigits 10 n).all Char.isDigit = true :=
  all_toDigitsCore (n + 1) n [] rfl

theorem toDigits_ne_nil (n : Nat) : Nat.toDigits 10 n ≠ [] := by
  unfold Nat.toDigits
  by_cases h0 : n / 10 = 0
  · simp [Nat.toDigitsCore, h0]
  · simpa [Nat.toDigitsCore, h0] using
      toDigitsCore_ne_nil n (n / 10) (Nat.digitChar (n % 10) :: []) (by simp)

theorem matchPlus_unit (unit : Char) (ds : List Char) (hne : ds ≠ [])
    (hall : ds.all Char.isDigit = true) :
    matchPlus unit ('+' :: (ds ++ [unit])) = some (digitsValue ds) := by
  have hrev : ds.reverse ≠ [] := by simpa using hne
  have hallr : ds.reverse.all Char.isDigit = true := by simpa using hall
  simp only [matchPlus, List.reverse_append, List.reverse_cons, List.reverse_nil, List.nil_append,
    List.singleton_append]
  simp [hrev, hall]

theorem matchPlus_other_unit (unit other : Char) (ds : List Char) (h : other ≠ unit) :
    matchPlus unit ('+' :: (ds ++ [other])) = none := by
  simp only [matchPlus, List.reverse_append, List.reverse_cons, List.reverse_nil, List.nil_append,
    List.singleton_append]
  simp [h]

theorem plus_number_data (n : Nat) (unit : String) :
    ("+" ++ toString n ++ unit).data = '+' :: (Nat.toDigits 10 n ++ unit.data) := by
  simp [toString, Nat.repr, List.asString]


theorem timeClip_valid (t : Int) (h : ValidTime t) : timeClip t = some t := by
  unfold timeClip
  exact if_pos h

theorem addDays_eq (P : Platform) (t k : Int)
    (h : ValidTime (localInstant P (localDay P t + k) (timeInDay P t))) :
    addDays P (some t) k = some (localInstant P (localDay P t + k) (timeInDay P t)) := by
  simp only [addDays, makeLocal]
  exact timeClip_valid _ h

theorem fivePm_after_days (P : Platform) (k : Int)
    (h1 : ValidTime (localInstant P (localDay P P.now + k) (timeInDay P P.now)))
    (hday : localDay P (localInstant P (localDay P P.now + k) (timeInDay P P.now))
      = localDay P P.now + k)
    (h2 : ValidTime (localInstant P (localDay P P.now + k) fivePm)) :
    setHoursFivePm P (addDays P (some P.now) k)
      = some (localInstant P (localDay P P.now + k) fivePm) := by
  rw [addDays_eq P P.now k h1]
  simp only [setHoursFivePm, makeLocal, hday]
  exact timeClip_valid _ h2

/-- In a time zone whose offset is the same at the two time values involved, a
local day and time within the day read back as that day and that time. -/
theorem localInstant_round_trip (P : Platform) (day msInDay : Int)
    (hm : 0 ≤ msInDay ∧ msInDay < msPerDay)
    (hz : P.localTZA (localInstant P day msInDay) true
      = P.localTZA (day * msPerDay + msInDay) false) :
    localDay P (localInstant P day msInDay) = day ∧
      timeInDay P (localInstant P day msInDay) = msInDay := by
  have hlocal : localTime P (localInstant P day msInDay) = day * msPerDay + msInDay := by
    unfold localTime
    rw [hz]
    simp only [localInstant, utcTime]
    ring
  simp only [localDay, timeInDay, hlocal, msPerDay] at hm ⊢
  constructor <;> omega

/-- C11, counterexample: for N = 1000000000 the day N days after the clock lies
beyond the largest time value of a `Date`, and `parseDate` yields an invalid date
instead of a timestamp; and when the clock stands in the year 50 the `Date`
constructor used for "today" reads that year as 1950. -/
theorem parseDate_relative_counterexample :
    parseDate samplePlatform "+1000000000d" = some none ∧
      parseDate yearFiftyPlatform "today"
        ≠ some (some (localInstant yearFiftyPlatform
            (localDay yearFiftyPlatform yearFiftyPlatform.now) fivePm)) ∧
      civilFromDays (localDay yearFiftyPlatform yearFiftyPlatform.now) = (50, 6, 15) ∧
      parseDate yearFiftyPlatform "today" = some (some (daysFromCivil 1950 6 15 * msPerDay + fivePm)) := by
  decide

/-- C11, amended: for a non-empty string that lower-cases and trims to "today",
"tomorrow", "next week", "+Nd" or "+Nw" (N written in decimal), `parseDate` is
the time value of 17:00:00.000 local time, with the offset of the time zone on
that day, on the local day that lies 0, 1, 7, N or 7 N days after the local day
of the clock, whatever the time of day of the clock.  The provisos are that
this time value is a valid one; for "today", that the local year of the clock
is not in 0..99; and for the other expressions, that the local time of the
clock on the target day is a valid time value which the time zone places on
the target day.  A local day and time are read back as that day and time
whenever the offset at the resulting instant is the one used to interpret
them, which fails only for a local time that a change of the clocks skips. -/
theorem parseDate_relative_expressions (P : Platform) (s : String) (hs : s ≠ "") :
    (jsTrim (P.toLowerCase s) = "today" →
      ¬ (0 ≤ (civilFromDays (localDay P P.now)).1 ∧ (civilFromDays (localDay P P.now)).1 ≤ 99) →
      ValidTime (localInstant P (localDay P P.now) fivePm) →
      parseDate P s = some (some (localInstant P (localDay P P.now) fivePm))) ∧
    (jsTrim (P.toLowerCase s) = "tomorrow" →
      ValidTime (localInstant P (localDay P P.now + 1) (timeInDay P P.now)) →
      localDay P (localInstant P (localDay P P.now + 1) (timeInDay P P.now))
        = localDay P P.now + 1 →
      ValidTime (localInstant P (localDay P P.now + 1) fivePm) →
      parseDate P s = some (some (localInstant P (localDay P P.now + 1) fivePm))) ∧
    (jsTrim (P.toLowerCase s) = "next week" →
      ValidTime (localInstant P (localDay P P.now + 7) (timeInDay P P.now)) →
      localDay P (localInstant P (localDay P P.now + 7) (timeInDay P P.now))
        = localDay P P.now + 7 →
      ValidTime (localInstant P (localDay P P.now + 7) fivePm) →
      parseDate P s = some (some (localInstant P (localDay P P.now + 7) fivePm))) ∧
    (∀ N : Nat, jsTrim (P.toLowerCase s) = "+" ++ toString N ++ "d" →
      ValidTime (localInstant P (localDay P P.now + N) (timeInDay P P.now)) →
      localDay P (localInstant P (localDay P P.now + N) (timeInDay P P.now))
        = localDay P P.now + N →
      ValidTime (localInstant P (localDay P P.now + N) fivePm) →
      parseDate P s = some (some (localInstant P (localDay P P.now + N) fivePm))) ∧
    (∀ N : Nat, jsTrim (P.toLowerCase s) = "+" ++ toString N ++ "w" →
      ValidTime (localInstant P (localDay P P.now + 7 * N) (timeInDay P P.now)) →
      localDay P (localInstant P (localDay P P.now + 7 * N) (timeInDay P P.now))
        = localDay P P.now + 7 * N →
      ValidTime (localInstant P (localDay P P.now + 7 * N) fivePm) →
      parseDate P s = some (some (localInstant P (localDay P P.now + 7 * N) fivePm))) ∧
    (∀ day msInDay : Int, 0 ≤ msInDay ∧ msInDay < msPerDay →
      P.localTZA (localInstant P day msInDay) true
        = P.localTZA (day * msPerDay + msInDay) false →
      localDay P (localInstant P day msInDay) = day ∧
        timeInDay P (localInstant P day msInDay) = msInDay) := by
  refine ⟨?_, ?_, ?_, ?_, ?_, ?_⟩
  · intro htok hyear hvalid
    simp only [parseDate, if_neg hs, htok, if_true, todayFivePm, if_neg hyear, makeLocal]
    rw [timeClip_valid _ hvalid]
  · intro htok h1 hday h2
    have hne : ("tomorrow" : String) ≠ "today" := by decide
    simp only [parseDate, if_neg hs, htok, if_neg hne, if_true]
    rw [fivePm_after_days P 1 h1 hday h2]
  · intro htok h1 hday h2
    have hne1 : ("next week" : String) ≠ "today" := by decide
    have hne2 : ("next week" : String) ≠ "tomorrow" := by decide
    simp only [parseDate, if_neg hs, htok, if_neg hne1, if_neg hne2, if_true]
    rw [fivePm_after_days P 7 h1 hday h2]
  · intro N htok h1 hday h2
    have hdata := plus_number_data N "d"
    have hne1 : "+" ++ toString N ++ "d" ≠ "today" := by
      intro h; rw [h] at hdata; simp at hdata
    have hne2 : "+" ++ toString N ++ "d" ≠ "tomorrow" := by
      intro h; rw [h] at hdata; simp at hdata
    have hne3 : "+" ++ toString N ++ "d" ≠ "next week" := by
      intro h; rw [h] at hdata; simp at hdata
    have hm : matchPlus 'd' ("+" ++ toString N ++ "d").data = some N := by
      rw [hdata]
      have := matchPlus_unit 'd' (Nat.toDigits 10 N) (toDigits_ne_nil N) (toDigits_all_digits N)
      rw [digitsValue_toDigits] at this
      exact this
    simp only [parseDate, if_neg hs, htok, if_neg hne1, if_neg hne2, if_neg hne3, hm]
    rw [fivePm_after_days P N h1 hday h2]
  · intro N htok h1 hday h2
    have hdata := plus_number_data N "w"
    have hne1 : "+" ++ toString N ++ "w" ≠ "today" := by
      intro h; rw [h] at hdata; simp at hdata
    have hne2 : "+" ++ toString N ++ "w" ≠ "tomorrow" := by
      intro h; rw [h] at hdata; simp at hdata
    have hne3 : "+" ++ toString N ++ "w" ≠ "next week" := by
      intro h; rw [h] at hdata; simp at hdata
    have hmd : matchPlus 'd' ("+" ++ toString N ++ "w").data = none := by
      rw [hdata]
      exact matchPlus_other_unit 'd' 'w' _ (by decide)
    have hm : matchPlus 'w' ("+" ++ toString N ++ "w").data = some N := by
      rw [hdata]
      have := matchPlus_unit 'w' (Nat.toDigits 10 N) (toDigits_ne_nil N) (toDigits_all_digits N)
      rw [digitsValue_toDigits] at this
      exact this
    have hk : ((N : Int) * 7) = 7 * N := by ring
    simp only [parseDate, if_neg hs, htok, if_neg hne1, if_neg hne2, if_neg hne3, hmd, hm]
    rw [hk, fivePm_after_days P (7 * N) h1 hday h2]
  · intro day msInDay hm hz
    exact localInstant_round_trip P day msInDay hm hz

/-- Witness for C11 (amended): on the sample platform (clock in the first day of
1970, UTC) the text " ToMorrow " is five in the afternoon of the second day,
and "+3D" five in the afternoon three days on; in New York at noon on the day
before the clocks go forward, "tomorrow" is 12 March 2023, 21:00 UTC, which is
17:00 local time with the new offset. -/
theorem parseDate_relative_expressions_witness :
    parseDate samplePlatform " ToMorrow " = some (some (1 * 86400000 + 61200000)) ∧
      parseDate samplePlatform "+3D" = some (some (3 * 86400000 + 61200000)) ∧
      parseDate newYorkPlatform "tomorrow" = some (some 1678654800000) ∧
      timeInDay newYorkPlatform 1678654800000 = fivePm :=
  ⟨(parseDate_relative_expressions samplePlatform " ToMorrow " (by decide)).2.1
      (by decide) (by decide) (by decide) (by decide),
    (parseDate_relative_expressions samplePlatform "+3D" (by decide)).2.2.2.1 3
      (by decide) (by decide) (by decide) (by decide),
    (parseDate_relative_expressions newYorkPlatform "tomorrow" (by decide)).2.1
      (by decide) (by decide) (by decide) (by decide),
    by decide⟩

/-! ### Month arithmetic and unparseable dates -/

/-- C12: evaluation of `modifyTask` with `dueBy` and `deferBy` equal to "+1m" on a
task whose due and defer dates are 31 January 2023, noon: both dates become
3 March 2023, noon, so the result does not lie in February. -/
theorem modifyTask_plus_one_month_skips_february :
    civilFromDays (localDay samplePlatform (daysFromCivil 2023 1 31 * msPerDay + 12 * 3600000))
        = (2023, 1, 31) ∧
      (taskById (modifyTask samplePlatform monthEndDoc "t1"
          { dueBy := some "+1m", deferBy := some "+1m" }).2
          { id := "t1", name := "Pay rent" }).dueDate
        = some (daysFromCivil 2023 3 3 * msPerDay + 12 * 3600000) ∧
      (taskById (modifyTask samplePlatform monthEndDoc "t1"
          { dueBy := some "+1m", deferBy := some "+1m" }).2
          { id := "t1", name := "Pay rent" }).deferDate
        = some (daysFromCivil 2023 3 3 * msPerDay + 12 * 3600000) ∧
      civilFromDays (localDay samplePlatform (daysFromCivil 2023 3 3 * msPerDay + 12 * 3600000))
        = (2023, 3, 3) := by
  decide

theorem trimChars_all_space (cs : List Char) (h : ∀ c ∈ cs, isJsSpace c = true) :
    trimChars cs = [] := by
  have h1 : cs.dropWhile isJsSpace = [] := List.dropWhile_eq_nil_iff.mpr h
  simp [trimChars, h1]

theorem matchPlus_some_form (unit : Char) (cs : List Char) (n : Nat)
    (h : matchPlus unit cs = some n) :
    ∃ ds : List Char, ds ≠ [] ∧ ds.all Char.isDigit = true ∧ cs = '+' :: (ds ++ [unit]) := by
  cases cs with
  | nil => simp [matchPlus] at h
  | cons c rest =>
    by_cases hc : c = '+'
    · subst hc
      simp only [matchPlus] at h
      cases hr : rest.reverse with
      | nil => simp [hr] at h
      | cons last revDigits =>
        simp only [hr] at h
        by_cases hcond : last = unit ∧ revDigits ≠ [] ∧ revDigits.all Char.isDigit = true
        · refine ⟨revDigits.reverse, ?_, ?_, ?_⟩
          · simpa using hcond.2.1
          · simpa using hcond.2.2
          · have hrest : rest = revDigits.reverse ++ [last] := by
              have := congrArg List.reverse hr
              simpa using this
            rw [hrest, hcond.1]
        · rw [if_neg hcond] at h
          cases h
    · exfalso
      revert h
      unfold matchPlus
      split
      · rename_i heq
        simp only [List.cons.injEq] at heq
        exact absurd heq.1 hc
      · simp

/-- C13: `parseDate` returns `null` for the empty string, for every
whitespace-only string (on a platform whose lower-casing leaves it unchanged
and whose date parser rejects it), and for every string that is no relative
token and that the date parser rejects; it is a total function. -/
theorem parseDate_null_cases (P : Platform) :
    parseDate P "" = none ∧
    (∀ s : String, s ≠ "" → (∀ c ∈ s.data, isJsSpace c = true) → P.toLowerCase s = s →
      P.dateParse s = none → parseDate P s = none) ∧
    (∀ s : String,
      jsTrim (P.toLowerCase s) ≠ "today" → jsTrim (P.toLowerCase s) ≠ "tomorrow" →
      jsTrim (P.toLowerCase s) ≠ "next week" →
      (∀ ds : List Char, ds ≠ [] → ds.all Char.isDigit = true →
        (jsTrim (P.toLowerCase s)).data ≠ '+' :: (ds ++ ['d']) ∧
        (jsTrim (P.toLowerCase s)).data ≠ '+' :: (ds ++ ['w'])) →
      P.dateParse s = none → parseDate P s = none) ∧
    (∀ s : String, ∃ r, parseDate P s = r) := by
  have hgen : ∀ s : String,
      jsTrim (P.toLowerCase s) ≠ "today" → jsTrim (P.toLowerCase s) ≠ "tomorrow" →
      jsTrim (P.toLowerCase s) ≠ "next week" →
      (∀ ds : List Char, ds ≠ [] → ds.all Char.isDigit = true →
        (jsTrim (P.toLowerCase s)).data ≠ '+' :: (ds ++ ['d']) ∧
        (jsTrim (P.toLowerCase s)).data ≠ '+' :: (ds ++ ['w'])) →
      P.dateParse s = none → parseDate P s = none := by
    intro s h1 h2 h3 hform hparse
    have hd : matchPlus 'd' (jsTrim (P.toLowerCase s)).data = none := by
      cases hm : matchPlus 'd' (jsTrim (P.toLowerCase s)).data with
      | none => rfl
      | some n =>
        obtain ⟨ds, hne, hall, heq⟩ := matchPlus_some_form _ _ _ hm
        exact absurd heq (hform ds hne hall).1
    have hw : matchPlus 'w' (jsTrim (P.toLowerCase s)).data = none := by
      cases hm : matchPlus 'w' (jsTrim (P.toLowerCase s)).data with
      | none => rfl
      | some n =>
        obtain ⟨ds, hne, hall, heq⟩ := matchPlus_some_form _ _ _ hm
        exact absurd heq (hform ds hne hall).2
    by_cases hs : s = ""
    · simp [parseDate, hs]
    · simp only [parseDate, if_neg hs, if_neg h1, if_neg h2, if_neg h3, hd, hw, hparse]
  refine ⟨by simp [parseDate], ?_, hgen, fun s => ⟨_, rfl⟩⟩
  intro s _ hspace hlow hparse
  have htrim : jsTrim (P.toLowerCase s) = "" := by
    rw [hlow]
    simp [jsTrim, trimChars_all_space s.data hspace]
  apply hgen s
  · rw [htrim]; decide
  · rw [htrim]; decide
  · rw [htrim]; decide
  · intro ds _ _
    rw [htrim]
    exact ⟨by simp, by simp⟩
  · exact hparse

/-- Witness for C13: on the sample platform a string of a space, a tab and a line
feed, and the text "someday", both give `null`. -/
theorem parseDate_null_cases_witness :
    parseDate samplePlatform " \t\n" = none ∧ parseDate samplePlatform "someday" = none :=
  ⟨(parseDate_null_cases samplePlatform).2.1 " \t\n" (by decide) (by decide) (by decide) rfl,
    (parseDate_null_cases samplePlatform).2.2.1 "someday" (by decide) (by decide) (by decide)
      (fun ds _ _ => ⟨by
        intro h
        have h2 : (jsTrim (samplePlatform.toLowerCase "someday")).data
            = ['s', 'o', 'm', 'e', 'd', 'a', 'y'] := by decide
        rw [h2] at h
        simp at h, by
        intro h
        have h2 : (jsTrim (samplePlatform.toLowerCase "someday")).data
            = ['s', 'o', 'm', 'e', 'd', 'a', 'y'] := by decide
        rw [h2] at h
        simp at h⟩) rfl⟩

/-! ### Date windows of the search -/

/-- C14: in a search with an active due bound, a task without a due date fails
the due-window check exactly when `requireDue` is set; without `requireDue`
the scan keeps it exactly when it passes the other seven checks, and with
`requireDue` no returned task lacks a due date. -/
theorem search_task_without_due_date (P : Platform) (doc : AppState) (query : String)
    (opts : SearchOpts)
    (hbound : (∃ s b, opts.dueBefore = some s ∧ s ≠ "" ∧ parseDate P s = some b) ∨
      (∃ s b, opts.dueAfter = some s ∧ s ≠ "" ∧ parseDate P s = some b)) :
    (∀ t : Task, t.dueDate = none →
      (passDue opts (resolvedFilters P doc query opts) t = false ↔ opts.requireDue = true)) ∧
    (opts.requireDue = false → ∀ t : Task, t.dueDate = none →
      searchKeeps P doc opts (resolvedFilters P doc query opts) t
        = (passCompleted opts t && passFlagged opts t && passAvailable P opts t &&
            passProject doc (resolvedFilters P doc query opts) t &&
            passTag doc (resolvedFilters P doc query opts) t &&
            passDefer (resolvedFilters P doc query opts) t &&
            passText P (resolvedFilters P doc query opts) t)) ∧
    (opts.requireDue = true → ∀ ts : List Json,
      (search P doc query opts).get "tasks" = some (Json.arr ts) →
      ∃ kept : List Task, kept.Sublist doc.tasks ∧ ts = kept.map (formatTask P doc) ∧
        ∀ t ∈ kept, t.dueDate ≠ none) := by
  have hactive : ((resolvedFilters P doc query opts).dueBefore.isSome
      || (resolvedFilters P doc query opts).dueAfter.isSome) = true := by
    rcases hbound with ⟨s, b, hs, hne, hp⟩ | ⟨s, b, hs, hne, hp⟩
    · simp [resolvedFilters, searchFilters, hs, parseDateOpt_some P s hne, hp]
    · simp [resolvedFilters, searchFilters, hs, parseDateOpt_some P s hne, hp]
  have hcheck : ∀ t : Task, t.dueDate = none →
      passDue opts (resolvedFilters P doc query opts) t = !opts.requireDue := by
    intro t ht
    simp only [passDue, hactive, if_true, ht]
  refine ⟨?_, ?_, ?_⟩
  · intro t ht
    rw [hcheck t ht]
    cases opts.requireDue <;> simp
  · intro hreq t ht
    simp only [searchKeeps, hcheck t ht, hreq]
    simp
  · intro hreq ts hts
    obtain ⟨_, _, heq, _⟩ := search_tasks_eq P doc query opts ts hts
    refine ⟨_, (List.take_sublist _ _).trans (List.filter_sublist _), heq, ?_⟩
    intro t ht hnone
    have hkeep : searchKeeps P doc opts (resolvedFilters P doc query opts) t = true :=
      (List.mem_filter.mp (List.mem_of_mem_take ht)).2
    simp only [searchKeeps, hcheck t hnone, hreq] at hkeep
    simp at hkeep

/-- Witness for C14: with the bound "+1d" and without `requireDue`, the sample
task "Call Bob", which has no due date, passes the due-window check. -/
theorem search_task_without_due_date_witness :
    passDue { dueBefore := some "+1d" }
        (resolvedFilters samplePlatform sampleDoc "" { dueBefore := some "+1d" })
        { id := "t3", name := "Call Bob", note := "about the report" } ≠ false :=
  fun h => absurd
    (((search_task_without_due_date samplePlatform sampleDoc "" { dueBefore := some "+1d" }
      (Or.inl ⟨"+1d", _, rfl, by decide, rfl⟩)).1
      { id := "t3", name := "Call Bob", note := "about the report" } rfl).mp h)
    (by decide)

/-- C15: in a search where `deferBefore` or `deferAfter` resolves to a date, the scan
skips every task without a defer date, whatever the other options are, and no
returned task lacks a defer date. -/
theorem search_task_without_defer_date (P : Platform) (doc : AppState) (query : String)
    (opts : SearchOpts)
    (hbound : (∃ s b, opts.deferBefore = some s ∧ s ≠ "" ∧ parseDate P s = some b) ∨
      (∃ s b, opts.deferAfter = some s ∧ s ≠ "" ∧ parseDate P s = some b)) :
    (∀ t : Task, t.deferDate = none →
      searchKeeps P doc opts (resolvedFilters P doc query opts) t = false) ∧
    (∀ ts : List Json, (search P doc query opts).get "tasks" = some (Json.arr ts) →
      ∃ kept : List Task, kept.Sublist doc.tasks ∧ ts = kept.map (formatTask P doc) ∧
        ∀ t ∈ kept, t.deferDate ≠ none) := by
  have hactive : ((resolvedFilters P doc query opts).deferBefore.isSome
      || (resolvedFilters P doc query opts).deferAfter.isSome) = true := by
    rcases hbound with ⟨s, b, hs, hne, hp⟩ | ⟨s, b, hs, hne, hp⟩
    · simp [resolvedFilters, searchFilters, hs, parseDateOpt_some P s hne, hp]
    · simp [resolvedFilters, searchFilters, hs, parseDateOpt_some P s hne, hp]
  have hskip : ∀ t : Task, t.deferDate = none →
      searchKeeps P doc opts (resolvedFilters P doc query opts) t = false := by
    intro t ht
    have hd : passDefer (resolvedFilters P doc query opts) t = false := by
      simp only [passDefer, hactive, if_true, ht]
    simp [searchKeeps, hd]
  refine ⟨hskip, ?_⟩
  intro ts hts
  obtain ⟨_, _, heq, _⟩ := search_tasks_eq P doc query opts ts hts
  refine ⟨_, (List.take_sublist _ _).trans (List.filter_sublist _), heq, ?_⟩
  intro t ht hnone
  have hkeep : searchKeeps P doc opts (resolvedFilters P doc query opts) t = true :=
    (List.mem_filter.mp (List.mem_of_mem_take ht)).2
  rw [hskip t hnone] at hkeep
  cases hkeep

/-- Witness for C15: with `deferBefore` "today" on the sample document only the one
task that has a defer date is returned. -/
theorem search_task_without_defer_date_witness :
    (search samplePlatform sampleDoc "" { deferBefore := some "today" }).get "tasks"
        = some (Json.arr [formatTask samplePlatform sampleDoc
            { id := "t4", name := "Plan trip", flagged := true, deferDate := some 2000000 }]) ∧
      searchKeeps samplePlatform sampleDoc { deferBefore := some "today" }
          (resolvedFilters samplePlatform sampleDoc "" { deferBefore := some "today" })
          { id := "t3", name := "Call Bob", note := "about the report" } = false :=
  ⟨rfl, (search_task_without_defer_date samplePlatform sampleDoc ""
      { deferBefore := some "today" } (Or.inl ⟨"today", _, rfl, by decide, rfl⟩)).1
    { id := "t3", name := "Call Bob", note := "about the report" } rfl⟩

/-- C17, counterexample: the bound `dueBefore` resolves to the timestamp 5000 and the
sample task "Write Report" is due exactly then; the search returns it, so the
upper bound is not exclusive. -/
theorem search_due_before_is_inclusive_counterexample :
    parseDate literalPlatform "1970-01-01T00:00:05Z" = some (some 5000) ∧
      (search literalPlatform sampleDoc ""
          { dueBefore := some "1970-01-01T00:00:05Z", project := some "Work" }).get "tasks"
        = some (Json.arr [formatTask literalPlatform sampleDoc
            { id := "t1", name := "Write Report", flagged := true, project := some "p1",
              tags := ["g1"], inInbox := false, dueDate := some 5000 }]) :=
  ⟨by decide, rfl⟩

/-- C17, amended: in the due-window check both bounds are inclusive: a task with due
date d passes exactly when d is at most the `dueBefore` timestamp (when that
bound is a valid date) and at least the `dueAfter` timestamp (when that bound is
a valid date). -/
theorem search_due_window_inclusive (opts : SearchOpts) (f : SearchFilters) (t : Task) (d : Int)
    (hd : t.dueDate = some d) :
    passDue opts f t = true ↔
      (∀ b, f.dueBefore = some (some b) → d ≤ b) ∧ (∀ a, f.dueAfter = some (some a) → a ≤ d) := by
  unfold passDue
  cases hb : f.dueBefore with
  | none =>
    cases ha : f.dueAfter with
    | none => simp
    | some a =>
      cases a with
      | none => simp [hd, dateLt]
      | some a => simp [hd, dateLt]
  | some b =>
    cases b with
    | none =>
      cases ha : f.dueAfter with
      | none => simp [hd, dateGt]
      | some a =>
        cases a with
        | none => simp [hd, dateGt, dateLt]
        | some a => simp [hd, dateGt, dateLt]
    | some b =>
      cases ha : f.dueAfter with
      | none => simp [hd, dateGt]
      | some a =>
        cases a with
        | none => simp [hd, dateGt, dateLt]
        | some a => simp [hd, dateGt, dateLt]

/-- Witness for C17 (amended): a task due at 5000 passes a window whose two bounds
are both 5000. -/
theorem search_due_window_inclusive_witness :
    passDue {}
        { targetProject := none, targetTag := none, dueBefore := some (some 5000),
          dueAfter := some (some 5000), deferBefore := none, deferAfter := none,
          queryLower := "" }
        { id := "t1", name := "Write Report", dueDate := some 5000 } = true :=
  (search_due_window_inclusive {}
    { targetProject := none, targetTag := none, dueBefore := some (some 5000),
      dueAfter := some (some 5000), deferBefore := none, deferAfter := none, queryLower := "" }
    { id := "t1", name := "Write Report", dueDate := some 5000 } 5000 rfl).mpr
    ⟨fun b hb => by cases hb; exact le_refl _, fun a ha => by cases ha; exact le_refl _⟩

/-- C18: when the non-empty project identifier of a search matches no project by id
or by name, the result is exactly the failure "Project not found: " followed by
the identifier, and it carries no task list, whatever the other options are. -/
theorem search_unknown_project (P : Platform) (doc : AppState) (query : String)
    (opts : SearchOpts) (ident : String) (hp : opts.project = some ident) (hne : ident ≠ "")
    (hnone : ∀ p ∈ doc.projects, p.id ≠ ident ∧ p.name ≠ ident) :
    search P doc query opts = failure ("Project not found: " ++ ident) ∧
      (search P doc query opts).get "tasks" = none := by
  have h1 : scanProjectById ident doc.projects = none :=
    scanProjectById_none ident _ (fun q hq => (hnone q hq).1)
  have h2 : scanProjectByName ident doc.projects = none :=
    scanProjectByName_none ident _ (fun q hq => (hnone q hq).2)
  have htr : strTruthy opts.project = true := by rw [hp]; exact strTruthy_some ident hne
  have hres : resolvedProject doc opts = none := by
    simp only [resolvedProject, htr, if_true]
    rw [hp, strOr_some ident "" hne]
    simp [findProject, h1, h2]
  have hsearch : search P doc query opts = failure ("Project not found: " ++ ident) := by
    unfold search
    rw [if_pos ⟨htr, by simp [hres]⟩, hp, strOr_some ident "" hne]
  refine ⟨hsearch, ?_⟩
  rw [hsearch]
  rfl

/-- Witness for C18: a flagged search in the project "NoSuchProject" on the sample
document. -/
theorem search_unknown_project_witness :
    search samplePlatform sampleDoc "" { flagged := true, project := some "NoSuchProject" }
      = failure "Project not found: NoSuchProject" :=
  (search_unknown_project samplePlatform sampleDoc ""
    { flagged := true, project := some "NoSuchProject" } "NoSuchProject" rfl (by decide)
    (by decide)).1

/-! ### Divergences found by evaluation -/

/-- C16: evaluation of the search with the tag filter "Urgent" on a document with two
tags of that name: the filter resolves to the first tag, and the task that
carries the second tag, whose name equals the name of the target, is not
returned, because the check compares identifiers only. -/
theorem search_tag_filter_ignores_equal_name :
    findTag twinTagDoc "Urgent" = some { id := "g1", name := "Urgent" } ∧
      taskTags twinTagDoc { id := "t1", name := "Fix bug", tags := ["g2"] }
        = Access.value [{ id := "g2", name := "Urgent", container := some "g0" }] ∧
      (search samplePlatform twinTagDoc "" { tag := some "Urgent" }).get "tasks"
        = some (Json.arr [formatTask samplePlatform twinTagDoc
            { id := "t2", name := "Ship release", tags := ["g1"] }]) :=
  ⟨by decide, by decide, rfl⟩

/-- C19: `isOmniFocusRunning` always resolves to a boolean, for every host on which
a probe process that succeeds prints what the script `isRunning.js` prints.  It
resolves to `true` exactly when the script is read, the probe process succeeds
and its trimmed output is not empty and parses to an object with `success`
equal to `true` and `running` equal to `true`; in every other case (the file
cannot be read, the process fails or times out, the output is empty or does
not parse, or `success` is `false`) it resolves to `false`. -/
theorem isOmniFocusRunning_boolean (H : Host)
    (hprobe : ∀ scriptContent stdout stderr result,
      H.readFile (H.resolve [H.jxaDir, "utils", "isRunning.js"]) = Except.ok scriptContent →
      H.execFile "osascript" ["-l", "JavaScript", "-e", scriptContent] 5000 (1024 * 1024)
        = Except.ok (stdout, stderr) →
      H.jsonParse (jsTrim stdout) = some result →
      ∃ processes, result = isRunning processes) :
    (isOmniFocusRunning H = some (Json.bool true) ∨
        isOmniFocusRunning H = some (Json.bool false)) ∧
      (isOmniFocusRunning H = some (Json.bool true) ↔
        ∃ scriptContent stdout stderr result,
          H.readFile (H.resolve [H.jxaDir, "utils", "isRunning.js"])
            = Except.ok scriptContent ∧
          H.execFile "osascript" ["-l", "JavaScript", "-e", scriptContent] 5000 (1024 * 1024)
            = Except.ok (stdout, stderr) ∧
          jsTrim stdout ≠ "" ∧
          H.jsonParse (jsTrim stdout) = some result ∧
          result.get "success" = some (Json.bool true) ∧
          result.get "running" = some (Json.bool true)) := by
  have hne : (Json.bool true) ≠ (Json.bool false) := by
    intro h
    cases h
  cases hread : H.readFile (H.resolve [H.jxaDir, "utils", "isRunning.js"]) with
  | error e =>
    have hval : isOmniFocusRunning H = some (Json.bool false) := by
      simp [isOmniFocusRunning, hread]
    refine ⟨Or.inr hval, ?_⟩
    rw [hval]
    constructor
    · intro h
      simp at h
    · rintro ⟨_, _, _, _, h, _⟩
      cases h
  | ok scriptContent =>
    cases hexec : H.execFile "osascript" ["-l", "JavaScript", "-e", scriptContent] 5000
        (1024 * 1024) with
    | error e =>
      have hval : isOmniFocusRunning H = some (Json.bool false) := by
        simp [isOmniFocusRunning, hread, hexec]
      refine ⟨Or.inr hval, ?_⟩
      rw [hval]
      constructor
      · intro h
        simp at h
      · rintro ⟨sc, _, _, _, h1, h2, _⟩
        cases h1
        rw [hexec] at h2
        cases h2
    | ok out =>
      obtain ⟨stdout, stderr⟩ := out
      by_cases hempty : jsTrim stdout = ""
      · have hval : isOmniFocusRunning H = some (Json.bool false) := by
          simp [isOmniFocusRunning, hread, hexec, hempty]
        refine ⟨Or.inr hval, ?_⟩
        rw [hval]
        constructor
        · intro h
          simp at h
        · rintro ⟨sc, _, _, _, h1, h2, h3, _⟩
          cases h1
          rw [hexec] at h2
          cases h2
          exact absurd hempty h3
      · cases hparse : H.jsonParse (jsTrim stdout) with
        | none =>
          have hval : isOmniFocusRunning H = some (Json.bool false) := by
            simp [isOmniFocusRunning, hread, hexec, hempty, hparse]
          refine ⟨Or.inr hval, ?_⟩
          rw [hval]
          constructor
          · intro h
            simp at h
          · rintro ⟨sc, _, _, _, h1, h2, _, h4, _⟩
            cases h1
            rw [hexec] at h2
            cases h2
            rw [hparse] at h4
            cases h4
        | some result =>
          obtain ⟨processes, hres⟩ := hprobe scriptContent stdout stderr result hread hexec hparse
          have hval : isOmniFocusRunning H = successAndRunning result := by
            rw [hres]
            cases processes <;>
              simp [isOmniFocusRunning, hread, hexec, hempty, hparse, hres, isRunning]
          have hwit : ∀ sc so se r,
              H.readFile (H.resolve [H.jxaDir, "utils", "isRunning.js"]) = Except.ok sc →
              H.execFile "osascript" ["-l", "JavaScript", "-e", sc] 5000 (1024 * 1024)
                = Except.ok (so, se) →
              H.jsonParse (jsTrim so) = some r → r = result := by
            intro sc so se r h1 h2 h4
            rw [hread] at h1
            cases h1
            rw [hexec] at h2
            cases h2
            rw [hparse] at h4
            cases h4
            rfl
          cases processes with
          | error message =>
            have hv : isOmniFocusRunning H = some (Json.bool false) := by
              rw [hval, hres]
              rfl
            refine ⟨Or.inr hv, ?_⟩
            rw [hv]
            constructor
            · intro h
              simp at h
            · rintro ⟨sc, so, se, r, h1, h2, _, h4, h5, _⟩
              have hr := hwit sc so se r (hread.trans h1) h2 h4
              rw [hr, hres] at h5
              simp [isRunning, Json.get, lookupField] at h5
          | ok count =>
            by_cases hc : count > 0
            · have hv : isOmniFocusRunning H = some (Json.bool true) := by
                rw [hval, hres]
                simp [isRunning, successAndRunning, jsTruthy, isTrue, Json.get, lookupField, hc]
              refine ⟨Or.inl hv, ?_⟩
              constructor
              · intro _
                refine ⟨scriptContent, stdout, stderr, result, rfl, hexec, hempty, hparse, ?_, ?_⟩
                · rw [hres]
                  rfl
                · rw [hres]
                  simp [isRunning, Json.get, lookupField, hc]
              · intro _
                exact hv
            · have hv : isOmniFocusRunning H = some (Json.bool false) := by
                rw [hval, hres]
                simp [isRunning, successAndRunning, jsTruthy, isTrue, Json.get, lookupField, hc]
              refine ⟨Or.inr hv, ?_⟩
              rw [hv]
              constructor
              · intro h
                simp at h
              · rintro ⟨sc, so, se, r, h1, h2, _, h4, _, h6⟩
                have hr := hwit sc so se r (hread.trans h1) h2 h4
                rw [hr, hres] at h6
                simp [isRunning, Json.get, lookupField, hc] at h6

/-- Witness for C19: a host whose probe prints the output of `isRunning.js` for one
running process, and one whose probe reports a failed query. -/
theorem isOmniFocusRunning_boolean_witness :
    isOmniFocusRunning (probeHost "\x7b\"success\":true,\"running\":true\x7d\n"
        (isRunning (Except.ok 1))) = some (Json.bool true) ∧
      (isOmniFocusRunning (probeHost "\x7b\"success\":false,\"running\":false\x7d\n"
          (isRunning (Except.error "denied"))) = some (Json.bool true) ∨
        isOmniFocusRunning (probeHost "\x7b\"success\":false,\"running\":false\x7d\n"
          (isRunning (Except.error "denied"))) = some (Json.bool false)) :=
  ⟨(isOmniFocusRunning_boolean
      (probeHost "\x7b\"success\":true,\"running\":true\x7d\n" (isRunning (Except.ok 1)))
      (fun _ _ _ result _ _ h => ⟨Except.ok 1, by
        simp only [probeHost] at h
        split at h
        · cases h
        · cases h
          rfl⟩)).2.mpr
      ⟨"script", "\x7b\"success\":true,\"running\":true\x7d\n", "", isRunning (Except.ok 1),
        rfl, rfl, by decide, rfl, rfl, rfl⟩,
    (isOmniFocusRunning_boolean
      (probeHost "\x7b\"success\":false,\"running\":false\x7d\n"
        (isRunning (Except.error "denied")))
      (fun _ _ _ result _ _ h => ⟨Except.error "denied", by
        simp only [probeHost] at h
        split at h
        · cases h
        · cases h
          rfl⟩)).1⟩

/-- C20: evaluation of `addTask` with a project option that names no project of the
sample document: the dry run answers with a successful preview and the message
that the task would be created, while the real run fails with "Project not
found: NoSuchProject". -/
theorem addTask_dry_run_previews_failing_call :
    findProject sampleDoc "NoSuchProject" = none ∧
      (addTask samplePlatform sampleDoc "Buy milk"
          { project := some "NoSuchProject", dryRun := true }).1.get "success"
        = some (Json.bool true) ∧
      (addTask samplePlatform sampleDoc "Buy milk"
          { project := some "NoSuchProject", dryRun := true }).1.get "message"
        = some (Json.str "DRY RUN: Task would be created") ∧
      (addTask samplePlatform sampleDoc "Buy milk"
          { project := some "NoSuchProject", dryRun := false }).1
        = failure "Project not found: NoSuchProject" :=
  ⟨by decide, rfl, rfl, rfl⟩

/-! ### The effective limit of the search -/

/-- C30: in the search payload the effective limit is the requested limit only when
it is a non-zero number.  A limit that is absent, `null` (how `NaN` arrives from
the command line, `parseInt` of a text without digits) or 0 gives the same
result as the limit 50, so at most 50 tasks; on the sample document a requested
limit of 0 returns three tasks.  A non-zero limit is used as it is, and with a
negative limit a successful search returns no task. -/
theorem search_limit_fallback (P : Platform) (doc : AppState) (query : String)
    (opts : SearchOpts) :
    (opts.limit = none ∨ opts.limit = some 0 →
      search P doc query opts = search P doc query { opts with limit := some 50 }) ∧
    (∀ ts, opts.limit = none ∨ opts.limit = some 0 →
      (search P doc query opts).get "tasks" = some (Json.arr ts) → ts.length ≤ 50) ∧
    (∀ text, parseIntJs text = none → limitOr (parseIntJs text) 50 = 50) ∧
    (∀ n : Int, n ≠ 0 → limitOr (some n) 50 = n) ∧
    (∀ n : Int, n < 0 → opts.limit = some n →
      (search P doc query opts).get "success" = some (Json.bool true) →
      (search P doc query opts).get "tasks" = some (Json.arr []) ∧
        (search P doc query opts).get "totalCount" = some (Json.num 0)) ∧
    (search samplePlatform sampleDoc "" { limit := some 0 }).get "totalCount"
      = some (Json.num 3) := by
  have hlim : opts.limit = none ∨ opts.limit = some 0 → limitOr opts.limit 50 = 50 := by
    intro h
    rcases h with h | h <;> simp [limitOr, h]
  refine ⟨?_, ?_, ?_, ?_, ?_, rfl⟩
  · intro h
    have h50 := hlim h
    simp only [search, searchRun, resolvedProject, resolvedTag, resolvedFilters, searchFilters,
      h50]
    rfl
  · intro ts h hts
    obtain ⟨_, _, heq, _⟩ := search_tasks_eq P doc query opts ts hts
    rw [hlim h] at heq
    rw [heq]
    simp
  · intro text h
    rw [h]
    rfl
  · intro n hn
    simp [limitOr, hn]
  · intro n hn hl hs
    have hlo : limitOr opts.limit 50 = n := by simp [limitOr, hl]; omega
    unfold search at hs ⊢
    split at hs
    · simp [failure, Json.get, lookupField] at hs
    · split at hs
      · simp [failure, Json.get, lookupField] at hs
      · rename_i h1 h2
        simp only [if_neg h1, if_neg h2]
        have hz : n.toNat = 0 := by omega
        simp only [searchRun, searchLoop_eq, hlo, sub_zero, hz, List.take_zero, List.map_nil,
          List.append_nil]
        exact ⟨rfl, rfl⟩

/-- Witness for C30: on the sample document a limit of 0 gives the result of the
limit 50, and with the limit -1 the search succeeds with an empty list. -/
theorem search_limit_fallback_witness :
    search samplePlatform sampleDoc "" { limit := some 0 }
        = search samplePlatform sampleDoc "" { limit := some 50 } ∧
      (search samplePlatform sampleDoc "" { limit := some (-1) }).get "tasks"
        = some (Json.arr []) :=
  ⟨(search_limit_fallback samplePlatform sampleDoc "" { limit := some 0 }).1 (Or.inr rfl),
    ((search_limit_fallback samplePlatform sampleDoc "" { limit := some (-1) }).2.2.2.2.1
      (-1) (by decide) rfl rfl).1⟩

/-! ### Project lifecycle -/

theorem scanProjectById_mem (x : String) (l : List Project) (p : Project)
    (h : scanProjectById x l = some p) : p ∈ l ∧ p.id = x := by
  induction l with
  | nil => simp [scanProjectById] at h
  | cons q rest ih =>
    by_cases hq : q.id = x
    · simp [scanProjectById, hq] at h
      subst h
      exact ⟨List.mem_cons_self _ _, hq⟩
    · simp [scanProjectById, hq] at h
      exact ⟨List.mem_cons_of_mem _ (ih h).1, (ih h).2⟩

theorem scanProjectByName_mem (x : String) (l : List Project) (p : Project)
    (h : scanProjectByName x l = some p) : p ∈ l := by
  induction l with
  | nil => simp [scanProjectByName] at h
  | cons q rest ih =>
    by_cases hq : q.name = x
    · simp [scanProjectByName, hq] at h
      subst h
      exact List.mem_cons_self _ _
    · simp [scanProjectByName, hq] at h
      exact List.mem_cons_of_mem _ (ih h)

theorem findProject_mem (st : AppState) (x : String) (p : Project)
    (h : findProject st x = some p) : p ∈ st.projects := by
  unfold findProject at h
  split at h
  · rename_i q hq
    simp at h
    subst h
    exact (scanProjectById_mem x _ q hq).1
  · split at h
    · rename_i q hq
      simp at h
      subst h
      exact scanProjectByName_mem x _ q hq
    · simp at h

theorem scanProjectById_of_mem (p : Project) (l : List Project) (h : p ∈ l) :
    ∃ q ∈ l, q.id = p.id ∧ scanProjectById p.id l = some q := by
  induction l with
  | nil => simp at h
  | cons r rest ih =>
    by_cases hr : r.id = p.id
    · exact ⟨r, List.mem_cons_self _ _, hr, by simp [scanProjectById, hr]⟩
    · have hp : p ∈ rest := by
        rcases List.mem_cons.mp h with h1 | h1
        · exact absurd (by rw [h1]) hr
        · exact h1
      obtain ⟨q, hq, hid, hs⟩ := ih hp
      exact ⟨q, List.mem_cons_of_mem _ hq, hid, by simp [scanProjectById, hr, hs]⟩

theorem scanProjectById_update (pid : String) (f : Project → Project)
    (hid : ∀ p, (f p).id = p.id) (l : List Project) :
    scanProjectById pid (l.map (fun p => if p.id = pid then f p else p))
      = (scanProjectById pid l).map f := by
  induction l with
  | nil => simp [scanProjectById]
  | cons r rest ih =>
    by_cases hr : r.id = pid
    · have hfr : (f r).id = pid := by rw [hid, hr]
      simp [scanProjectById, hr, hfr]
    · simp [scanProjectById, hr, ih]

theorem projectById_update (st st1 : AppState) (project : Project) (f : Project → Project)
    (hid : ∀ p, (f p).id = p.id) (hmem : project ∈ st.projects)
    (hst : st1.projects = st.projects.map (fun p => if p.id = project.id then f p else p)) :
    ∃ q ∈ st.projects, q.id = project.id ∧ projectById st1 project = f q := by
  obtain ⟨q, hq, hqid, hs⟩ := scanProjectById_of_mem project st.projects hmem
  refine ⟨q, hq, hqid, ?_⟩
  unfold projectById
  rw [hst, scanProjectById_update project.id f hid, hs]
  rfl

/-- C28: `modifyProject`, not in dry-run mode, on an existing project, with an
options object that holds exactly one lifecycle option and nothing else, answers
`success: true` with the one-element `changes` list "on hold", "activated",
"completed", "dropped" or "marked reviewed", and the project ends on hold,
active, done or dropped, respectively with the current instant as its last
review date. -/
theorem modifyProject_single_lifecycle_option (P : Platform) (st : AppState)
    (nameOrId : String) (project : Project) (raw : Json) (hne : nameOrId ≠ "")
    (hfound : findProject st nameOrId = some project) :
    ((modifyProject P st nameOrId { raw := raw, hold := true }).1.get "success"
        = some (Json.bool true) ∧
      (modifyProject P st nameOrId { raw := raw, hold := true }).1.get "changes"
        = some (Json.arr [Json.str "on hold"]) ∧
      (projectById (modifyProject P st nameOrId { raw := raw, hold := true }).2 project).status
        = ProjectStatus.onHold) ∧
    ((modifyProject P st nameOrId { raw := raw, activate := true }).1.get "success"
        = some (Json.bool true) ∧
      (modifyProject P st nameOrId { raw := raw, activate := true }).1.get "changes"
        = some (Json.arr [Json.str "activated"]) ∧
      (projectById (modifyProject P st nameOrId { raw := raw, activate := true }).2
          project).status
        = ProjectStatus.active) ∧
    ((modifyProject P st nameOrId { raw := raw, complete := true }).1.get "success"
        = some (Json.bool true) ∧
      (modifyProject P st nameOrId { raw := raw, complete := true }).1.get "changes"
        = some (Json.arr [Json.str "completed"]) ∧
      (projectById (modifyProject P st nameOrId { raw := raw, complete := true }).2
          project).status
        = ProjectStatus.done) ∧
    ((modifyProject P st nameOrId { raw := raw, drop := true }).1.get "success"
        = some (Json.bool true) ∧
      (modifyProject P st nameOrId { raw := raw, drop := true }).1.get "changes"
        = some (Json.arr [Json.str "dropped"]) ∧
      (projectById (modifyProject P st nameOrId { raw := raw, drop := true }).2 project).status
        = ProjectStatus.dropped) ∧
    ((modifyProject P st nameOrId { raw := raw, reviewed := true }).1.get "success"
        = some (Json.bool true) ∧
      (modifyProject P st nameOrId { raw := raw, reviewed := true }).1.get "changes"
        = some (Json.arr [Json.str "marked reviewed"]) ∧
      (projectById (modifyProject P st nameOrId { raw := raw, reviewed := true }).2
          project).lastReviewDate
        = some P.now) := by
  have hmem := findProject_mem st nameOrId project hfound
  have hrun : ∀ opts : ModifyProjectOpts, opts.dryRun = false → opts.status = none →
      modifyProject P st nameOrId opts =
        (Json.obj [
          ("success", Json.bool true),
          ("message", Json.str
            (changesMessage "Project" (modifyProjectSteps P st project opts none).2)),
          ("project", Json.obj [
            ("id", Json.str (projectById (modifyProjectSteps P st project opts none).1 project).id),
            ("name", Json.str
              (projectById (modifyProjectSteps P st project opts none).1 project).name),
            ("status", Json.str
              (projectById (modifyProjectSteps P st project opts none).1 project).status.text)]),
          ("changes", Json.arr ((modifyProjectSteps P st project opts none).2.map Json.str))],
          (modifyProjectSteps P st project opts none).1) := by
    intro opts hdry hstatus
    simp [modifyProject, hne, hfound, hdry, requestedStatus, hstatus, strTruthy]
  refine ⟨?_, ?_, ?_, ?_, ?_⟩
  · rw [hrun _ rfl rfl]
    have hsteps : modifyProjectSteps P st project { raw := raw, hold := true } none
        = (setProject st project.id "status"
            (fun p => { p with status := ProjectStatus.onHold }), ["on hold"]) := by
      simp [modifyProjectSteps, applyChange, applyChangeWith, strTruthy, parseDateOpt,
        Field.isDefined]
    rw [hsteps]
    refine ⟨rfl, rfl, ?_⟩
    obtain ⟨q, _, _, hq⟩ := projectById_update st (setProject st project.id "status"
        (fun p => { p with status := ProjectStatus.onHold })) project
      (fun p => { p with status := ProjectStatus.onHold }) (fun _ => rfl) hmem rfl
    rw [hq]
  · rw [hrun _ rfl rfl]
    have hsteps : modifyProjectSteps P st project { raw := raw, activate := true } none
        = (setProject st project.id "status"
            (fun p => { p with status := ProjectStatus.active }), ["activated"]) := by
      simp [modifyProjectSteps, applyChange, applyChangeWith, strTruthy, parseDateOpt,
        Field.isDefined]
    rw [hsteps]
    refine ⟨rfl, rfl, ?_⟩
    obtain ⟨q, _, _, hq⟩ := projectById_update st (setProject st project.id "status"
        (fun p => { p with status := ProjectStatus.active })) project
      (fun p => { p with status := ProjectStatus.active }) (fun _ => rfl) hmem rfl
    rw [hq]
  · rw [hrun _ rfl rfl]
    have hsteps : modifyProjectSteps P st project { raw := raw, complete := true } none
        = (markCompleteProject st P.now project.id, ["completed"]) := by
      simp [modifyProjectSteps, applyChange, applyChangeWith, strTruthy, parseDateOpt,
        Field.isDefined]
    rw [hsteps]
    refine ⟨rfl, rfl, ?_⟩
    obtain ⟨q, _, _, hq⟩ := projectById_update st (markCompleteProject st P.now project.id) project
      (fun p => { p with status := ProjectStatus.done, completionDate := some P.now })
      (fun _ => rfl) hmem rfl
    rw [hq]
  · rw [hrun _ rfl rfl]
    have hsteps : modifyProjectSteps P st project { raw := raw, drop := true } none
        = (markDroppedProject st project.id, ["dropped"]) := by
      simp [modifyProjectSteps, applyChange, applyChangeWith, strTruthy, parseDateOpt,
        Field.isDefined]
    rw [hsteps]
    refine ⟨rfl, rfl, ?_⟩
    obtain ⟨q, _, _, hq⟩ := projectById_update st (markDroppedProject st project.id) project
      (fun p => { p with status := ProjectStatus.dropped }) (fun _ => rfl) hmem rfl
    rw [hq]
  · rw [hrun _ rfl rfl]
    have hsteps : modifyProjectSteps P st project { raw := raw, reviewed := true } none
        = (setProject st project.id "lastReviewDate"
            (fun p => { p with lastReviewDate := some P.now }), ["marked reviewed"]) := by
      simp [modifyProjectSteps, applyChange, applyChangeWith, strTruthy, parseDateOpt,
        Field.isDefined]
    rw [hsteps]
    refine ⟨rfl, rfl, ?_⟩
    obtain ⟨q, _, _, hq⟩ := projectById_update st (setProject st project.id "lastReviewDate"
        (fun p => { p with lastReviewDate := some P.now })) project
      (fun p => { p with lastReviewDate := some P.now }) (fun _ => rfl) hmem rfl
    rw [hq]

/-- Witness for C28: putting the project "Work" of the sample document on hold. -/
theorem modifyProject_single_lifecycle_option_witness :
    (modifyProject samplePlatform sampleDoc "Work" { hold := true }).1.get "changes"
        = some (Json.arr [Json.str "on hold"]) ∧
      (projectById (modifyProject samplePlatform sampleDoc "Work" { hold := true }).2
          { id := "p1", name := "Work" }).status
        = ProjectStatus.onHold :=
  (modifyProject_single_lifecycle_option samplePlatform sampleDoc "Work"
    { id := "p1", name := "Work" } (Json.obj []) (by decide) (by decide)).1.2

/-! ### Unresolved project of `modifyTask` -/

/-- C23: `modifyTask` on an existing task with a non-empty project option that
matches no project by id or by name answers `success: true` with the message
"Task updated successfully" and leaves the document as it was; it does not
report "Project not found". -/
theorem modifyTask_unresolved_project_reports_success (P : Platform) (st : AppState)
    (taskId ident : String) (task : Task) (hne : taskId ≠ "")
    (hfind : findTask st taskId = some task) (hid : ident ≠ "")
    (hnone : findProject st ident = none) :
    modifyTask P st taskId { project := Field.value ident }
      = (Json.obj [
          ("success", Json.bool true),
          ("message", Json.str "Task updated successfully"),
          ("task", formatTask P st (taskById st task))], st) := by
  simp [modifyTask, hne, hfind, Field.isDefined, Field.text, strTruthy, hid, hnone]

/-- Witness for C23: moving the task "t3" of the sample document to the project
"NoSuchProject". -/
theorem modifyTask_unresolved_project_reports_success_witness :
    (modifyTask samplePlatform sampleDoc "t3" { project := Field.value "NoSuchProject" }).1.get
        "message" = some (Json.str "Task updated successfully") ∧
      (modifyTask samplePlatform sampleDoc "t3" { project := Field.value "NoSuchProject" }).2
        = sampleDoc := by
  rw [modifyTask_unresolved_project_reports_success samplePlatform sampleDoc "t3"
    "NoSuchProject" { id := "t3", name := "Call Bob", note := "about the report" }
    (by decide) (by decide) (by decide) (by decide)]
  exact ⟨rfl, rfl⟩

/-! ### Dry-run envelopes -/

/-- C21 counterexample: the dry-run results of `modifyTask`, `completeTask` and
`dropTask` on the task "t1" of the sample document have `dryRun` equal to
`true` and no property `preview`; the prospective change is under `changes`,
`wouldComplete` and `wouldDrop`. -/
theorem dry_run_without_preview_counterexample :
    ((modifyTask samplePlatform sampleDoc "t1"
        { dryRun := true, flagged := Field.value false }).1.get "dryRun"
        = some (Json.bool true) ∧
      (modifyTask samplePlatform sampleDoc "t1"
        { dryRun := true, flagged := Field.value false }).1.get "preview" = none ∧
      (modifyTask samplePlatform sampleDoc "t1"
        { dryRun := true, flagged := Field.value false }).1.get "changes"
        = some (Json.obj [("flagged",
            Json.obj [("from", Json.bool true), ("to", Json.bool false)])])) ∧
    ((completeTask samplePlatform reliableBridge sampleDoc "t1" { dryRun := true }).1.get
        "dryRun" = some (Json.bool true) ∧
      (completeTask samplePlatform reliableBridge sampleDoc "t1" { dryRun := true }).1.get
        "preview" = none ∧
      (completeTask samplePlatform reliableBridge sampleDoc "t1" { dryRun := true }).1.get
        "wouldComplete"
        = some (Json.arr [Json.obj [("id", Json.str "t1"), ("name", Json.str "Write Report"),
            ("alreadyCompleted", Json.bool false)]])) ∧
    ((dropTask reliableBridge sampleDoc "t1" { dryRun := true }).1.get "dryRun"
        = some (Json.bool true) ∧
      (dropTask reliableBridge sampleDoc "t1" { dryRun := true }).1.get "preview" = none ∧
      (dropTask reliableBridge sampleDoc "t1" { dryRun := true }).1.get "wouldDrop"
        = some (Json.arr [Json.obj [("id", Json.str "t1"),
            ("name", Json.str "Write Report")]])) :=
  ⟨⟨rfl, rfl, rfl⟩, ⟨rfl, rfl, rfl⟩, ⟨rfl, rfl, rfl⟩⟩

/-- C21 (amended): every write payload invoked in dry-run mode on resolvable
entities returns an envelope with `dryRun` equal to `true`.  The envelope
carries a `preview` object for `addTask`, `addProject`, `addFolder` (whose
`preview.name` is the supplied name), `addTag`, `addBatch`, `modifyProject`,
`modifyFolder`, `modifyTag` and `moveProject`.  It has no `preview` for
`modifyTask`, which describes the change under `task` and `changes`, nor for
`completeTask` and `dropTask`, which list the tasks under `wouldComplete` and
`wouldDrop`. -/
theorem dry_run_envelopes (P : Platform) (B : Bridge) (st : AppState) :
    (∀ (name : String) (opts : AddTaskOpts), opts.dryRun = true → name ≠ "" →
      (addTask P st name opts).1.get "dryRun" = some (Json.bool true) ∧
        ∃ fields, (addTask P st name opts).1.get "preview" = some (Json.obj fields)) ∧
    (∀ (name : String) (opts : AddProjectOpts), opts.dryRun = true → name ≠ "" →
      (addProject P st name opts).1.get "dryRun" = some (Json.bool true) ∧
        ∃ fields, (addProject P st name opts).1.get "preview" = some (Json.obj fields)) ∧
    (∀ (name : String) (opts : AddFolderOpts), opts.dryRun = true → name ≠ "" →
      (addFolder st name opts).1.get "dryRun" = some (Json.bool true) ∧
        ∃ fields, (addFolder st name opts).1.get "preview" = some (Json.obj fields) ∧
          (Json.obj fields).get "name" = some (Json.str name)) ∧
    (∀ (name : String) (opts : AddTagOpts), opts.dryRun = true → name ≠ "" →
      (opts.force = true ∨ findTag st name = none) →
      (addTag st name opts).1.get "dryRun" = some (Json.bool true) ∧
        ∃ fields, (addTag st name opts).1.get "preview" = some (Json.obj fields)) ∧
    (∀ (opts : AddBatchOpts) (first : OutlineProject) (more : List OutlineProject),
      opts.dryRun = true → opts.projects = some (first :: more) →
      (addBatch st opts).1.get "dryRun" = some (Json.bool true) ∧
        ∃ fields, (addBatch st opts).1.get "preview" = some (Json.obj fields)) ∧
    (∀ (nameOrId : String) (opts : ModifyProjectOpts) (project : Project),
      opts.dryRun = true → nameOrId ≠ "" → findProject st nameOrId = some project →
      (modifyProject P st nameOrId opts).1.get "dryRun" = some (Json.bool true) ∧
        ∃ fields, (modifyProject P st nameOrId opts).1.get "preview"
          = some (Json.obj fields)) ∧
    (∀ (nameOrId : String) (opts : ModifyFolderOpts) (folder : Folder),
      opts.dryRun = true → nameOrId ≠ "" → findFolder st nameOrId = some folder →
      (modifyFolder st nameOrId opts).1.get "dryRun" = some (Json.bool true) ∧
        ∃ fields, (modifyFolder st nameOrId opts).1.get "preview" = some (Json.obj fields)) ∧
    (∀ (nameOrId : String) (opts : ModifyTagOpts) (tag : Tag),
      opts.dryRun = true → nameOrId ≠ "" → findTag st nameOrId = some tag →
      (modifyTag st nameOrId opts).1.get "dryRun" = some (Json.bool true) ∧
        ∃ fields, (modifyTag st nameOrId opts).1.get "preview" = some (Json.obj fields)) ∧
    (∀ (nameOrId : String) (opts : MoveProjectOpts) (project : Project),
      opts.dryRun = true → nameOrId ≠ "" → findProject st nameOrId = some project →
      (moveProject P st nameOrId opts).1.get "dryRun" = some (Json.bool true) ∧
        ∃ fields, (moveProject P st nameOrId opts).1.get "preview"
          = some (Json.obj fields)) ∧
    (∀ (taskId : String) (opts : ModifyTaskOpts) (task : Task),
      opts.dryRun = true → taskId ≠ "" → findTask st taskId = some task →
      (modifyTask P st taskId opts).1.get "dryRun" = some (Json.bool true) ∧
        (modifyTask P st taskId opts).1.get "preview" = none ∧
        (modifyTask P st taskId opts).1.get "task" = some (formatTask P st task) ∧
        ∃ fields, (modifyTask P st taskId opts).1.get "changes" = some (Json.obj fields)) ∧
    (∀ (arg : String) (opts : MarkOpts), opts.dryRun = true → taskIdsOf arg ≠ [] →
      (completeTask P B st arg opts).1.get "dryRun" = some (Json.bool true) ∧
        (completeTask P B st arg opts).1.get "preview" = none ∧
        ∃ items, (completeTask P B st arg opts).1.get "wouldComplete"
          = some (Json.arr items)) ∧
    (∀ (arg : String) (opts : MarkOpts), opts.dryRun = true → taskIdsOf arg ≠ [] →
      (dropTask B st arg opts).1.get "dryRun" = some (Json.bool true) ∧
        (dropTask B st arg opts).1.get "preview" = none ∧
        ∃ items, (dropTask B st arg opts).1.get "wouldDrop" = some (Json.arr items)) := by
  refine ⟨?_, ?_, ?_, ?_, ?_, ?_, ?_, ?_, ?_, ?_, ?_, ?_⟩
  · intro name opts hd hn
    unfold addTask
    split
    · simp [handleBulk, hd, Json.get, lookupField]
    · simp [hn, hd, Json.get, lookupField]
  · intro name opts hd hn
    simp [addProject, hn, hd, Json.get, lookupField]
  · intro name opts hd hn
    simp [addFolder, hn, hd, Json.get, lookupField]
  · intro name opts hd hn hfree
    have hnone : (if opts.force = true then none else findTag st name) = none := by
      rcases hfree with h | h
      · simp [h]
      · simp [h]
    simp [addTag, hn, hd, hnone, Json.get, lookupField]
  · intro opts first more hd hp
    simp [addBatch, hp, hd, Json.get, lookupField]
  · intro nameOrId opts project hd hn hf
    simp [modifyProject, hn, hf, hd, Json.get, lookupField]
  · intro nameOrId opts folder hd hn hf
    simp [modifyFolder, hn, hf, hd, Json.get, lookupField]
  · intro nameOrId opts tag hd hn hf
    simp [modifyTag, hn, hf, hd, Json.get, lookupField]
  · intro nameOrId opts project hd hn hf
    simp [moveProject, hn, hf, hd, Json.get, lookupField]
  · intro taskId opts task hd hn hf
    simp [modifyTask, hn, hf, hd, Json.get, lookupField, mkObj]
  · intro arg opts hd hids
    have he : (taskIdsOf arg).isEmpty = false := by
      cases h : taskIdsOf arg with
      | nil => exact absurd h hids
      | cons a l => rfl
    unfold completeTask
    simp only [he, hd]
    cases herr : errorsField (completeLoop P B opts (taskIdsOf arg) { st := st }).errors <;>
      simp [mkObj, Json.get, lookupField, herr]
  · intro arg opts hd hids
    have he : (taskIdsOf arg).isEmpty = false := by
      cases h : taskIdsOf arg with
      | nil => exact absurd h hids
      | cons a l => rfl
    unfold dropTask
    simp only [he, hd]
    cases herr : errorsField (dropLoop B opts (taskIdsOf arg) { st := st }).errors <;>
      simp [mkObj, Json.get, lookupField, herr]

/-- Witness for C21: the dry run of `addFolder` with the name "Archive" on the sample
document previews that name, and the dry run of `modifyTask` on the task "t1"
has no preview. -/
theorem dry_run_envelopes_witness :
    (∃ fields, (addFolder sampleDoc "Archive" { dryRun := true }).1.get "preview"
        = some (Json.obj fields) ∧
      (Json.obj fields).get "name" = some (Json.str "Archive")) ∧
    (modifyTask samplePlatform sampleDoc "t1" { dryRun := true }).1.get "preview" = none :=
  ⟨((dry_run_envelopes samplePlatform reliableBridge sampleDoc).2.2.1 "Archive"
      { dryRun := true } rfl (by decide)).2,
    ((dry_run_envelopes samplePlatform reliableBridge sampleDoc).2.2.2.2.2.2.2.2.2.1 "t1"
      { dryRun := true }
      { id := "t1", name := "Write Report", flagged := true, project := some "p1",
        tags := ["g1"], inInbox := false, dueDate := some 5000 } rfl (by decide)
      (by decide)).2.1⟩

/-! ### The result of `listTasksByTag` -/

/-- C22: for an existing tag `listTasksByTag` returns a bare array: the result is
not an object, it has no `success` field, and the plain-output branch of
`print` reports it as the error "Unknown error". -/
theorem listTasksByTag_returns_bare_array (P : Platform) (doc : AppState) (tagNameOrId : String)
    (opts : TagTasksOpts) (tag : Tag) (hne : tagNameOrId ≠ "")
    (hfound : findTag doc tagNameOrId = some tag) :
    (∃ items, listTasksByTag P doc tagNameOrId opts = Json.arr items) ∧
      (listTasksByTag P doc tagNameOrId opts).get "success" = none ∧
      printedError (listTasksByTag P doc tagNameOrId opts)
        = some (Json.str "Unknown error") := by
  have h : listTasksByTag P doc tagNameOrId opts
      = Json.arr (tagTasksLoop P doc tag opts.includeCompleted (limitOr opts.limit 100)
          doc.tasks []) := by
    simp [listTasksByTag, hne, hfound]
  rw [h]
  exact ⟨⟨_, rfl⟩, rfl, rfl⟩

/-- Witness for C22: the tasks of the tag "Urgent" of the sample document. -/
theorem listTasksByTag_returns_bare_array_witness :
    listTasksByTag samplePlatform sampleDoc "Urgent" {}
        = Json.arr [formatTask samplePlatform sampleDoc
            { id := "t1", name := "Write Report", flagged := true, project := some "p1",
              tags := ["g1"], inInbox := false, dueDate := some 5000 }] ∧
      printedError (listTasksByTag samplePlatform sampleDoc "Urgent" {})
        = some (Json.str "Unknown error") :=
  ⟨rfl, (listTasksByTag_returns_bare_array samplePlatform sampleDoc "Urgent" {}
    { id := "g1", name := "Urgent" } (by decide) (by decide)).2.2⟩

/-! ### Arguments of the MCP tools -/

theorem fullScript_ne_separator (helpers script : String) :
    helpers ++ "\n" ++ script ≠ "--" := by
  intro h
  have hd := congrArg String.data h
  have hmem : '\n' ∈ (helpers ++ "\n" ++ script).data := by
    simp [String.data_append]
  rw [hd] at hmem
  revert hmem
  decide

theorem separatorIndex_processArguments (helpers script : String) (args : List String) :
    separatorIndex (processArguments helpers script args) = some 5 := by
  have h := fullScript_ne_separator helpers script
  simp [processArguments, separatorIndex, h]

theorem getArg_processArguments (helpers script : String) (args : List String) (k : Nat) :
    getArg (processArguments helpers script args) (k + 4)
      = match args[k]? with
        | some arg => if arg ≠ "" then some arg else none
        | none => none := by
  unfold getArg
  rw [separatorIndex_processArguments]
  have hlen : (processArguments helpers script args).length = args.length + 6 := by
    simp [processArguments]
  have hidx : ((5 : Nat) : Int) + 1 + (((k + 4 : Nat) : Int) - 4) = ((k + 6 : Nat) : Int) := by
    push_cast
    ring
  simp only [hidx, hlen, Int.toNat_ofNat]
  have hget : (processArguments helpers script args)[k + 6]? = args[k]? := by
    simp [processArguments]
  rw [hget]
  by_cases hk : k < args.length
  · have h1 : ¬ (((args.length + 6 : Nat) : Int) ≤ ((k + 6 : Nat) : Int)) := by
      push_cast
      omega
    rw [if_neg h1]
  · have h1 : (((args.length + 6 : Nat) : Int) ≤ ((k + 6 : Nat) : Int)) := by
      push_cast
      omega
    rw [if_pos h1]
    have h2 : args[k]? = none := by
      apply List.getElem?_eq_none
      omega
    rw [h2]

/-- C24: for the MCP task tool with the action `complete` or `drop` and at least two
ids, the tool passes each id as a positional argument of its own, and the
payload reads its id list from the first positional argument alone, so the id
list is that of the first id.  On the sample document the ids "t3" and "t4"
give one completed (one dropped) task, "t3"; the task "t4" is neither marked
nor reported as an error. -/
theorem mcp_mark_reads_first_id_only (stringify : Json → String) (helpers script : String)
    (first second : String) (more : List String) :
    mcpMarkArgs stringify { ids := some (first :: second :: more) }
        = Except.ok (first :: second :: more ++ [stringify (Json.obj [])]) ∧
      taskIdsOf ((getArg (processArguments helpers script
          (first :: second :: more ++ [stringify (Json.obj [])])) 4).getD "")
        = taskIdsOf first ∧
      getArg (processArguments helpers script
          (first :: second :: more ++ [stringify (Json.obj [])])) 5
        = (if second ≠ "" then some second else none) ∧
      mcpTaskComplete samplePlatform reliableBridge sampleRuntime sampleStringify "helpers"
          "script" sampleDoc { ids := some ["t3", "t4"] }
        = Except.ok (Json.obj [
            ("success", Json.bool true),
            ("completed", Json.arr [Json.obj [("id", Json.str "t3"),
              ("name", Json.str "Call Bob")]]),
            ("message", Json.str "1 task(s) completed")],
          markCompleteTask sampleDoc 1000000 "t3") ∧
      (findTask (markCompleteTask sampleDoc 1000000 "t3") "t4").map (fun t => t.completed)
        = some false ∧
      mcpTaskDrop reliableBridge sampleRuntime sampleStringify "helpers" "script" sampleDoc
          { ids := some ["t3", "t4"] }
        = Except.ok (Json.obj [
            ("success", Json.bool true),
            ("dropped", Json.arr [Json.obj [("id", Json.str "t3"),
              ("name", Json.str "Call Bob")]]),
            ("message", Json.str "1 task(s) dropped")],
          markDroppedTask sampleDoc "t3") ∧
      (findTask (markDroppedTask sampleDoc "t3") "t4").map (fun t => t.dropped)
        = some false := by
  refine ⟨rfl, ?_, ?_, rfl, by decide, rfl, by decide⟩
  · have h := getArg_processArguments helpers script
      (first :: second :: more ++ [stringify (Json.obj [])]) 0
    simp only [Nat.zero_add] at h
    rw [h]
    by_cases hf : first = ""
    · simp [hf]
    · simp [hf]
  · have h := getArg_processArguments helpers script
      (first :: second :: more ++ [stringify (Json.obj [])]) 1
    simp only [Nat.reduceAdd] at h
    rw [h]
    simp

theorem taskById_id (st : AppState) (t : Task) : (taskById st t).id = t.id := by
  unfold taskById findTask
  cases h : scanTask t.id st.tasks with
  | none => rfl
  | some u => exact scanTask_id t.id st.tasks u h

theorem parseJsonArg_round_trip (R : Runtime) (stringify : Json → String)
    (helpers script first : String) (value : Json)
    (hrt : R.jsonParse (stringify value) = some value) (defaultValue : Json) :
    parseJsonArg R (processArguments helpers script [first, stringify value]) 5 defaultValue
      = value := by
  have hne : stringify value ≠ "" := by
    intro h
    rw [h, R.jsonParse_empty] at hrt
    cases hrt
  have h := getArg_processArguments helpers script [first, stringify value] 1
  simp only [Nat.reduceAdd] at h
  unfold parseJsonArg
  rw [h]
  simp [hne, hrt]

theorem getArg_first (helpers script first : String) (rest : List String) (hne : first ≠ "") :
    getArg (processArguments helpers script (first :: rest)) 4 = some first := by
  have h := getArg_processArguments helpers script (first :: rest) 0
  simp only [Nat.zero_add] at h
  rw [h]
  simp [hne]

/-- C25: creating a task through the MCP task tool with the action `create`, a name
and a due or defer expression succeeds with the identifier of the new task, but
the tool sends the expressions under the keys `due` and `defer`, which
`addTask` does not read: the result has neither `dueDate` nor `deferDate`, and
the task is created in the inbox without a due or defer date, whatever the
expressions are. -/
theorem mcp_create_drops_due (P : Platform) (R : Runtime) (stringify : Json → String)
    (helpers script : String) (st : AppState) (name : String) (due defer : Option String)
    (hname : name ≠ "")
    (hrt : R.jsonParse
        (stringify (mcpCreateOptions { name := some name, due := due, defer := defer }))
      = some (mcpCreateOptions { name := some name, due := due, defer := defer })) :
    ∃ r, mcpTaskCreate P R stringify helpers script st
          { name := some name, due := due, defer := defer }
        = Except.ok r ∧
      r.1.get "success" = some (Json.bool true) ∧
      r.1.get "id" = some (Json.str (freshId st.nextId)) ∧
      r.1.get "dueDate" = none ∧
      r.1.get "deferDate" = none ∧
      r.2.tasks = st.tasks ++ [{ id := freshId st.nextId, name := name, inInbox := true }] := by
  have hdec : addTaskOptsOf (mcpCreateOptions { name := some name, due := due, defer := defer })
      = { tags := some [] } := by
    cases due <;> cases defer <;>
      simp [mcpCreateOptions, mkObj, addTaskOptsOf, strField, bulkNames, tagNames, jsTruthy,
        Json.get, lookupField]
  have hmain : addTaskMain P R st (processArguments helpers script
        [name, stringify (mcpCreateOptions { name := some name, due := due, defer := defer })])
      = addTask P st name { tags := some [] } := by
    unfold addTaskMain
    rw [parseJsonArg_round_trip R stringify helpers script name _ hrt,
      getArg_first helpers script name _ hname]
    simp only [Option.getD_some]
    have hobj : ∃ fields,
        mcpCreateOptions { name := some name, due := due, defer := defer } = Json.obj fields :=
      ⟨_, rfl⟩
    obtain ⟨fields, hf⟩ := hobj
    rw [hf] at hdec ⊢
    show addTask P st name (addTaskOptsOf (Json.obj fields)) = _
    rw [hdec]
  refine ⟨addTask P st name { tags := some [] }, ?_, ?_⟩
  · simp only [mcpTaskCreate, strTruthy, strOr, hname, ne_eq, not_false_eq_true, decide_True,
      if_true, if_false]
    rw [hmain]
  · have hid := taskById_id (insertInboxTask st name).2 (insertInboxTask st name).1
    simp only [insertInboxTask] at hid
    simp [addTask, hname, createTask, strTruthy, parseDateOpt, addTagsLoop, insertInboxTask,
      mkObj, Json.get, lookupField, hid]

/-- Witness for C25: the task "Buy milk" due "tomorrow" created through the MCP task
tool on the sample document, where "tomorrow" is an expression that `parseDate`
resolves. -/
theorem mcp_create_drops_due_witness :
    (parseDate samplePlatform "tomorrow").isSome = true ∧
    ∃ r, mcpTaskCreate samplePlatform sampleRuntime sampleStringify "helpers" "script"
          sampleDoc { name := some "Buy milk", due := some "tomorrow" }
        = Except.ok r ∧
      r.1.get "success" = some (Json.bool true) ∧
      r.1.get "id" = some (Json.str (freshId sampleDoc.nextId)) ∧
      r.1.get "dueDate" = none ∧
      r.1.get "deferDate" = none ∧
      r.2.tasks = sampleDoc.tasks ++
        [{ id := freshId sampleDoc.nextId, name := "Buy milk", inInbox := true }] :=
  ⟨by decide, mcp_create_drops_due samplePlatform sampleRuntime sampleStringify "helpers"
    "script" sampleDoc "Buy milk" (some "tomorrow") none (by decide) rfl⟩

/-- C26: the MCP project tool actions `complete`, `drop` and `set_status`, and the
utility action `mark_reviewed`, send the options object with the single key
`action`, which `modifyProject` does not read.  On an existing project each of
them answers `success: true` with the message "No changes made" and an empty
`changes` list, and leaves the document, and so the status and the last review
date of the project, as they were. -/
theorem mcp_project_actions_change_nothing (P : Platform) (R : Runtime)
    (stringify : Json → String) (helpers script : String) (st : AppState)
    (ident action : String) (project : Project) (hne : ident ≠ "")
    (hfound : findProject st ident = some project)
    (hrt : R.jsonParse (stringify (Json.obj [("action", Json.str action)]))
      = some (Json.obj [("action", Json.str action)])) :
    mcpModifyProject P R stringify helpers script st ident action
        = (Json.obj [
            ("success", Json.bool true),
            ("message", Json.str "No changes made"),
            ("project", Json.obj [
              ("id", Json.str (projectById st project).id),
              ("name", Json.str (projectById st project).name),
              ("status", Json.str (projectById st project).status.text)]),
            ("changes", Json.arr [])], st) ∧
      (action = "complete" →
        mcpProjectComplete P R stringify helpers script st { id := some ident }
          = Except.ok (mcpModifyProject P R stringify helpers script st ident action)) ∧
      (action = "drop" →
        mcpProjectDrop P R stringify helpers script st { id := some ident }
          = Except.ok (mcpModifyProject P R stringify helpers script st ident action)) ∧
      (∀ status, action = actionMap status →
        mcpProjectSetStatus P R stringify helpers script st
            { id := some ident, status := some status }
          = Except.ok (mcpModifyProject P R stringify helpers script st ident action)) ∧
      (action = "review" →
        mcpMarkReviewed P R stringify helpers script st { project_id := some ident }
          = Except.ok (mcpModifyProject P R stringify helpers script st ident action)) := by
  refine ⟨?_, ?_, ?_, ?_, ?_⟩
  · unfold mcpModifyProject modifyProjectMain
    rw [parseJsonArg_round_trip R stringify helpers script ident _ hrt,
      getArg_first helpers script ident _ hne]
    simp only [Option.getD_some, hne, if_false, hfound]
    have hdec : modifyProjectOptsOf (Json.obj [("action", Json.str action)])
        = { raw := Json.obj [("action", Json.str action)] } := by
      simp [modifyProjectOptsOf, strField, strFieldOf, boolFieldOf, jsTruthy, Json.get,
        lookupField]
    rw [hdec]
    simp [modifyProject, hne, hfound, requestedStatus, modifyProjectSteps, applyChange,
      applyChangeWith, strTruthy, parseDateOpt, Field.isDefined, changesMessage]
  · intro ha
    subst ha
    simp [mcpProjectComplete, strTruthy, strOr, hne]
  · intro ha
    subst ha
    simp [mcpProjectDrop, strTruthy, strOr, hne]
  · intro status ha
    subst ha
    simp [mcpProjectSetStatus, strTruthy, strOr, hne]
  · intro ha
    subst ha
    simp [mcpMarkReviewed, strTruthy, strOr, hne]

/-- Witness for C26: the action `complete` of the MCP project tool on the project
"p1" of the sample document, which stays active. -/
theorem mcp_project_actions_change_nothing_witness :
    mcpProjectComplete samplePlatform sampleRuntime sampleStringify "helpers" "script"
        sampleDoc { id := some "p1" }
      = Except.ok (Json.obj [
          ("success", Json.bool true),
          ("message", Json.str "No changes made"),
          ("project", Json.obj [
            ("id", Json.str "p1"),
            ("name", Json.str "Work"),
            ("status", Json.str "active status")]),
          ("changes", Json.arr [])], sampleDoc) := by
  have h := mcp_project_actions_change_nothing samplePlatform sampleRuntime sampleStringify
    "helpers" "script" sampleDoc "p1" "complete" { id := "p1", name := "Work" } (by decide)
    (by decide) rfl
  rw [h.2.1 rfl, h.1]
  rfl

/-! ### The outline reader -/

theorem takeWhile_dropWhile_append (p : Char → Bool) (a b : List Char)
    (ha : ∀ c ∈ a, p c = true) (hb : ∀ c, b.head? = some c → p c = false) :
    (a ++ b).takeWhile p = a ∧ (a ++ b).dropWhile p = b := by
  induction a with
  | nil =>
    cases b with
    | nil => simp
    | cons c t =>
      have hc : p c = false := hb c rfl
      simp [List.takeWhile, List.dropWhile, hc]
  | cons x rest ih =>
    have hx : p x = true := ha x (List.mem_cons_self _ _)
    have hrest := ih (fun c hc => ha c (List.mem_cons_of_mem _ hc))
    simp [List.takeWhile, List.dropWhile, hx, hrest.1, hrest.2]

theorem bulletText_line_terminator (spaces rest : List Char)
    (h : ∃ c ∈ rest, isLineTerminator c = true) :
    ∀ k, bulletText spaces rest k = none := by
  intro k
  induction k with
  | zero => rfl
  | succ k ih =>
    obtain ⟨c, hc, hlt⟩ := h
    have hall : (List.drop (k + 1) spaces ++ rest).all (fun c => !isLineTerminator c) = false := by
      rw [List.all_eq_false]
      exact ⟨c, List.mem_append_right _ hc, by simp [hlt]⟩
    simp [bulletText, hall, ih]

theorem matchBullet_line_terminator (indent spaces text : List Char) (marker : Char)
    (hindent : ∀ c ∈ indent, isJsSpace c = true) (hmarker : marker = '-' ∨ marker = '*')
    (hspaces : ∀ c ∈ spaces, isJsSpace c = true)
    (htext : ∀ c, text.head? = some c → isJsSpace c = false)
    (hlt : ∃ c ∈ text, isLineTerminator c = true) :
    matchBullet (indent ++ marker :: (spaces ++ text)) = none := by
  have hm : isJsSpace marker = false := by
    rcases hmarker with h | h <;> subst h <;> decide
  have h1 := takeWhile_dropWhile_append isJsSpace indent (marker :: (spaces ++ text)) hindent
    (fun c hc => by
      simp at hc
      rw [← hc]
      exact hm)
  have h2 := takeWhile_dropWhile_append isJsSpace spaces text hspaces htext
  unfold matchBullet
  rw [h1.2]
  simp only [hmarker, if_true, h2.1, h2.2, bulletText_line_terminator spaces text hlt]

/-- C29: `parseOutline` reads an outline whose lines end with a line feed as the
docstring describes, but a bullet line whose text holds a line terminator, such
as the carriage return that a CR-LF line ending leaves at the end of the line,
does not match the bullet pattern and contributes nothing: an outline with
CR-LF line endings yields no project at all.  A marker followed only by two
blanks yields a project with the empty name. -/
theorem parseOutline_drops_carriage_return_lines :
    (parseOutline "- Home\n  - Paint\n  * Fix roof  \n# note\n\n- Work\nplain\n\t- Mail"
        = [{ name := "Home", tasks := ["Paint", "Fix roof"] },
           { name := "Work", tasks := ["Mail"] }]) ∧
      parseOutline "- Home\r\n  - Paint\r\n- Work\r\n" = [] ∧
      parseOutline "-  " = [{ name := "", tasks := [] }] ∧
      (∀ (indent spaces text : List Char) (marker : Char),
        (∀ c ∈ indent, isJsSpace c = true) → (marker = '-' ∨ marker = '*') →
        (∀ c ∈ spaces, isJsSpace c = true) →
        (∀ c, text.head? = some c → isJsSpace c = false) → '\r' ∈ text →
        matchBullet (indent ++ marker :: (spaces ++ text)) = none) := by
  refine ⟨rfl, rfl, rfl, ?_⟩
  intro indent spaces text marker hindent hmarker hspaces htext hcr
  exact matchBullet_line_terminator indent spaces text marker hindent hmarker hspaces htext
    ⟨'\r', hcr, by decide⟩

/-- Witness for C29: the line "- Home" followed by a carriage return. -/
theorem parseOutline_drops_carriage_return_lines_witness :
    matchBullet ([] ++ '-' :: ([' '] ++ ['H', 'o', 'm', 'e', '\r'])) = none :=
  parseOutline_drops_carriage_return_lines.2.2.2 [] [' '] ['H', 'o', 'm', 'e', '\r'] '-'
    (by decide) (by decide) (by decide) (by decide) (by decide)

end OmniFocus
